import Mathlib

/-!
# Tier-1 advisors of the SemaFORR decision core

A shallow embedding of `semaforr/src/Tier1Advisor.cpp` (the six Tier-1 advisors) and of
`FORRBarriers::updateBarriers` (`semaforr/include/semaforr/FORRBarriers.h`), followed by theorems
about the embedded code.

Conventions of the embedding.

* `std::set<FORRAction>` is a `Finset FORRAction`; a `std::set` that the code iterates over
  (`action_set`) is the `List` of its elements in iteration order.
* `int` values are `Int`, container sizes are `Nat`.  All loop counters are bounded by the size of
  an action set, so no counter leaves the range of a 32-bit `int`.
* `double` values are rationals (`ℚ`): finite doubles, no NaN and no infinity.  The veto advisors
  and Victory only compare them with the literals `0.75`, `0.25` and `0.1`.  `0.75` and `0.25`
  are binary fractions, and for a finite double `d` the test `d >= 0.1` holds exactly when
  `d ≥ 1/10` as rationals, since the double nearest to `0.1` lies above `1/10` and no double lies
  between the two.  The distances between grid cells that GetOut compares are compared exactly.
  The change to world coordinates of GetOut rounds the result of every operation to a double with
  `Snapshot.roundDouble`; the theorems hold for every rounding function.
* A read of a vector outside of its bounds is undefined behaviour in C++.  Where the value read
  only feeds the log (`advisorNotOpposite`, line 16) the embedding yields an unspecified value
  `junk`, and every theorem holds for every `junk`; where the value steers the computation
  (`advisorGetOut`) the embedding ends the run with the outcome `outOfRange`.
* Everything the advisors read through `beliefs->getAgentState()` or `beliefs->getSpatialModel()`
  and that is defined outside of the embedded files is a field of `Snapshot`.
* What the advisors write (the vetoed set, the calls of `updatePlanPositions` and of
  `createNewWaypoint`) is a field of `Beliefs`.
-/

namespace Semaforr

/-! ## Data model -/

/-- Modelled from the spec: `FORRAction.h` is not part of the sources.  The four action types of
the data model, under the names the advisors use for them. -/
inductive FORRActionType where
  | FORWARD
  | RIGHT_TURN
  | LEFT_TURN
  | PAUSE
  deriving DecidableEq, Repr

/-- Modelled from the spec: `FORRAction.h` is not part of the sources.  An action is a type and an
intensity (`parameter`, an `int`); two actions are equal iff both agree. -/
structure FORRAction where
  type : FORRActionType
  parameter : Int
  deriving DecidableEq, Repr

/-- Modelled from the spec: `FORRGeometry.h` is not part of the sources.  A point of the plane. -/
structure CartesianPoint where
  x : ℚ
  y : ℚ
  deriving DecidableEq, Repr

/-- Modelled from the spec: `Position.h` is not part of the sources.  A pose `(x, y, theta)`. -/
structure Position where
  x : ℚ
  y : ℚ
  theta : ℚ
  deriving DecidableEq, Repr

/-- A laser scan, as the list of its range readings.  The advisors only pass scans on. -/
structure LaserScan where
  ranges : List ℚ
  deriving DecidableEq, Repr

/-- The read-only collaborators of one decision cycle: every query the advisors make through
`beliefs` whose implementation lies outside of `Tier1Advisor.cpp`. -/
structure Snapshot where
  /-- Value of `getCurrentTask()->getPreviousDecisions()` -/
  getPreviousDecisions : List FORRAction
  /-- Value of `getRotationActionSet()->size()` -/
  rotationSetSize : Nat
  /-- Value of `getForwardActionSet()->size()` -/
  forwardSetSize : Nat
  /-- Value of `getActionSet()`, in iteration order -/
  getActionSet : List FORRAction
  /-- Value of `maxForwardAction()` -/
  maxForwardAction : FORRAction
  /-- Value of `getExpectedPositionAfterAction(a)` -/
  getExpectedPositionAfterAction : FORRAction → Position
  /-- Value of `getCurrentTask()->getPlanPositionValue(x, y)` -/
  getPlanPositionValue : ℚ → ℚ → Bool
  /-- Value of `getSituations()->getAccuracyForSituation(agentState)` -/
  getAccuracyForSituation : ℚ
  /-- Value of `getSituations()->getWeightForAction(agentState, a)` -/
  getWeightForAction : FORRAction → ℚ
  /-- The goal `(getTaskX(), getTaskY())` -/
  task : CartesianPoint
  /-- The next waypoint `(getX(), getY())` of the current task -/
  waypoint : CartesianPoint
  /-- Value of `canSeePoint(p, range)` -/
  canSeePoint : CartesianPoint → ℚ → Bool
  /-- Value of `moveTowards(p)` -/
  moveTowards : CartesianPoint → FORRAction
  /-- Value of `getCurrentPosition()` -/
  getCurrentPosition : Position
  /-- Value of `p.getDistance(q)` on positions -/
  getDistance : Position → Position → ℚ
  /-- Value of `getRobotConfined(20, getDistanceToNearestObstacle(getCurrentPosition()), 20)` -/
  getRobotConfined : Bool
  /-- Value of `getCurrentTask()->getPositionHistory()` -/
  getPositionHistory : List Position
  /-- Value of `getAllLaserScanHistory()` -/
  getAllLaserScanHistory : List LaserScan
  /-- Value of `getSituations()->overlaySituations(lasers, positions)` -/
  overlaySituations : List LaserScan → List Position → List (List Int)
  /-- The C library function `cos` -/
  cos : ℚ → ℚ
  /-- The C library function `sin` -/
  sin : ℚ → ℚ
  /-- The rounding of the exact result of an operation on doubles to a double -/
  roundDouble : ℚ → ℚ
  /-- The point a default-constructed `CartesianPoint()` holds -/
  defaultPoint : CartesianPoint

/-- What the advisors write. -/
structure Beliefs where
  /-- Value of `getVetoedActions()` -/
  vetoedActions : Finset FORRAction
  /-- The arguments of the calls of `updatePlanPositions`, oldest first -/
  planPositionUpdates : List (ℚ × ℚ)
  /-- The arguments of the calls of `createNewWaypoint`, oldest first -/
  waypointsCreated : List CartesianPoint

/-! ## advisorNotOpposite -/

/-- Read `actions[i]` on a `vector<FORRAction>`.  An index outside of the vector is undefined
behaviour in C++; the embedding returns the unspecified value `junk` there. -/
def vectorAt (actions : List FORRAction) (i : Int) (junk : FORRAction) : FORRAction :=
  if 0 ≤ i ∧ i < actions.length then actions.getD i.toNat junk else junk

/-- The indices `advisorNotOpposite` reads from a history of `size` decisions once it is past its
size guard (lines 14-16). -/
def notOppositeReads (size : Nat) : List Int :=
  [(size : Int) - 1, (size : Int) - 2, (size : Int) - 3]

/-- The loop `for(int i = 1; i < rotation_set->size()/2+1; i++) vetoed->insert(FORRAction(t, i))`
of lines 21-24 and 27-30. -/
def vetoRotations (t : FORRActionType) (rotationSetSize : Nat)
    (vetoed : Finset FORRAction) : Finset FORRAction :=
  (List.range' 1 (rotationSetSize / 2)).foldl
    (fun (v : Finset FORRAction) (i : Nat) => insert (FORRAction.mk t (i : Int)) v) vetoed

open FORRActionType in
/-- Embeds `Tier1Advisor::advisorNotOpposite` (lines 5-42).  `junk` is what an out-of-range read
of the history yields; `lastlastlastAction` (here with a leading underscore) only feeds the debug
stream. -/
def advisorNotOpposite (s : Snapshot) (junk : FORRAction) (b : Beliefs) : Beliefs :=
  let actions := s.getPreviousDecisions
  let size : Int := actions.length
  if actions.length < 2 then b
  else
    let lastAction := vectorAt actions (size - 1) junk
    let lastlastAction := vectorAt actions (size - 2) junk
    let _lastlastlastAction := vectorAt actions (size - 3) junk
    if ((lastlastAction.type = RIGHT_TURN ∨ lastlastAction.type = LEFT_TURN)
          ∧ lastAction.type = PAUSE)
        ∨ lastAction.type = RIGHT_TURN ∨ lastAction.type = LEFT_TURN then
      let v1 :=
        if (lastlastAction.type = RIGHT_TURN ∧ lastAction.type = PAUSE)
            ∨ lastAction.type = RIGHT_TURN
            ∨ (lastlastAction.type = LEFT_TURN ∧ lastAction.type = LEFT_TURN) then
          vetoRotations LEFT_TURN s.rotationSetSize b.vetoedActions
        else b.vetoedActions
      let v2 :=
        if (lastlastAction.type = LEFT_TURN ∧ lastAction.type = PAUSE)
            ∨ lastAction.type = LEFT_TURN
            ∨ (lastlastAction.type = RIGHT_TURN ∧ lastAction.type = RIGHT_TURN) then
          vetoRotations RIGHT_TURN s.rotationSetSize v1
        else v1
      { b with vetoedActions := v2 }
    else b

/-! ## advisorAvoidWalls -/

open FORRActionType in
/-- Embeds `Tier1Advisor::advisorAvoidWalls` (lines 189-204): `i` runs from
`forward_set->size()-1` down to `1`.  The advisor always returns `false`; only its effect is
embedded. -/
def advisorAvoidWalls (s : Snapshot) (b : Beliefs) : Beliefs :=
  let intensity : Int := s.maxForwardAction.parameter
  let vetoed := (List.range' 1 (s.forwardSetSize - 1)).reverse.foldl
    (fun (v : Finset FORRAction) (i : Nat) =>
      if (i : Int) > intensity then insert (FORRAction.mk FORWARD (i : Int)) v else v)
    b.vetoedActions
  { b with vetoedActions := vetoed }

/-! ## advisorDontGoBack -/

open FORRActionType in
/-- One pass of the loop body of `advisorDontGoBack` (lines 212-226). -/
def dontGoBackStep (s : Snapshot) (vetoed : Finset FORRAction) (forrAction : FORRAction) :
    Finset FORRAction :=
  if forrAction ∈ vetoed then vetoed
  else if forrAction.type = PAUSE ∨ forrAction.type = FORWARD then vetoed
  else
    let expectedPosition := s.getExpectedPositionAfterAction forrAction
    if s.getPlanPositionValue expectedPosition.x expectedPosition.y then
      insert (FORRAction.mk forrAction.type forrAction.parameter) vetoed
    else vetoed

/-- Embeds `Tier1Advisor::advisorDontGoBack` (lines 206-233).  The advisor always returns
`false`. -/
def advisorDontGoBack (s : Snapshot) (b : Beliefs) : Beliefs :=
  { b with vetoedActions := s.getActionSet.foldl (dontGoBackStep s) b.vetoedActions }

/-! ## advisorSituation -/

open FORRActionType in
/-- One pass of the loop body of `advisorSituation` (lines 245-260). -/
def situationStep (s : Snapshot) (vetoed : Finset FORRAction) (forrAction : FORRAction) :
    Finset FORRAction :=
  if forrAction ∈ vetoed then vetoed
  else if forrAction.type = PAUSE then vetoed
  else
    let action_weight := s.getWeightForAction forrAction
    if action_weight < 1 / 4 then
      insert (FORRAction.mk forrAction.type forrAction.parameter) vetoed
    else vetoed

/-- Embeds `Tier1Advisor::advisorSituation` (lines 235-262).  The advisor always returns
`false`. -/
def advisorSituation (s : Snapshot) (b : Beliefs) : Beliefs :=
  let accuracy := s.getAccuracyForSituation
  if accuracy ≥ 3 / 4 then
    { b with vetoedActions := s.getActionSet.foldl (situationStep s) b.vetoedActions }
  else b

/-! ## advisorVictory -/

/-- What a committing advisor hands back: its return value, the contents of `*decision` after the
call, and the beliefs after the call. -/
structure AdvisorReturn where
  decisionMade : Bool
  decision : FORRAction
  beliefs : Beliefs

open FORRActionType in
/-- The commit test of `advisorVictory`, written out identically at lines 143 and 158. -/
def victoryCondition (s : Snapshot) (decision : FORRAction) : Bool :=
  let forward := s.maxForwardAction
  let expectedPosition := s.getExpectedPositionAfterAction decision
  decide (((decision.type = RIGHT_TURN ∨ decision.type = LEFT_TURN)
      ∨ forward.parameter ≥ decision.parameter)
    ∧ decision.parameter ≠ 0
    ∧ s.getDistance expectedPosition s.getCurrentPosition ≥ 1 / 10)

/-- Embeds `Tier1Advisor::advisorVictory` (lines 122-182).  `decision` is the contents of the
output slot before the call. -/
def advisorVictory (s : Snapshot) (decision : FORRAction) (b : Beliefs) : AdvisorReturn :=
  let targetInSight := s.canSeePoint s.task 20
  if targetInSight = false then
    let waypointInSight := s.canSeePoint s.waypoint 20
    if waypointInSight = false then
      { decisionMade := false, decision := decision, beliefs := b }
    else
      let decision := s.moveTowards s.waypoint
      if victoryCondition s decision then
        let currentPosition := s.getCurrentPosition
        { decisionMade := true, decision := decision,
          beliefs := { b with planPositionUpdates :=
            b.planPositionUpdates ++ [(currentPosition.x, currentPosition.y)] } }
      else
        { decisionMade := false, decision := decision, beliefs := b }
  else
    let decision := s.moveTowards s.task
    if victoryCondition s decision then
      { decisionMade := true, decision := decision, beliefs := b }
    else
      { decisionMade := false, decision := decision, beliefs := b }

/-! ## advisorGetOut -/

/-- The three ways a run of `advisorGetOut` can end in the embedding. -/
inductive GetOutOutcome where
  /-- The advisor returned. -/
  | returned (r : AdvisorReturn)
  /-- The advisor read a vector outside of its bounds (undefined behaviour in C++). -/
  | outOfRange
  /-- The greedy walk was still running when the fuel of the embedding ran out. -/
  | outOfFuel

/-- Read `v[v.size()-i]` on a history vector, `none` when the index is out of range. -/
def fromEnd {α : Type} (v : List α) (i : Nat) : Option α :=
  if 1 ≤ i ∧ i ≤ v.length then v[v.length - i]? else none

/-- Read `grid[i][j]` on a `vector< vector<int> >`, `none` when an index is out of range. -/
def gridAt (grid : List (List Int)) (i j : Int) : Option Int :=
  if 0 ≤ i ∧ 0 ≤ j then
    match grid[i.toNat]? with
    | some row => row[j.toNat]?
    | none => none
  else none

/-- The conversion of a `double` to `int`: truncation towards zero. -/
def truncToInt (q : ℚ) : Int :=
  if 0 ≤ q then ⌊q⌋ else ⌈q⌉

/-- Modelled from the spec: `CartesianPoint::get_distance` is not part of the sources; it is the
Euclidean distance.  The advisor only compares distances with each other and with constants, so
the embedding works with the square of the distance. -/
def distSq (p q : CartesianPoint) : ℚ :=
  (p.x - q.x) * (p.x - q.x) + (p.y - q.y) * (p.y - q.y)

/-- The body of the inner loop of the candidate search for the cell `(i, j)` (lines 353-365):
whether the cell is pushed on `grid_potential_destinations`. -/
def isPotentialDestination (grid : List (List Int)) (i j : Nat) : Option Bool := do
  let up ← gridAt grid ((i : Int) - 1) j
  let left ← gridAt grid i ((j : Int) - 1)
  let down ← gridAt grid ((i : Int) + 1) j
  let right ← gridAt grid i ((j : Int) + 1)
  let here ← gridAt grid i j
  let neigh : Nat := (if up = -1 then 1 else 0) + (if left = -1 then 1 else 0)
    + (if down = -1 then 1 else 0) + (if right = -1 then 1 else 0)
  pure (decide (here = 1 ∧ neigh < 3))

/-- The inner loop `for(int j = 1; j < grid[i].size()-1; j++)` of the candidate search.  On an
empty row the unsigned bound wraps around and the loop reads outside of the row. -/
def potentialDestinationsInRow (grid : List (List Int)) (i : Nat) :
    Option (List CartesianPoint) := do
  let row ← grid[i]?
  if row.length = 0 then none
  else
    (List.range' 1 (row.length - 2)).foldlM
      (fun acc j => do
        let c ← isPotentialDestination grid i j
        pure (if c then acc ++ [CartesianPoint.mk (i : ℚ) (j : ℚ)] else acc))
      []

/-- The candidate search (lines 350-367).  On an empty grid the unsigned bound wraps around and
the loop reads outside of the grid. -/
def potentialDestinations (grid : List (List Int)) : Option (List CartesianPoint) :=
  if grid.length = 0 then none
  else
    (List.range' 1 (grid.length - 2)).foldlM
      (fun acc i => do
        let r ← potentialDestinationsInRow grid i
        pure (acc ++ r))
      []

/-- The grid centre `CartesianPoint(25,25)`. -/
def gridCentre : CartesianPoint := CartesianPoint.mk 25 25

/-- The selection of `farthest_grid_position` (lines 368-377).  The accumulator is
`(max_distance squared, farthest_grid_position)`; `farthest_grid_position` starts out
default-constructed. -/
def farthestGridPosition (dflt : CartesianPoint) (dests : List CartesianPoint) : CartesianPoint :=
  (dests.foldl
    (fun (acc : ℚ × CartesianPoint) p =>
      if distSq p gridCentre > acc.1 then (distSq p gridCentre, p) else acc)
    (0, dflt)).2

/-- The free neighbours collected by one pass of the walk (lines 387-413) around the cell
`(curr_x, curr_y)`: the 4-neighbours with value 1, or the diagonal ones when there is none. -/
def freeNeighbors (grid : List (List Int)) (curr_x curr_y : Int) :
    Option (List CartesianPoint) := do
  let a ← gridAt grid (curr_x + 1) curr_y
  let b ← gridAt grid curr_x (curr_y + 1)
  let c ← gridAt grid (curr_x - 1) curr_y
  let d ← gridAt grid curr_x (curr_y - 1)
  let four : List CartesianPoint :=
    (if a = 1 then [CartesianPoint.mk ((curr_x + 1 : Int) : ℚ) ((curr_y : Int) : ℚ)] else [])
    ++ (if b = 1 then [CartesianPoint.mk ((curr_x : Int) : ℚ) ((curr_y + 1 : Int) : ℚ)] else [])
    ++ (if c = 1 then [CartesianPoint.mk ((curr_x - 1 : Int) : ℚ) ((curr_y : Int) : ℚ)] else [])
    ++ (if d = 1 then [CartesianPoint.mk ((curr_x : Int) : ℚ) ((curr_y - 1 : Int) : ℚ)] else [])
  if four.length = 0 then
    let e ← gridAt grid (curr_x + 1) (curr_y + 1)
    let f ← gridAt grid (curr_x - 1) (curr_y + 1)
    let g ← gridAt grid (curr_x + 1) (curr_y - 1)
    let h ← gridAt grid (curr_x - 1) (curr_y - 1)
    pure (
      (if e = 1 then [CartesianPoint.mk ((curr_x + 1 : Int) : ℚ) ((curr_y + 1 : Int) : ℚ)]
        else [])
      ++ (if f = 1 then [CartesianPoint.mk ((curr_x - 1 : Int) : ℚ) ((curr_y + 1 : Int) : ℚ)]
        else [])
      ++ (if g = 1 then [CartesianPoint.mk ((curr_x + 1 : Int) : ℚ) ((curr_y - 1 : Int) : ℚ)]
        else [])
      ++ (if h = 1 then [CartesianPoint.mk ((curr_x - 1 : Int) : ℚ) ((curr_y - 1 : Int) : ℚ)]
        else []))
  else pure four

/-- The selection of `closest_neighbor` (lines 414-422).  The accumulator is
`(min_to_farthest squared, closest_neighbor)`; `min_to_farthest` starts at `100000` and
`closest_neighbor` starts out default-constructed. -/
def closestNeighbor (dflt farthest : CartesianPoint) (free_neighbors : List CartesianPoint) :
    CartesianPoint :=
  (free_neighbors.foldl
    (fun (acc : ℚ × CartesianPoint) p =>
      if distSq p farthest < acc.1 then (distSq p farthest, p) else acc)
    (100000 * 100000, dflt)).2

/-- One pass of the body of the `while` loop of the walk (lines 381-423): the cells pushed on
`sequence_of_grid_positions` by this pass and the next `current_grid_position`. -/
def walkStep (dflt : CartesianPoint) (grid : List (List Int)) (farthest current : CartesianPoint) :
    Option (List CartesianPoint × CartesianPoint) := do
  let curr_x := truncToInt current.x
  let curr_y := truncToInt current.y
  let here ← gridAt grid curr_x curr_y
  let free_neighbors ← freeNeighbors grid curr_x curr_y
  pure (if here = 1 then [current] else [], closestNeighbor dflt farthest free_neighbors)

/-- The outcome of the `while` loop of lines 380-424. -/
inductive WalkOutcome where
  /-- The loop was left with this `sequence_of_grid_positions`. -/
  | finished (sequence : List CartesianPoint)
  /-- A pass read the grid outside of its bounds. -/
  | outOfRange
  /-- The loop was still running after `fuel` passes. -/
  | outOfFuel

/-- The `while` loop of lines 380-424, run for at most `fuel` passes. -/
def walk (dflt : CartesianPoint) (grid : List (List Int)) (farthest : CartesianPoint) :
    Nat → CartesianPoint → List CartesianPoint → WalkOutcome
  | 0, current, sequence =>
    if current = farthest then WalkOutcome.finished sequence else WalkOutcome.outOfFuel
  | fuel + 1, current, sequence =>
    if current = farthest then WalkOutcome.finished sequence
    else
      match walkStep dflt grid farthest current with
      | none => WalkOutcome.outOfRange
      | some (pushed, next) => walk dflt grid farthest fuel next (sequence ++ pushed)

/-- The world coordinates of a grid position in exact arithmetic: what lines 429-430 compute when
no operation rounds, as is the case for integer values. -/
def toWorld (cos_curr sin_curr x_curr y_curr : ℚ) (g : CartesianPoint) : CartesianPoint :=
  CartesianPoint.mk
    ((g.x - 25) * cos_curr - (g.y - 25) * sin_curr + x_curr)
    ((g.y - 25) * cos_curr + (g.x - 25) * sin_curr + y_curr)

/-- The world coordinates of a grid position as lines 429-430 compute them in doubles,
`(x-25)*cos_curr - (y-25)*sin_curr + x_curr` and `(y-25)*cos_curr + (x-25)*sin_curr + y_curr`:
the result of each of the five operations is rounded with `rnd`. -/
def toWorldRounded (rnd : ℚ → ℚ) (cos_curr sin_curr x_curr y_curr : ℚ) (g : CartesianPoint) :
    CartesianPoint :=
  CartesianPoint.mk
    (rnd (rnd (rnd (rnd (g.x - 25) * cos_curr) - rnd (rnd (g.y - 25) * sin_curr)) + x_curr))
    (rnd (rnd (rnd (rnd (g.y - 25) * cos_curr) + rnd (rnd (g.x - 25) * sin_curr)) + y_curr))

/-- The planning branch of `advisorGetOut` (lines 332-436), run with `fuel` passes of the walk.
The endpoints computed at line 343 are never used and are left out. -/
def getOutPlan (s : Snapshot) (fuel : Nat) (decision : FORRAction) (b : Beliefs) :
    GetOutOutcome :=
  let laser_scan_hist := s.getAllLaserScanHistory
  let positionHis := s.getPositionHistory
  match (List.range' 1 4).mapM (fun i => fromEnd positionHis i),
        (List.range' 1 4).mapM (fun i => fromEnd laser_scan_hist i) with
  | some last_positions, some last_lasers =>
    let grid := s.overlaySituations last_lasers last_positions
    match fromEnd positionHis 1 with
    | none => GetOutOutcome.outOfRange
    | some last =>
      let cos_curr := s.cos last.theta
      let sin_curr := s.sin last.theta
      let x_curr := last.x
      let y_curr := last.y
      match potentialDestinations grid with
      | none => GetOutOutcome.outOfRange
      | some grid_potential_destinations =>
        let farthest_grid_position :=
          farthestGridPosition s.defaultPoint grid_potential_destinations
        match walk s.defaultPoint grid farthest_grid_position fuel gridCentre [] with
        | WalkOutcome.outOfRange => GetOutOutcome.outOfRange
        | WalkOutcome.outOfFuel => GetOutOutcome.outOfFuel
        | WalkOutcome.finished sequence =>
          let sequence_of_grid_positions := sequence ++ [farthest_grid_position]
          let sequence_of_positions :=
            sequence_of_grid_positions.map
              (toWorldRounded s.roundDouble cos_curr sin_curr x_curr y_curr)
          GetOutOutcome.returned
            { decisionMade := false, decision := decision,
              beliefs := { b with waypointsCreated :=
                b.waypointsCreated ++ sequence_of_positions.reverse } }
  | _, _ => GetOutOutcome.outOfRange

open FORRActionType in
/-- The pattern test of line 331 on one of the last four decisions. -/
def isMaxRightTurn (s : Snapshot) (a : FORRAction) : Bool :=
  decide (a.type = RIGHT_TURN ∧ a.parameter = ((s.rotationSetSize / 2 : Nat) : Int))

open FORRActionType in
/-- Embeds `Tier1Advisor::advisorGetOut` (lines 316-447).  `decision` is the contents of the output
slot before the call; `junk` is never read, since the four reads of the history are guarded by
`size >= 5`. -/
def advisorGetOut (s : Snapshot) (fuel : Nat) (junk : FORRAction) (decision : FORRAction)
    (b : Beliefs) : GetOutOutcome :=
  if s.getRobotConfined then
    let actions := s.getPreviousDecisions
    let size : Int := actions.length
    if size ≥ 5 then
      let lastAction := vectorAt actions (size - 1) junk
      let lastlastAction := vectorAt actions (size - 2) junk
      let lastlastlastAction := vectorAt actions (size - 3) junk
      let lastlastlastlastAction := vectorAt actions (size - 4) junk
      if isMaxRightTurn s lastlastAction ∧ isMaxRightTurn s lastAction
          ∧ isMaxRightTurn s lastlastlastAction ∧ isMaxRightTurn s lastlastlastlastAction then
        getOutPlan s fuel decision b
      else
        GetOutOutcome.returned
          { decisionMade := true,
            decision := FORRAction.mk RIGHT_TURN ((s.rotationSetSize / 2 : Nat) : Int),
            beliefs := b }
    else GetOutOutcome.returned { decisionMade := false, decision := decision, beliefs := b }
  else GetOutOutcome.returned { decisionMade := false, decision := decision, beliefs := b }

/-! ## The decision cycle -/

/-- Modelled from the spec: the controller that calls the advisors is not part of the sources.
The four veto advisors in the order of section 4.5: NotOpposite, AvoidWalls, DontGoBack,
Situation. -/
def runVetoAdvisors (s : Snapshot) (junk : FORRAction) (b : Beliefs) : Beliefs :=
  advisorSituation s (advisorDontGoBack s (advisorAvoidWalls s (advisorNotOpposite s junk b)))

/-- Modelled from the spec: the controller that calls the advisors is not part of the sources.
One decision cycle in the order of section 4.5: the veto advisors, then Victory, then GetOut
unless Victory has committed. -/
def tierOneDecision (s : Snapshot) (fuel : Nat) (junk : FORRAction) (decision : FORRAction)
    (b : Beliefs) : GetOutOutcome :=
  let b1 := runVetoAdvisors s junk b
  let v := advisorVictory s decision b1
  if v.decisionMade then GetOutOutcome.returned v
  else advisorGetOut s fuel junk v.decision v.beliefs

/-! ## FORRBarriers -/

/-- Modelled from the spec: `FORRGeometry.h` is not part of the sources.  A line segment is a pair
of end points. -/
structure LineSegment where
  first : CartesianPoint
  second : CartesianPoint
  deriving DecidableEq, Repr

/-- The private member functions of `FORRBarriers` that are declared in `FORRBarriers.h`
(lines 77-86) and defined outside of the sources.  Each of them fills its first argument, a
reference; the first argument of the embedded function is the content of that vector at the
call. -/
structure BarrierFunctions where
  /-- The function `CreateSegments(segments, current_position, laser_history)` -/
  CreateSegments :
    List LineSegment → CartesianPoint → List (List CartesianPoint) → List LineSegment
  /-- The function `ListSimilarities(similarities, laser_segments)` -/
  ListSimilarities : List (List ℚ) → List LineSegment → List (List ℚ)
  /-- The function `FindMostSimilarSegments(most_similar, similarities)` -/
  FindMostSimilarSegments : List (List ℚ) → List (List ℚ) → List (List ℚ)
  /-- The function `CreateInitialSegments(initial_barriers, most_similar, segments)` -/
  CreateInitialSegments :
    List LineSegment → List (List ℚ) → List LineSegment → List LineSegment
  /-- The function `MergeNearbyBarriers(merged_barriers, initial_barriers)` -/
  MergeNearbyBarriers : List LineSegment → List LineSegment → List LineSegment

/-- The data members of `FORRBarriers` (lines 73-75). -/
structure FORRBarriers where
  barriers : List LineSegment
  laser_history : List (List CartesianPoint)
  current_position : CartesianPoint

/-- Embeds the constructor `FORRBarriers()` (lines 31-33).  The members it does not set are
default-constructed: an empty history and the point `dflt`. -/
def FORRBarriers.new (dflt : CartesianPoint) : FORRBarriers :=
  { barriers := [], laser_history := [], current_position := dflt }

/-- Embeds `FORRBarriers::getBarriers` (line 34). -/
def FORRBarriers.getBarriers (self : FORRBarriers) : List LineSegment :=
  self.barriers

/-- Embeds `FORRBarriers::clearAllBarriers` (lines 37-39). -/
def FORRBarriers.clearAllBarriers (self : FORRBarriers) : FORRBarriers :=
  { self with barriers := [] }

/-- Embeds `FORRBarriers::updateBarriers` (lines 41-70). -/
def FORRBarriers.updateBarriers (f : BarrierFunctions) (self : FORRBarriers)
    (laser_hist : List (List CartesianPoint)) (curr_pos : CartesianPoint) : FORRBarriers :=
  let laser_history := laser_hist.foldl (fun acc scan => acc ++ [scan]) []
  let current_position := curr_pos
  let laser_segments := f.CreateSegments [] current_position laser_history
  let laser_segments := self.barriers.foldl (fun acc seg => acc ++ [seg]) laser_segments
  let segments_similarities := f.ListSimilarities [] laser_segments
  let most_similar_segments := f.FindMostSimilarSegments [] segments_similarities
  let initial_barriers := f.CreateInitialSegments [] most_similar_segments laser_segments
  let merged_barriers := f.MergeNearbyBarriers [] initial_barriers
  { barriers := merged_barriers, laser_history := laser_history,
    current_position := current_position }

/-! ## Conditions of the advisors, named for the statements below -/

/-- The last decision, as `advisorNotOpposite` reads it. -/
def lastAction (s : Snapshot) (junk : FORRAction) : FORRAction :=
  vectorAt s.getPreviousDecisions ((s.getPreviousDecisions.length : Int) - 1) junk

/-- The decision before the last, as `advisorNotOpposite` reads it. -/
def lastlastAction (s : Snapshot) (junk : FORRAction) : FORRAction :=
  vectorAt s.getPreviousDecisions ((s.getPreviousDecisions.length : Int) - 2) junk

open FORRActionType in
/-- The condition under which `advisorNotOpposite` runs its loop over the left turns. -/
def vetoesLeft (s : Snapshot) (junk : FORRAction) : Prop :=
  2 ≤ s.getPreviousDecisions.length ∧
    (((lastlastAction s junk).type = RIGHT_TURN ∧ (lastAction s junk).type = PAUSE)
      ∨ (lastAction s junk).type = RIGHT_TURN
      ∨ ((lastlastAction s junk).type = LEFT_TURN ∧ (lastAction s junk).type = LEFT_TURN))

open FORRActionType in
/-- The condition under which `advisorNotOpposite` runs its loop over the right turns. -/
def vetoesRight (s : Snapshot) (junk : FORRAction) : Prop :=
  2 ≤ s.getPreviousDecisions.length ∧
    (((lastlastAction s junk).type = LEFT_TURN ∧ (lastAction s junk).type = PAUSE)
      ∨ (lastAction s junk).type = LEFT_TURN
      ∨ ((lastlastAction s junk).type = RIGHT_TURN ∧ (lastAction s junk).type = RIGHT_TURN))

/-- The test under which `advisorDontGoBack` vetoes a not-yet-vetoed action. -/
def revisits (s : Snapshot) (a : FORRAction) : Prop :=
  ¬ (a.type = FORRActionType.PAUSE ∨ a.type = FORRActionType.FORWARD)
    ∧ s.getPlanPositionValue (s.getExpectedPositionAfterAction a).x
        (s.getExpectedPositionAfterAction a).y = true

instance (s : Snapshot) : DecidablePred (revisits s) := fun a => by
  unfold revisits; exact inferInstance

/-- The test under which `advisorSituation`, once active, vetoes a not-yet-vetoed action. -/
def lowWeight (s : Snapshot) (a : FORRAction) : Prop :=
  ¬ a.type = FORRActionType.PAUSE ∧ s.getWeightForAction a < 1 / 4

instance (s : Snapshot) : DecidablePred (lowWeight s) := fun a => by
  unfold lowWeight; exact inferInstance

/-- No action of a vetoed set is a pause. -/
def PauseFree (V : Finset FORRAction) : Prop :=
  ∀ a ∈ V, a.type ≠ FORRActionType.PAUSE

/-- The four veto advisors. -/
inductive VetoAdvisor where
  | notOpposite
  | avoidWalls
  | dontGoBack
  | situation
  deriving DecidableEq, Repr

/-- Run one veto advisor. -/
def runVetoAdvisor (s : Snapshot) (junk : FORRAction) : VetoAdvisor → Beliefs → Beliefs
  | VetoAdvisor.notOpposite, b => advisorNotOpposite s junk b
  | VetoAdvisor.avoidWalls, b => advisorAvoidWalls s b
  | VetoAdvisor.dontGoBack, b => advisorDontGoBack s b
  | VetoAdvisor.situation, b => advisorSituation s b

/-- Run veto advisors one after the other, the head of the list first. -/
def runVetoSequence (s : Snapshot) (junk : FORRAction) (l : List VetoAdvisor) (b : Beliefs) :
    Beliefs :=
  l.foldl (fun b adv => runVetoAdvisor s junk adv b) b

/-- The action `advisorVictory` asks `moveTowards` for: towards the goal when the goal is in
sight, else towards the waypoint when the waypoint is in sight, else none (lines 129-155). -/
def steeringAction (s : Snapshot) : Option FORRAction :=
  if s.canSeePoint s.task 20 = false then
    if s.canSeePoint s.waypoint 20 = false then none
    else some (s.moveTowards s.waypoint)
  else some (s.moveTowards s.task)

/-- The predicted displacement of an action: the distance between the expected position after the
action and the current position (lines 142-143). -/
def predictedDisplacement (s : Snapshot) (a : FORRAction) : ℚ :=
  s.getDistance (s.getExpectedPositionAfterAction a) s.getCurrentPosition

/-- The last four decisions of the history, the last one first (fewer when the history is
shorter). -/
def lastFourDecisions (s : Snapshot) : List FORRAction :=
  s.getPreviousDecisions.reverse.take 4

/-- The turn pattern of `advisorGetOut`: the history has four last decisions and each of them
passes the test of line 331. -/
def patternMatched (s : Snapshot) : Bool :=
  decide (4 ≤ s.getPreviousDecisions.length) && (lastFourDecisions s).all (isMaxRightTurn s)

open FORRActionType in
/-- Membership in a well-formed catalog: the forward actions `FORWARD 0 .. FORWARD (m-1)`, the
left and right turns of intensity `1 .. k`, and the one pause action `pause`. -/
def InCatalog (m k : Nat) (pause a : FORRAction) : Prop :=
  (a.type = FORWARD ∧ 0 ≤ a.parameter ∧ a.parameter < (m : Int))
    ∨ ((a.type = LEFT_TURN ∨ a.type = RIGHT_TURN) ∧ 1 ≤ a.parameter ∧ a.parameter ≤ (k : Int))
    ∨ a = pause

/-- An index `i` lies within the bounds of a vector of `size` elements. -/
def InBounds (size : Nat) (i : Int) : Prop :=
  0 ≤ i ∧ i < (size : Int)

/-- A grid of `rows` rows that all have `cols` cells. -/
def Rectangular (grid : List (List Int)) (rows cols : Nat) : Prop :=
  grid.length = rows ∧ ∀ row ∈ grid, row.length = cols

/-- The value of the cell `(i, j)` of a grid, `0` (unknown) for a cell outside of the grid. -/
def cellAt (grid : List (List Int)) (i j : Nat) : Int :=
  (grid.getD i []).getD j 0

/-- The number of the four 4-neighbours of the cell `(i, j)` whose value is `-1` (occupied). -/
def occupiedNeighbours (grid : List (List Int)) (i j : Nat) : Nat :=
  ([cellAt grid (i - 1) j, cellAt grid i (j - 1), cellAt grid (i + 1) j,
    cellAt grid i (j + 1)].filter (fun v => decide (v = -1))).length

/-- A candidate exit in the words of the specification: a cell whose value is `1` (free) and that
has at most two occupied 4-neighbours. -/
def isCandidateExit (grid : List (List Int)) (i j : Nat) : Bool :=
  decide (cellAt grid i j = 1 ∧ occupiedNeighbours grid i j ≤ 2)

/-- The candidate exits among the interior cells `(i, j)`, `1 ≤ i ≤ rows-2`, `1 ≤ j ≤ cols-2`, in
row-major order. -/
def candidateCells (grid : List (List Int)) (rows cols : Nat) : List (Nat × Nat) :=
  (List.range' 1 (rows - 2)).flatMap (fun (i : Nat) =>
    ((List.range' 1 (cols - 2)).filter (fun (j : Nat) => isCandidateExit grid i j)).map
      (fun (j : Nat) => (i, j)))

/-- The candidate list in the words of the specification, as grid positions. -/
def specCandidates (grid : List (List Int)) (rows cols : Nat) : List CartesianPoint :=
  (candidateCells grid rows cols).map
    (fun (c : Nat × Nat) => CartesianPoint.mk (c.1 : ℚ) (c.2 : ℚ))

/-- The beliefs with nothing vetoed and nothing written. -/
def noBeliefs : Beliefs :=
  { vetoedActions := ∅, planPositionUpdates := [], waypointsCreated := [] }

/-- The additions a veto advisor makes on its own: what it vetoes when nothing is vetoed yet. -/
def vetoAdditions (s : Snapshot) (junk : FORRAction) (adv : VetoAdvisor) : Finset FORRAction :=
  (runVetoAdvisor s junk adv noBeliefs).vetoedActions

/-- The candidate pool of the barrier update in the words of the specification: the segments
extracted from the position and the scan history, followed by the barriers held, in order. -/
def specCandidatePool (f : BarrierFunctions) (B : List LineSegment)
    (H : List (List CartesianPoint)) (p : CartesianPoint) : List LineSegment :=
  f.CreateSegments [] p H ++ B

/-- Two grid positions are neighbours in the 8-neighbourhood: they differ, and by at most one in
each coordinate. -/
def Adjacent (p q : CartesianPoint) : Prop :=
  |p.x - q.x| ≤ 1 ∧ |p.y - q.y| ≤ 1 ∧ p ≠ q

/-- The cell of a grid position, read as the walk reads it (`grid[(int)x][(int)y]`), is inside the
grid and has the value `1` (free). -/
def FreeCell (grid : List (List Int)) (p : CartesianPoint) : Prop :=
  gridAt grid (truncToInt p.x) (truncToInt p.y) = some 1

/-! ## Sample inputs -/

open FORRActionType in
/-- A catalog with the forward actions `0 .. m-1`, the right and left turns `1 .. k` and the pause
action, in the order of the `std::set`. -/
def sampleCatalog (m k : Nat) : List FORRAction :=
  (List.range m).map (fun (i : Nat) => FORRAction.mk FORWARD (i : Int))
    ++ (List.range' 1 k).map (fun (i : Nat) => FORRAction.mk RIGHT_TURN (i : Int))
    ++ (List.range' 1 k).map (fun (i : Nat) => FORRAction.mk LEFT_TURN (i : Int))
    ++ [FORRAction.mk PAUSE 0]

open FORRActionType in
/-- A snapshot in open space: six forward actions, five turns each way, the goal at `(10, 0)` in
sight, wall cap `FORWARD 3`, the last decision a left turn, the situation recognised with
confidence `0.8` and a low weight on `FORWARD 2`. -/
def sampleSnapshot : Snapshot where
  getPreviousDecisions :=
    [FORRAction.mk FORWARD 1, FORRAction.mk FORWARD 1, FORRAction.mk FORWARD 1,
     FORRAction.mk FORWARD 1, FORRAction.mk LEFT_TURN 2]
  rotationSetSize := 10
  forwardSetSize := 6
  getActionSet := sampleCatalog 6 5
  maxForwardAction := FORRAction.mk FORWARD 3
  getExpectedPositionAfterAction := fun a =>
    if a.type = FORWARD then Position.mk (a.parameter : ℚ) 0 0
    else Position.mk 0 0 (a.parameter : ℚ)
  getPlanPositionValue := fun _ _ => false
  getAccuracyForSituation := 4 / 5
  getWeightForAction := fun a => if a = FORRAction.mk FORWARD 2 then 1 / 10 else 1 / 2
  task := CartesianPoint.mk 10 0
  waypoint := CartesianPoint.mk 5 0
  canSeePoint := fun p _ => decide (p = CartesianPoint.mk 10 0)
  moveTowards := fun _ => FORRAction.mk FORWARD 2
  getCurrentPosition := Position.mk 0 0 0
  getDistance := fun p q => |p.x - q.x| + |p.y - q.y|
  getRobotConfined := false
  getPositionHistory := []
  getAllLaserScanHistory := []
  overlaySituations := fun _ _ => []
  cos := fun _ => 1
  sin := fun _ => 0
  roundDouble := fun q => q
  defaultPoint := CartesianPoint.mk 0 0

/-- The sample snapshot with nothing in sight and the robot confined. -/
def sampleConfined : Snapshot :=
  { sampleSnapshot with canSeePoint := fun _ _ => false, getRobotConfined := true }

/-- Beliefs at the start of a cycle: nothing vetoed, nothing written. -/
def emptyBeliefs : Beliefs :=
  { vetoedActions := ∅, planPositionUpdates := [], waypointsCreated := [] }

/-- The value used for reads outside of the history in the samples. -/
def sampleJunk : FORRAction := FORRAction.mk FORRActionType.PAUSE 0

open FORRActionType in
/-- The sample snapshot with a history of exactly two decisions: a right turn, then a pause. -/
def sampleAfterPause : Snapshot :=
  { sampleSnapshot with
    getPreviousDecisions := [FORRAction.mk RIGHT_TURN 3, FORRAction.mk PAUSE 0] }

/-- The sample snapshot with the cell of the robot marked visited: a turn in place leads to a
visited pose. -/
def sampleVisited : Snapshot :=
  { sampleSnapshot with getPlanPositionValue := fun x y => decide (x = 0 ∧ y = 0) }

open FORRActionType in
/-- The sample snapshot with a steering action that barely moves the robot. -/
def sampleShortStep : Snapshot :=
  { sampleSnapshot with
    getExpectedPositionAfterAction := fun _ => Position.mk (1 / 20) 0 0 }

open FORRActionType in
/-- The confined sample after four left turns of maximum intensity. -/
def sampleFourLeft : Snapshot :=
  { sampleConfined with
    getPreviousDecisions :=
      [FORRAction.mk FORWARD 1, FORRAction.mk LEFT_TURN 5, FORRAction.mk LEFT_TURN 5,
       FORRAction.mk LEFT_TURN 5, FORRAction.mk LEFT_TURN 5] }

open FORRActionType in
/-- The confined sample with a history of exactly four decisions, all of them right turns of
maximum intensity. -/
def sampleOnlyFourRight : Snapshot :=
  { sampleConfined with
    getPreviousDecisions :=
      [FORRAction.mk RIGHT_TURN 5, FORRAction.mk RIGHT_TURN 5, FORRAction.mk RIGHT_TURN 5,
       FORRAction.mk RIGHT_TURN 5] }

open FORRActionType in
/-- The confined sample after a forward move and four right turns of maximum intensity. -/
def sampleFourRight : Snapshot :=
  { sampleConfined with
    getPreviousDecisions :=
      [FORRAction.mk FORWARD 1, FORRAction.mk RIGHT_TURN 5, FORRAction.mk RIGHT_TURN 5,
       FORRAction.mk RIGHT_TURN 5, FORRAction.mk RIGHT_TURN 5] }

open FORRActionType in
/-- The sample snapshot after two left turns in a row. -/
def sampleTwoLefts : Snapshot :=
  { sampleSnapshot with
    getPreviousDecisions := [FORRAction.mk LEFT_TURN 2, FORRAction.mk LEFT_TURN 2] }

open FORRActionType in
/-- The confined sample with a history of four decisions. -/
def sampleShortHistory : Snapshot :=
  { sampleConfined with
    getPreviousDecisions :=
      [FORRAction.mk FORWARD 1, FORRAction.mk FORWARD 1, FORRAction.mk FORWARD 1,
       FORRAction.mk LEFT_TURN 2] }

/-- The sample snapshot with only the waypoint in sight. -/
def sampleWaypointInSight : Snapshot :=
  { sampleSnapshot with canSeePoint := fun p _ => decide (p = CartesianPoint.mk 5 0) }

/-- A grid of three rows and three columns whose middle cell is free, with two occupied and two
unknown 4-neighbours. -/
def sampleSmallGrid : List (List Int) :=
  [[-1, -1, -1], [-1, 1, 0], [-1, 0, 0]]

/-- The cells of the pocket grid: the robot stands in a sealed pocket of two free cells,
`(25, 25)` and `(25, 26)`; one more free cell, `(25, 40)`, lies among unknown cells; every other
cell is occupied. -/
def pocketCell (i j : Nat) : Int :=
  if i = 25 ∧ (j = 25 ∨ j = 26 ∨ j = 40) then 1
  else if (i = 24 ∧ j = 40) ∨ (i = 26 ∧ j = 40) ∨ (i = 25 ∧ j = 39) ∨ (i = 25 ∧ j = 41) then 0
  else -1

/-- The pocket grid, 51 rows of 51 cells. -/
def pocketGrid : List (List Int) :=
  (List.range 51).map (fun (i : Nat) => (List.range 51).map (fun (j : Nat) => pocketCell i j))

/-- The confined sample after four right turns of maximum intensity, with four poses and four
scans in the histories and the pocket grid as the overlay of the scans. -/
def samplePocket : Snapshot :=
  { sampleFourRight with
    getPositionHistory :=
      [Position.mk 0 0 0, Position.mk 0 0 0, Position.mk 0 0 0, Position.mk 0 0 0]
    getAllLaserScanHistory :=
      [LaserScan.mk [], LaserScan.mk [], LaserScan.mk [], LaserScan.mk []]
    overlaySituations := fun _ _ => pocketGrid }

/-- Sample barrier functions: every scan gives one segment, from the position to the first
point of the scan; the similarity stages give nothing; the two last stages pass the candidates
on. -/
def sampleBarrierFunctions : BarrierFunctions where
  CreateSegments := fun out p H => out ++ H.map (fun scan => LineSegment.mk p (scan.headD p))
  ListSimilarities := fun out _ => out
  FindMostSimilarSegments := fun out _ => out
  CreateInitialSegments := fun out _ segments => out ++ segments
  MergeNearbyBarriers := fun out initial => out ++ initial

/-- The cells of the exit grid: a free corridor of three cells, `(25, 25)`, `(25, 26)` and
`(25, 27)`, among occupied cells. -/
def exitCell (i j : Nat) : Int :=
  if i = 25 ∧ (j = 25 ∨ j = 26 ∨ j = 27) then 1 else -1

/-- The exit grid, 51 rows of 51 cells. -/
def exitGrid : List (List Int) :=
  (List.range 51).map (fun (i : Nat) => (List.range 51).map (fun (j : Nat) => exitCell i j))

/-- The pocket sample with the exit grid as the overlay of the scans. -/
def sampleExit : Snapshot :=
  { samplePocket with overlaySituations := fun _ _ => exitGrid }

/-- A grid of 51 rows of 51 cells that are all occupied. -/
def blockedGrid : List (List Int) :=
  (List.range 51).map (fun (_ : Nat) => (List.range 51).map (fun (_ : Nat) => (-1 : Int)))

/-- The pocket sample with the blocked grid as the overlay of the scans. -/
def sampleBlocked : Snapshot :=
  { samplePocket with overlaySituations := fun _ _ => blockedGrid }

/-- The blocked sample with `d` as the value of a default-constructed `CartesianPoint`. -/
def sampleBlockedWith (d : CartesianPoint) : Snapshot :=
  { sampleBlocked with defaultPoint := d }

/-- The cells of the corridor grid: a free corridor along column 25 from the centre `(25, 25)` to the
border cell `(50, 25)`, and beside its end the free cell `(49, 27)` with the free cells `(48, 27)`
and `(49, 28)` next to it; every other cell is occupied. -/
def corridorCell (i j : Nat) : Int :=
  if (j = 25 ∧ 25 ≤ i) ∨ (i = 49 ∧ (j = 27 ∨ j = 28)) ∨ (i = 48 ∧ j = 27) then 1 else -1

/-- The corridor grid, 51 rows of 51 cells. -/
def corridorGrid : List (List Int) :=
  (List.range 51).map (fun (i : Nat) => (List.range 51).map (fun (j : Nat) => corridorCell i j))

/-- The pocket sample with the corridor grid as the overlay of the scans and `d` as the value of a
default-constructed `CartesianPoint`. -/
def sampleCorridorWith (d : CartesianPoint) : Snapshot :=
  { samplePocket with overlaySituations := fun _ _ => corridorGrid, defaultPoint := d }

/-! ## Helper lemmas on the loops -/

theorem foldl_insert_eq {α β : Type} [DecidableEq β] (f : α → β) (l : List α) (V : Finset β) :
    l.foldl (fun v i => insert (f i) v) V = V ∪ (l.map f).toFinset := by
  induction l generalizing V with
  | nil => simp
  | cons x xs ih =>
    simp only [List.foldl_cons, ih, List.map_cons, List.toFinset_cons]
    ext a
    simp only [Finset.mem_union, Finset.mem_insert]
    tauto

theorem foldl_cond_insert_eq {α β : Type} [DecidableEq β] (p : α → Prop) [DecidablePred p]
    (f : α → β) (l : List α) (V : Finset β) :
    l.foldl (fun v i => if p i then insert (f i) v else v) V
      = V ∪ ((l.filter (fun i => decide (p i))).map f).toFinset := by
  induction l generalizing V with
  | nil => simp
  | cons x xs ih =>
    simp only [List.foldl_cons, ih]
    by_cases hx : p x
    · simp only [hx, if_true, List.filter_cons, decide_True, List.map_cons, List.toFinset_cons]
      ext a
      simp only [Finset.mem_union, Finset.mem_insert]
      tauto
    · simp [hx, List.filter_cons]

theorem mem_vetoRotations (t : FORRActionType) (n : Nat) (V : Finset FORRAction)
    (a : FORRAction) :
    a ∈ vetoRotations t n V ↔
      a ∈ V ∨ (a.type = t ∧ 1 ≤ a.parameter ∧ a.parameter ≤ ((n / 2 : Nat) : Int)) := by
  unfold vetoRotations
  rw [foldl_insert_eq]
  simp only [Finset.mem_union, List.mem_toFinset, List.mem_map, List.mem_range']
  constructor
  · rintro (h | ⟨i, ⟨k, hk, rfl⟩, rfl⟩)
    · exact Or.inl h
    · refine Or.inr ⟨rfl, ?_, ?_⟩ <;> simp only [] <;> omega
  · rintro (h | ⟨ht, h1, h2⟩)
    · exact Or.inl h
    · refine Or.inr ⟨a.parameter.toNat, ⟨a.parameter.toNat - 1, ?_, ?_⟩, ?_⟩
      · omega
      · omega
      · cases a with
        | mk ty pa =>
          simp only at ht h1 h2 ⊢
          subst ht
          congr
          omega

open FORRActionType in
theorem mem_advisorAvoidWalls (s : Snapshot) (b : Beliefs) (a : FORRAction) :
    a ∈ (advisorAvoidWalls s b).vetoedActions ↔
      a ∈ b.vetoedActions ∨
        (a.type = FORWARD ∧ s.maxForwardAction.parameter < a.parameter ∧ 1 ≤ a.parameter
          ∧ a.parameter + 1 ≤ (s.forwardSetSize : Int)) := by
  unfold advisorAvoidWalls
  simp only []
  rw [foldl_cond_insert_eq (fun i : Nat => (i : Int) > s.maxForwardAction.parameter)
    (fun i : Nat => FORRAction.mk FORWARD (i : Int))]
  simp only [Finset.mem_union, List.mem_toFinset, List.mem_map, List.mem_filter,
    List.mem_reverse, List.mem_range', decide_eq_true_eq]
  constructor
  · rintro (h | ⟨i, ⟨⟨k, hk, rfl⟩, hi⟩, rfl⟩)
    · exact Or.inl h
    · refine Or.inr ⟨rfl, ?_, ?_, ?_⟩ <;> simp only [] <;> omega
  · rintro (h | ⟨ht, h1, h2, h3⟩)
    · exact Or.inl h
    · refine Or.inr ⟨a.parameter.toNat, ⟨⟨a.parameter.toNat - 1, ?_, ?_⟩, ?_⟩, ?_⟩
      · omega
      · omega
      · omega
      · cases a with
        | mk ty pa =>
          simp only at ht h1 h2 ⊢
          subst ht
          congr
          omega

theorem dontGoBackStep_eq (s : Snapshot) (V : Finset FORRAction) (a : FORRAction) :
    dontGoBackStep s V a = if revisits s a then insert a V else V := by
  unfold dontGoBackStep revisits
  by_cases hV : a ∈ V
  · simp only [hV, if_true, Finset.insert_eq_of_mem, ite_self]
  · by_cases ht : a.type = FORRActionType.PAUSE ∨ a.type = FORRActionType.FORWARD
    · simp [hV, ht]
    · by_cases hp : s.getPlanPositionValue (s.getExpectedPositionAfterAction a).x
        (s.getExpectedPositionAfterAction a).y = true
      · simp [hV, ht, hp]
      · simp [hV, ht, hp]

theorem advisorDontGoBack_eq (s : Snapshot) (b : Beliefs) :
    (advisorDontGoBack s b).vetoedActions =
      b.vetoedActions ∪ (s.getActionSet.filter (fun a => decide (revisits s a))).toFinset := by
  unfold advisorDontGoBack
  simp only []
  have h : dontGoBackStep s = fun V a => if revisits s a then insert (id a) V else V := by
    funext V a; exact dontGoBackStep_eq s V a
  rw [h, foldl_cond_insert_eq (revisits s) id]
  simp

theorem situationStep_eq (s : Snapshot) (V : Finset FORRAction) (a : FORRAction) :
    situationStep s V a = if lowWeight s a then insert a V else V := by
  unfold situationStep lowWeight
  by_cases hV : a ∈ V
  · simp only [hV, if_true, Finset.insert_eq_of_mem, ite_self]
  · by_cases ht : a.type = FORRActionType.PAUSE
    · simp [hV, ht]
    · by_cases hp : s.getWeightForAction a < 1 / 4
      · simp [hV, ht, hp]
      · simp [hV, ht, hp]

theorem advisorSituation_eq (s : Snapshot) (b : Beliefs) :
    (advisorSituation s b).vetoedActions =
      if s.getAccuracyForSituation ≥ 3 / 4 then
        b.vetoedActions ∪ (s.getActionSet.filter (fun a => decide (lowWeight s a))).toFinset
      else b.vetoedActions := by
  unfold advisorSituation
  simp only []
  by_cases hq : s.getAccuracyForSituation ≥ 3 / 4
  · simp only [hq, if_true]
    have h : situationStep s = fun V a => if lowWeight s a then insert (id a) V else V := by
      funext V a; exact situationStep_eq s V a
    rw [h, foldl_cond_insert_eq (lowWeight s) id]
    simp
  · simp only [hq, if_false]

open FORRActionType in
theorem mem_advisorNotOpposite (s : Snapshot) (junk : FORRAction) (b : Beliefs)
    (a : FORRAction) :
    a ∈ (advisorNotOpposite s junk b).vetoedActions ↔
      a ∈ b.vetoedActions
      ∨ (vetoesLeft s junk ∧ a.type = LEFT_TURN ∧ 1 ≤ a.parameter
          ∧ a.parameter ≤ ((s.rotationSetSize / 2 : Nat) : Int))
      ∨ (vetoesRight s junk ∧ a.type = RIGHT_TURN ∧ 1 ≤ a.parameter
          ∧ a.parameter ≤ ((s.rotationSetSize / 2 : Nat) : Int)) := by
  unfold advisorNotOpposite vetoesLeft vetoesRight lastAction lastlastAction
  simp only []
  by_cases hlen : s.getPreviousDecisions.length < 2
  · have h2 : ¬ 2 ≤ s.getPreviousDecisions.length := by omega
    simp only [hlen, if_true, h2, false_and, or_false]
  · have h2 : 2 ≤ s.getPreviousDecisions.length := by omega
    simp only [hlen, if_false, h2, true_and]
    generalize vectorAt s.getPreviousDecisions (↑s.getPreviousDecisions.length - 1) junk = l
    generalize vectorAt s.getPreviousDecisions (↑s.getPreviousDecisions.length - 2) junk = ll
    cases hl : l.type <;> cases hll : ll.type <;>
      simp only [mem_vetoRotations, reduceCtorEq, and_self, and_true, and_false, false_and,
        true_and, or_self, or_true, or_false, false_or, true_or, if_true, if_false] <;>
      tauto

/-! ## Monotonicity of the veto advisors -/

theorem subset_advisorNotOpposite (s : Snapshot) (junk : FORRAction) (b : Beliefs) :
    b.vetoedActions ⊆ (advisorNotOpposite s junk b).vetoedActions := by
  intro a ha
  rw [mem_advisorNotOpposite]
  exact Or.inl ha

theorem subset_advisorAvoidWalls (s : Snapshot) (b : Beliefs) :
    b.vetoedActions ⊆ (advisorAvoidWalls s b).vetoedActions := by
  intro a ha
  rw [mem_advisorAvoidWalls]
  exact Or.inl ha

theorem subset_advisorDontGoBack (s : Snapshot) (b : Beliefs) :
    b.vetoedActions ⊆ (advisorDontGoBack s b).vetoedActions := by
  rw [advisorDontGoBack_eq]
  exact Finset.subset_union_left

theorem subset_advisorSituation (s : Snapshot) (b : Beliefs) :
    b.vetoedActions ⊆ (advisorSituation s b).vetoedActions := by
  rw [advisorSituation_eq]
  split_ifs
  · exact Finset.subset_union_left
  · exact Finset.Subset.refl _

theorem subset_runVetoAdvisor (s : Snapshot) (junk : FORRAction) (adv : VetoAdvisor)
    (b : Beliefs) : b.vetoedActions ⊆ (runVetoAdvisor s junk adv b).vetoedActions := by
  cases adv
  · exact subset_advisorNotOpposite s junk b
  · exact subset_advisorAvoidWalls s b
  · exact subset_advisorDontGoBack s b
  · exact subset_advisorSituation s b

/-! ## Pause is never vetoed -/

theorem pauseFree_advisorNotOpposite (s : Snapshot) (junk : FORRAction) (b : Beliefs)
    (h : PauseFree b.vetoedActions) : PauseFree (advisorNotOpposite s junk b).vetoedActions := by
  intro a ha
  rw [mem_advisorNotOpposite] at ha
  rcases ha with ha | ⟨_, ht, _⟩ | ⟨_, ht, _⟩
  · exact h a ha
  · rw [ht]; decide
  · rw [ht]; decide

theorem pauseFree_advisorAvoidWalls (s : Snapshot) (b : Beliefs)
    (h : PauseFree b.vetoedActions) : PauseFree (advisorAvoidWalls s b).vetoedActions := by
  intro a ha
  rw [mem_advisorAvoidWalls] at ha
  rcases ha with ha | ⟨ht, _⟩
  · exact h a ha
  · rw [ht]; decide

theorem pauseFree_advisorDontGoBack (s : Snapshot) (b : Beliefs)
    (h : PauseFree b.vetoedActions) : PauseFree (advisorDontGoBack s b).vetoedActions := by
  intro a ha
  rw [advisorDontGoBack_eq] at ha
  simp only [Finset.mem_union, List.mem_toFinset, List.mem_filter, decide_eq_true_eq] at ha
  rcases ha with ha | ⟨_, hr⟩
  · exact h a ha
  · intro hp
    exact hr.1 (Or.inl hp)

theorem pauseFree_advisorSituation (s : Snapshot) (b : Beliefs)
    (h : PauseFree b.vetoedActions) : PauseFree (advisorSituation s b).vetoedActions := by
  intro a ha
  rw [advisorSituation_eq] at ha
  split_ifs at ha
  · simp only [Finset.mem_union, List.mem_toFinset, List.mem_filter, decide_eq_true_eq] at ha
    rcases ha with ha | ⟨_, hr⟩
    · exact h a ha
    · exact hr.1
  · exact h a ha

theorem pauseFree_runVetoAdvisor (s : Snapshot) (junk : FORRAction) (adv : VetoAdvisor)
    (b : Beliefs) (h : PauseFree b.vetoedActions) :
    PauseFree (runVetoAdvisor s junk adv b).vetoedActions := by
  cases adv
  · exact pauseFree_advisorNotOpposite s junk b h
  · exact pauseFree_advisorAvoidWalls s b h
  · exact pauseFree_advisorDontGoBack s b h
  · exact pauseFree_advisorSituation s b h

theorem pauseFree_runVetoSequence (s : Snapshot) (junk : FORRAction) (l : List VetoAdvisor)
    (b : Beliefs) (h : PauseFree b.vetoedActions) :
    PauseFree (runVetoSequence s junk l b).vetoedActions := by
  induction l generalizing b with
  | nil => exact h
  | cons adv rest ih =>
    exact ih (runVetoAdvisor s junk adv b) (pauseFree_runVetoAdvisor s junk adv b h)

theorem runVetoAdvisors_eq_sequence (s : Snapshot) (junk : FORRAction) (b : Beliefs) :
    runVetoAdvisors s junk b =
      runVetoSequence s junk
        [VetoAdvisor.notOpposite, VetoAdvisor.avoidWalls, VetoAdvisor.dontGoBack,
          VetoAdvisor.situation] b := rfl

/-! ## The claims -/

/-- C1, pause invariance: from a vetoed set without a pause action, each of `advisorNotOpposite`,
`advisorAvoidWalls`, `advisorDontGoBack` and `advisorSituation`, the four run in the order of the
cycle, and any sequence of them whatsoever, ends with a vetoed set without a pause action, for every
snapshot (history, catalog, wall cap, visited grid, confidence and weights). -/
theorem C1_pause_invariance (s : Snapshot) (junk : FORRAction) (b : Beliefs)
    (h : ∀ a ∈ b.vetoedActions, a.type ≠ FORRActionType.PAUSE) :
    (∀ a ∈ (advisorNotOpposite s junk b).vetoedActions, a.type ≠ FORRActionType.PAUSE)
    ∧ (∀ a ∈ (advisorAvoidWalls s b).vetoedActions, a.type ≠ FORRActionType.PAUSE)
    ∧ (∀ a ∈ (advisorDontGoBack s b).vetoedActions, a.type ≠ FORRActionType.PAUSE)
    ∧ (∀ a ∈ (advisorSituation s b).vetoedActions, a.type ≠ FORRActionType.PAUSE)
    ∧ (∀ a ∈ (runVetoAdvisors s junk b).vetoedActions, a.type ≠ FORRActionType.PAUSE)
    ∧ (∀ l : List VetoAdvisor, ∀ a ∈ (runVetoSequence s junk l b).vetoedActions,
        a.type ≠ FORRActionType.PAUSE) :=
  ⟨pauseFree_advisorNotOpposite s junk b h, pauseFree_advisorAvoidWalls s b h,
    pauseFree_advisorDontGoBack s b h, pauseFree_advisorSituation s b h,
    by rw [runVetoAdvisors_eq_sequence]; exact pauseFree_runVetoSequence s junk _ b h,
    fun l => pauseFree_runVetoSequence s junk l b h⟩

/-- Witness of C1 on the sample snapshot, from the empty vetoed set. -/
theorem C1_pause_invariance_witness :
    (∀ a ∈ emptyBeliefs.vetoedActions, a.type ≠ FORRActionType.PAUSE)
    ∧ (∀ a ∈ (runVetoAdvisors sampleSnapshot sampleJunk emptyBeliefs).vetoedActions,
        a.type ≠ FORRActionType.PAUSE) :=
  ⟨by simp [emptyBeliefs],
    (C1_pause_invariance sampleSnapshot sampleJunk emptyBeliefs
      (by simp [emptyBeliefs])).2.2.2.2.1⟩

theorem advisorVictory_vetoed (s : Snapshot) (decision : FORRAction) (b : Beliefs) :
    (advisorVictory s decision b).beliefs.vetoedActions = b.vetoedActions := by
  unfold advisorVictory
  simp only []
  split_ifs <;> rfl

theorem getOutPlan_vetoed (s : Snapshot) (fuel : Nat) (decision : FORRAction) (b : Beliefs)
    (r : AdvisorReturn) (h : getOutPlan s fuel decision b = GetOutOutcome.returned r) :
    r.beliefs.vetoedActions = b.vetoedActions ∧ r.decisionMade = false
      ∧ r.decision = decision := by
  unfold getOutPlan at h
  simp only [] at h
  split at h
  · split at h
    · cases h
    · split at h
      · cases h
      · split at h
        · cases h
        · cases h
        · cases h
          exact ⟨rfl, rfl, rfl⟩
  · cases h

theorem advisorGetOut_vetoed (s : Snapshot) (fuel : Nat) (junk decision : FORRAction)
    (b : Beliefs) (r : AdvisorReturn)
    (h : advisorGetOut s fuel junk decision b = GetOutOutcome.returned r) :
    r.beliefs.vetoedActions = b.vetoedActions := by
  unfold advisorGetOut at h
  simp only [] at h
  split_ifs at h
  · exact (getOutPlan_vetoed s fuel decision b r h).1
  · cases h; rfl
  · cases h; rfl
  · cases h; rfl

/-- C2, veto monotonicity: for every snapshot and every initial vetoed set, the vetoed set after
each of NotOpposite, AvoidWalls, DontGoBack and Situation contains the initial one, and Victory
and GetOut (whenever it returns) leave the vetoed set exactly as it was. -/
theorem C2_veto_monotonicity (s : Snapshot) (fuel : Nat) (junk decision : FORRAction)
    (b : Beliefs) :
    b.vetoedActions ⊆ (advisorNotOpposite s junk b).vetoedActions
    ∧ b.vetoedActions ⊆ (advisorAvoidWalls s b).vetoedActions
    ∧ b.vetoedActions ⊆ (advisorDontGoBack s b).vetoedActions
    ∧ b.vetoedActions ⊆ (advisorSituation s b).vetoedActions
    ∧ (advisorVictory s decision b).beliefs.vetoedActions = b.vetoedActions
    ∧ (∀ r, advisorGetOut s fuel junk decision b = GetOutOutcome.returned r →
        r.beliefs.vetoedActions = b.vetoedActions) :=
  ⟨subset_advisorNotOpposite s junk b, subset_advisorAvoidWalls s b,
    subset_advisorDontGoBack s b, subset_advisorSituation s b,
    advisorVictory_vetoed s decision b, advisorGetOut_vetoed s fuel junk decision b⟩

/-- Witness of C2: on the confined sample GetOut returns (it commits to its fallback turn) and the
vetoed set is the one the veto advisors left. -/
theorem C2_veto_monotonicity_witness :
    advisorGetOut sampleConfined 0 sampleJunk sampleJunk
        (runVetoAdvisors sampleConfined sampleJunk emptyBeliefs)
      = GetOutOutcome.returned
          { decisionMade := true, decision := FORRAction.mk FORRActionType.RIGHT_TURN 5,
            beliefs := runVetoAdvisors sampleConfined sampleJunk emptyBeliefs }
    ∧ (AdvisorReturn.mk true (FORRAction.mk FORRActionType.RIGHT_TURN 5)
        (runVetoAdvisors sampleConfined sampleJunk emptyBeliefs)).beliefs.vetoedActions
      = (runVetoAdvisors sampleConfined sampleJunk emptyBeliefs).vetoedActions :=
  ⟨rfl,
    (C2_veto_monotonicity sampleConfined 0 sampleJunk sampleJunk
      (runVetoAdvisors sampleConfined sampleJunk emptyBeliefs)).2.2.2.2.2 _ rfl⟩

/-! ## The cycle: what is committed and what is vetoed -/

theorem tierOneDecision_of_victory (s : Snapshot) (fuel : Nat) (junk decision : FORRAction)
    (b : Beliefs)
    (h : (advisorVictory s decision (runVetoAdvisors s junk b)).decisionMade = true) :
    tierOneDecision s fuel junk decision b
      = GetOutOutcome.returned (advisorVictory s decision (runVetoAdvisors s junk b)) := by
  unfold tierOneDecision
  simp only [h, if_true]

theorem tierOneDecision_of_not_victory (s : Snapshot) (fuel : Nat) (junk decision : FORRAction)
    (b : Beliefs)
    (h : (advisorVictory s decision (runVetoAdvisors s junk b)).decisionMade = false) :
    tierOneDecision s fuel junk decision b
      = advisorGetOut s fuel junk
          (advisorVictory s decision (runVetoAdvisors s junk b)).decision
          (advisorVictory s decision (runVetoAdvisors s junk b)).beliefs := by
  unfold tierOneDecision
  simp [h]

theorem subset_runVetoAdvisors_of_notOpposite (s : Snapshot) (junk : FORRAction) (b : Beliefs) :
    (advisorNotOpposite s junk b).vetoedActions ⊆ (runVetoAdvisors s junk b).vetoedActions := by
  unfold runVetoAdvisors
  exact (subset_advisorAvoidWalls s _).trans
    ((subset_advisorDontGoBack s _).trans (subset_advisorSituation s _))

/-- C3 as stated fails.  On the sample snapshot Situation vetoes `FORWARD 2`
(confidence 0.8, weight 0.1) and Victory then commits to `FORWARD 2`, the goal being in sight.  On
the confined sample NotOpposite vetoes `RIGHT_TURN 1..5` after the last left turn, Victory sees
nothing, and GetOut then commits to `RIGHT_TURN 5`.  In both cycles the committed action is a
member of the vetoed set accumulated in the cycle. -/
theorem C3_committed_action_is_vetoed :
    (∃ r, tierOneDecision sampleSnapshot 0 sampleJunk sampleJunk emptyBeliefs
          = GetOutOutcome.returned r
        ∧ r.decisionMade = true ∧ r.decision = FORRAction.mk FORRActionType.FORWARD 2
        ∧ r.decision ∈ r.beliefs.vetoedActions)
    ∧ (∃ r, tierOneDecision sampleConfined 0 sampleJunk sampleJunk emptyBeliefs
          = GetOutOutcome.returned r
        ∧ r.decisionMade = true ∧ r.decision = FORRAction.mk FORRActionType.RIGHT_TURN 5
        ∧ r.decision ∈ r.beliefs.vetoedActions) := by
  constructor
  · have hdm : (advisorVictory sampleSnapshot sampleJunk
        (runVetoAdvisors sampleSnapshot sampleJunk emptyBeliefs)).decisionMade = true := by
      simp [advisorVictory, sampleSnapshot, victoryCondition]
      norm_num
    have hdec : (advisorVictory sampleSnapshot sampleJunk
        (runVetoAdvisors sampleSnapshot sampleJunk emptyBeliefs)).decision
          = FORRAction.mk FORRActionType.FORWARD 2 := by
      simp [advisorVictory, sampleSnapshot, victoryCondition]
      norm_num
    refine ⟨_, tierOneDecision_of_victory _ _ _ _ _ hdm, hdm, hdec, ?_⟩
    rw [hdec, advisorVictory_vetoed]
    unfold runVetoAdvisors
    rw [advisorSituation_eq]
    have hq : sampleSnapshot.getAccuracyForSituation ≥ 3 / 4 := by
      simp only [sampleSnapshot]; norm_num
    simp only [hq, if_true, Finset.mem_union, List.mem_toFinset, List.mem_filter,
      decide_eq_true_eq]
    refine Or.inr ⟨by decide, ?_⟩
    simp only [lowWeight, sampleSnapshot]
    norm_num
    decide
  · have hdm : (advisorVictory sampleConfined sampleJunk
        (runVetoAdvisors sampleConfined sampleJunk emptyBeliefs)).decisionMade = false := rfl
    have hget : tierOneDecision sampleConfined 0 sampleJunk sampleJunk emptyBeliefs
        = GetOutOutcome.returned
            { decisionMade := true, decision := FORRAction.mk FORRActionType.RIGHT_TURN 5,
              beliefs := runVetoAdvisors sampleConfined sampleJunk emptyBeliefs } := by
      rw [tierOneDecision_of_not_victory _ _ _ _ _ hdm]
      rfl
    refine ⟨_, hget, rfl, rfl, ?_⟩
    apply subset_runVetoAdvisors_of_notOpposite
    decide

/-! ## advisorNotOpposite on a history with known last decisions -/

theorem vectorAt_last (pre : List FORRAction) (x y junk : FORRAction) :
    vectorAt (pre ++ [x, y]) (((pre ++ [x, y]).length : Int) - 1) junk = y := by
  unfold vectorAt
  have hlen : (pre ++ [x, y]).length = pre.length + 2 := by simp
  have hcond : 0 ≤ (((pre ++ [x, y]).length : Int) - 1)
      ∧ (((pre ++ [x, y]).length : Int) - 1) < ((pre ++ [x, y]).length : Int) := by
    rw [hlen]; constructor <;> omega
  have hidx : (((pre ++ [x, y]).length : Int) - 1).toNat = pre.length + 1 := by
    rw [hlen]; omega
  rw [if_pos hcond, hidx, List.getD_append_right _ _ _ _ (by omega)]
  simp

theorem vectorAt_lastlast (pre : List FORRAction) (x y junk : FORRAction) :
    vectorAt (pre ++ [x, y]) (((pre ++ [x, y]).length : Int) - 2) junk = x := by
  unfold vectorAt
  have hlen : (pre ++ [x, y]).length = pre.length + 2 := by simp
  have hcond : 0 ≤ (((pre ++ [x, y]).length : Int) - 2)
      ∧ (((pre ++ [x, y]).length : Int) - 2) < ((pre ++ [x, y]).length : Int) := by
    rw [hlen]; constructor <;> omega
  have hidx : (((pre ++ [x, y]).length : Int) - 2).toNat = pre.length := by
    rw [hlen]; omega
  rw [if_pos hcond, hidx, List.getD_append_right _ _ _ _ (by omega)]
  simp

theorem lastAction_eq (s : Snapshot) (junk : FORRAction) (pre : List FORRAction)
    (x y : FORRAction) (h : s.getPreviousDecisions = pre ++ [x, y]) :
    lastAction s junk = y := by
  unfold lastAction
  rw [h]
  exact vectorAt_last pre x y junk

theorem lastlastAction_eq (s : Snapshot) (junk : FORRAction) (pre : List FORRAction)
    (x y : FORRAction) (h : s.getPreviousDecisions = pre ++ [x, y]) :
    lastlastAction s junk = x := by
  unfold lastlastAction
  rw [h]
  exact vectorAt_lastlast pre x y junk

theorem length_ge_two (s : Snapshot) (pre : List FORRAction) (x y : FORRAction)
    (h : s.getPreviousDecisions = pre ++ [x, y]) : 2 ≤ s.getPreviousDecisions.length := by
  rw [h]; simp

open FORRActionType in
/-- C4, opposite-turn suppression: when the history ends with a turn in direction `D` (of any
intensity `k`) followed by a pause, `advisorNotOpposite` leaves in the vetoed set every rotation
action of the opposite direction with intensity `i`, `1 ≤ i ≤ rotationCount/2`: the left turns
for `D = RIGHT_TURN`, the right turns for `D = LEFT_TURN`.  This holds whatever a read outside of
the history (of `actions[size-3]` on a history of two) yields. -/
theorem C4_opposite_turn_suppression (s : Snapshot) (junk : FORRAction) (b : Beliefs)
    (pre : List FORRAction) (D : FORRActionType) (k p : Int)
    (hhist : s.getPreviousDecisions = pre ++ [FORRAction.mk D k, FORRAction.mk PAUSE p])
    (i : Int) (h1 : 1 ≤ i) (h2 : i ≤ ((s.rotationSetSize / 2 : Nat) : Int)) :
    (D = RIGHT_TURN → FORRAction.mk LEFT_TURN i ∈ (advisorNotOpposite s junk b).vetoedActions)
    ∧ (D = LEFT_TURN →
        FORRAction.mk RIGHT_TURN i ∈ (advisorNotOpposite s junk b).vetoedActions) := by
  have hl := lastAction_eq s junk pre _ _ hhist
  have hll := lastlastAction_eq s junk pre _ _ hhist
  have hlen := length_ge_two s pre _ _ hhist
  constructor
  · intro hD
    rw [mem_advisorNotOpposite]
    refine Or.inr (Or.inl ⟨⟨hlen, Or.inl ?_⟩, rfl, h1, h2⟩)
    rw [hl, hll]
    exact ⟨hD, rfl⟩
  · intro hD
    rw [mem_advisorNotOpposite]
    refine Or.inr (Or.inr ⟨⟨hlen, Or.inl ?_⟩, rfl, h1, h2⟩)
    rw [hl, hll]
    exact ⟨hD, rfl⟩

/-- Witness of C4 on a history of exactly two decisions, `RIGHT_TURN 3` then `PAUSE 0`: the left
turn of intensity 5 is vetoed. -/
theorem C4_opposite_turn_suppression_witness :
    sampleAfterPause.getPreviousDecisions
        = [] ++ [FORRAction.mk FORRActionType.RIGHT_TURN 3, FORRAction.mk FORRActionType.PAUSE 0]
    ∧ (1 : Int) ≤ 5 ∧ (5 : Int) ≤ ((sampleAfterPause.rotationSetSize / 2 : Nat) : Int)
    ∧ FORRAction.mk FORRActionType.LEFT_TURN 5
        ∈ (advisorNotOpposite sampleAfterPause sampleJunk emptyBeliefs).vetoedActions :=
  ⟨rfl, by decide, by decide,
    (C4_opposite_turn_suppression sampleAfterPause sampleJunk emptyBeliefs []
      FORRActionType.RIGHT_TURN 3 0 rfl 5 (by decide) (by decide)).1 rfl⟩

open FORRActionType in
/-- C5, wall-distance cap: for a cap `c ≥ 0` (the intensity of `maxForwardAction`) and `m` forward
actions `FORWARD 0 .. FORWARD (m-1)`, the vetoed set after `advisorAvoidWalls` is the initial one
together with exactly the actions `FORWARD i`, `c < i ≤ m-1`: each of these is vetoed, and an
action that was not vetoed before and is vetoed after is one of them (so no `FORWARD i` with
`i ≤ c` and no action of another type is added). -/
theorem C5_wall_distance_cap (s : Snapshot) (b : Beliefs)
    (hc : 0 ≤ s.maxForwardAction.parameter) :
    (∀ a, a ∈ (advisorAvoidWalls s b).vetoedActions ↔
      a ∈ b.vetoedActions ∨
        (a.type = FORWARD ∧ s.maxForwardAction.parameter < a.parameter
          ∧ a.parameter ≤ (s.forwardSetSize : Int) - 1))
    ∧ (∀ i : Int, s.maxForwardAction.parameter < i → i ≤ (s.forwardSetSize : Int) - 1 →
        FORRAction.mk FORWARD i ∈ (advisorAvoidWalls s b).vetoedActions)
    ∧ (∀ a, a ∈ (advisorAvoidWalls s b).vetoedActions → a ∉ b.vetoedActions →
        a.type = FORWARD ∧ s.maxForwardAction.parameter < a.parameter
          ∧ a.parameter ≤ (s.forwardSetSize : Int) - 1) := by
  have key : ∀ a, a ∈ (advisorAvoidWalls s b).vetoedActions ↔
      a ∈ b.vetoedActions ∨
        (a.type = FORWARD ∧ s.maxForwardAction.parameter < a.parameter
          ∧ a.parameter ≤ (s.forwardSetSize : Int) - 1) := by
    intro a
    rw [mem_advisorAvoidWalls]
    constructor
    · rintro (h | ⟨ht, h1, _, h3⟩)
      · exact Or.inl h
      · exact Or.inr ⟨ht, h1, by omega⟩
    · rintro (h | ⟨ht, h1, h3⟩)
      · exact Or.inl h
      · exact Or.inr ⟨ht, h1, by omega, by omega⟩
  refine ⟨key, ?_, ?_⟩
  · intro i h1 h2
    exact (key _).2 (Or.inr ⟨rfl, h1, h2⟩)
  · intro a ha hna
    rcases (key a).1 ha with h | h
    · exact absurd h hna
    · exact h

/-- Witness of C5 on the sample snapshot (cap 3, six forward actions): `FORWARD 4` is vetoed. -/
theorem C5_wall_distance_cap_witness :
    0 ≤ sampleSnapshot.maxForwardAction.parameter
    ∧ FORRAction.mk FORRActionType.FORWARD 4
        ∈ (advisorAvoidWalls sampleSnapshot emptyBeliefs).vetoedActions :=
  ⟨by decide,
    (C5_wall_distance_cap sampleSnapshot emptyBeliefs (by decide)).2.1 4 (by decide)
      (by decide)⟩

open FORRActionType in
/-- C6, no-revisit: the actions `advisorDontGoBack` adds to the vetoed set `V` are exactly the
left and right turns of the catalog that are not in `V` and whose predicted pose is marked
visited; a not-yet-vetoed turn whose predicted pose is not marked stays out of the vetoed set, and
so does a not-yet-vetoed forward or pause action, whatever its predicted pose. -/
theorem C6_no_revisit (s : Snapshot) (b : Beliefs) :
    (advisorDontGoBack s b).vetoedActions \ b.vetoedActions
      = s.getActionSet.toFinset.filter (fun a =>
          a ∉ b.vetoedActions ∧ (a.type = LEFT_TURN ∨ a.type = RIGHT_TURN)
            ∧ s.getPlanPositionValue (s.getExpectedPositionAfterAction a).x
                (s.getExpectedPositionAfterAction a).y = true)
    ∧ b.vetoedActions ⊆ (advisorDontGoBack s b).vetoedActions
    ∧ (∀ a, a ∉ b.vetoedActions → (a.type = LEFT_TURN ∨ a.type = RIGHT_TURN) →
        s.getPlanPositionValue (s.getExpectedPositionAfterAction a).x
            (s.getExpectedPositionAfterAction a).y = false →
        a ∉ (advisorDontGoBack s b).vetoedActions)
    ∧ (∀ a, a ∉ b.vetoedActions → (a.type = FORWARD ∨ a.type = PAUSE) →
        a ∉ (advisorDontGoBack s b).vetoedActions) := by
  have key : ∀ a, a ∈ (advisorDontGoBack s b).vetoedActions ↔
      a ∈ b.vetoedActions ∨ (a ∈ s.getActionSet ∧ revisits s a) := by
    intro a
    rw [advisorDontGoBack_eq]
    simp only [Finset.mem_union, List.mem_toFinset, List.mem_filter, decide_eq_true_eq]
  have turn : ∀ a : FORRAction, (¬ (a.type = PAUSE ∨ a.type = FORWARD)) ↔
      (a.type = LEFT_TURN ∨ a.type = RIGHT_TURN) := by
    intro a
    cases a.type <;> simp
  refine ⟨?_, subset_advisorDontGoBack s b, ?_, ?_⟩
  · ext a
    simp only [Finset.mem_sdiff, Finset.mem_filter, List.mem_toFinset, key, revisits, turn]
    tauto
  · intro a hna _ hv ha
    rcases (key a).1 ha with h | ⟨_, _, h⟩
    · exact hna h
    · rw [hv] at h; exact Bool.false_ne_true h
  · intro a hna ht ha
    rcases (key a).1 ha with h | ⟨_, h, _⟩
    · exact hna h
    · exact h (Or.symm ht)

/-- Witness of C6 on the sample with the cell of the robot marked visited: `FORWARD 1`, not vetoed
before, is not vetoed after, although its predicted pose is the pose of a forward action. -/
theorem C6_no_revisit_witness :
    FORRAction.mk FORRActionType.FORWARD 1 ∉ emptyBeliefs.vetoedActions
    ∧ FORRAction.mk FORRActionType.FORWARD 1
        ∉ (advisorDontGoBack sampleVisited emptyBeliefs).vetoedActions :=
  ⟨by simp [emptyBeliefs],
    (C6_no_revisit sampleVisited emptyBeliefs).2.2.2 _ (by simp [emptyBeliefs])
      (Or.inl rfl)⟩

open FORRActionType in
/-- C7, situation veto threshold: with recognition confidence `q ≥ 0.75` (equality included) the
actions `advisorSituation` adds to the vetoed set `V` are exactly the actions of the catalog that
are not a pause, are not in `V` and have weight `< 0.25` (a weight of exactly `0.25` is not
vetoed); with `q < 0.75` the advisor changes nothing. -/
theorem C7_situation_threshold (s : Snapshot) (b : Beliefs) :
    (s.getAccuracyForSituation ≥ 3 / 4 →
      (advisorSituation s b).vetoedActions \ b.vetoedActions
          = s.getActionSet.toFinset.filter (fun a =>
              a ∉ b.vetoedActions ∧ a.type ≠ PAUSE ∧ s.getWeightForAction a < 1 / 4)
        ∧ b.vetoedActions ⊆ (advisorSituation s b).vetoedActions)
    ∧ (s.getAccuracyForSituation < 3 / 4 → advisorSituation s b = b)
    ∧ (s.getAccuracyForSituation = 3 / 4 → ∀ a ∈ s.getActionSet, a.type ≠ PAUSE →
        s.getWeightForAction a < 1 / 4 → a ∈ (advisorSituation s b).vetoedActions)
    ∧ (∀ a, a ∉ b.vetoedActions → s.getWeightForAction a = 1 / 4 →
        a ∉ (advisorSituation s b).vetoedActions) := by
  refine ⟨?_, ?_, ?_, ?_⟩
  · intro hq
    refine ⟨?_, subset_advisorSituation s b⟩
    ext a
    rw [advisorSituation_eq, if_pos hq]
    simp only [Finset.mem_sdiff, Finset.mem_union, Finset.mem_filter, List.mem_toFinset,
      List.mem_filter, decide_eq_true_eq, lowWeight]
    tauto
  · intro hq
    unfold advisorSituation
    simp only []
    rw [if_neg (not_le.mpr hq)]
  · intro hq a ha hp hw
    rw [advisorSituation_eq, if_pos (le_of_eq hq.symm)]
    simp only [Finset.mem_union, List.mem_toFinset, List.mem_filter, decide_eq_true_eq,
      lowWeight]
    exact Or.inr ⟨ha, hp, hw⟩
  · intro a hna hw ha
    rw [advisorSituation_eq] at ha
    split_ifs at ha
    · simp only [Finset.mem_union, List.mem_toFinset, List.mem_filter, decide_eq_true_eq,
        lowWeight] at ha
      rcases ha with h | ⟨_, _, h⟩
      · exact hna h
      · rw [hw] at h; exact lt_irrefl _ h
    · exact hna ha

/-- Witness of C7 on the sample snapshot (confidence 0.8, weight 0.1 on `FORWARD 2`): the vetoed
set after `advisorSituation` contains the initial one. -/
theorem C7_situation_threshold_witness :
    sampleSnapshot.getAccuracyForSituation ≥ 3 / 4
    ∧ (advisorSituation sampleSnapshot emptyBeliefs).vetoedActions \ emptyBeliefs.vetoedActions
        = sampleSnapshot.getActionSet.toFinset.filter (fun a =>
            a ∉ emptyBeliefs.vetoedActions ∧ a.type ≠ FORRActionType.PAUSE
              ∧ sampleSnapshot.getWeightForAction a < 1 / 4) :=
  ⟨by simp only [sampleSnapshot]; norm_num,
    ((C7_situation_threshold sampleSnapshot emptyBeliefs).1
      (by simp only [sampleSnapshot]; norm_num)).1⟩

/-! ## advisorVictory -/

theorem advisorVictory_of_none (s : Snapshot) (decision : FORRAction) (b : Beliefs)
    (h : steeringAction s = none) :
    advisorVictory s decision b
      = { decisionMade := false, decision := decision, beliefs := b } := by
  unfold steeringAction at h
  unfold advisorVictory
  simp only []
  split_ifs at h ⊢
  rfl

theorem advisorVictory_of_some (s : Snapshot) (decision : FORRAction) (b : Beliefs)
    (a : FORRAction) (h : steeringAction s = some a) :
    (advisorVictory s decision b).decision = a
      ∧ (advisorVictory s decision b).decisionMade = victoryCondition s a := by
  unfold steeringAction at h
  unfold advisorVictory
  simp only []
  split_ifs at h ⊢ <;> simp_all

open FORRActionType in
theorem victoryCondition_iff (s : Snapshot) (a : FORRAction) :
    victoryCondition s a = true ↔
      (a.parameter ≠ 0 ∧ predictedDisplacement s a ≥ 1 / 10
        ∧ (a.type = RIGHT_TURN ∨ a.type = LEFT_TURN
            ∨ a.parameter ≤ s.maxForwardAction.parameter)) := by
  unfold victoryCondition predictedDisplacement
  simp only [decide_eq_true_eq, ge_iff_le]
  tauto

theorem advisorVictory_below_epsilon (s : Snapshot) (decision : FORRAction) (b : Beliefs)
    (h : ∀ a, steeringAction s = some a → predictedDisplacement s a < 1 / 10) :
    (advisorVictory s decision b).decisionMade = false := by
  cases hs : steeringAction s with
  | none => rw [advisorVictory_of_none s decision b hs]
  | some a =>
    rw [(advisorVictory_of_some s decision b a hs).2]
    have hlt := h a hs
    cases hv : victoryCondition s a with
    | false => rfl
    | true =>
      have := ((victoryCondition_iff s a).1 hv).2.1
      exact absurd this (not_le.mpr hlt)

/-- C8, Victory commit threshold: if the predicted displacement of the steering action that
`advisorVictory` computes is below `0.1` (the action towards the goal when the goal is in sight,
the action towards the waypoint when only the waypoint is in sight), then `advisorVictory`
returns `decisionMade = false`; when neither is in sight nothing is assumed and the advisor
returns `false` as well. -/
theorem C8_victory_commit_threshold (s : Snapshot) (decision : FORRAction) (b : Beliefs)
    (hgoal : s.canSeePoint s.task 20 = true →
      predictedDisplacement s (s.moveTowards s.task) < 1 / 10)
    (hway : s.canSeePoint s.task 20 = false → s.canSeePoint s.waypoint 20 = true →
      predictedDisplacement s (s.moveTowards s.waypoint) < 1 / 10) :
    (advisorVictory s decision b).decisionMade = false := by
  apply advisorVictory_below_epsilon
  intro a ha
  unfold steeringAction at ha
  split_ifs at ha with h1 h2
  · cases ha
    exact hway h1 (by simpa using h2)
  · cases ha
    exact hgoal (by simpa using h1)

/-- Witness of C8 on the sample whose steering action moves the robot by 0.05: the goal is in
sight and Victory does not commit. -/
theorem C8_victory_commit_threshold_witness :
    sampleShortStep.canSeePoint sampleShortStep.task 20 = true
    ∧ predictedDisplacement sampleShortStep (sampleShortStep.moveTowards sampleShortStep.task)
        < 1 / 10
    ∧ (advisorVictory sampleShortStep sampleJunk emptyBeliefs).decisionMade = false :=
  ⟨rfl,
    by
      simp [predictedDisplacement, sampleShortStep, sampleSnapshot]
      rw [abs_of_pos (by norm_num)]
      norm_num,
    C8_victory_commit_threshold sampleShortStep sampleJunk emptyBeliefs
      (fun _ => by
        simp [predictedDisplacement, sampleShortStep, sampleSnapshot]
        rw [abs_of_pos (by norm_num)]
        norm_num)
      (fun h => absurd h (by decide))⟩

theorem steeringAction_of_visible (s : Snapshot)
    (hvis : s.canSeePoint s.task 20 = true ∨ s.canSeePoint s.waypoint 20 = true) :
    steeringAction s
      = some (if s.canSeePoint s.task 20 = true then s.moveTowards s.task
          else s.moveTowards s.waypoint) := by
  unfold steeringAction
  rcases hvis with h | h
  · simp [h]
  · cases hg : s.canSeePoint s.task 20 <;> simp [h]

open FORRActionType in
theorem advisorVictory_commit_iff (s : Snapshot) (decision : FORRAction) (b : Beliefs)
    (hvis : s.canSeePoint s.task 20 = true ∨ s.canSeePoint s.waypoint 20 = true) :
    (advisorVictory s decision b).decision
        = (if s.canSeePoint s.task 20 = true then s.moveTowards s.task
            else s.moveTowards s.waypoint)
    ∧ ((advisorVictory s decision b).decisionMade = true ↔
        ((advisorVictory s decision b).decision.parameter ≠ 0
          ∧ predictedDisplacement s (advisorVictory s decision b).decision ≥ 1 / 10
          ∧ ((advisorVictory s decision b).decision.type = RIGHT_TURN
              ∨ (advisorVictory s decision b).decision.type = LEFT_TURN
              ∨ (advisorVictory s decision b).decision.parameter
                  ≤ s.maxForwardAction.parameter))) := by
  have hs := steeringAction_of_visible s hvis
  have h := advisorVictory_of_some s decision b _ hs
  refine ⟨h.1, ?_⟩
  rw [h.2, h.1]
  exact victoryCondition_iff s _

open FORRActionType in
/-- C10, Victory respects the wall cap: whenever `advisorVictory` commits to a forward action,
the intensity of that action is at most the intensity of `maxForwardAction`, and
`advisorAvoidWalls` on the same snapshot does not add that action to any vetoed set: if the
action is vetoed after `advisorAvoidWalls`, it was vetoed before. -/
theorem C10_victory_respects_wall_cap (s : Snapshot) (decision : FORRAction) (b : Beliefs)
    (hcommit : (advisorVictory s decision b).decisionMade = true)
    (hfwd : (advisorVictory s decision b).decision.type = FORWARD) :
    (advisorVictory s decision b).decision.parameter ≤ s.maxForwardAction.parameter
    ∧ (∀ b0 : Beliefs,
        (advisorVictory s decision b).decision ∈ (advisorAvoidWalls s b0).vetoedActions →
        (advisorVictory s decision b).decision ∈ b0.vetoedActions) := by
  have hle : (advisorVictory s decision b).decision.parameter
      ≤ s.maxForwardAction.parameter := by
    cases hs : steeringAction s with
    | none =>
      rw [advisorVictory_of_none s decision b hs] at hcommit
      cases hcommit
    | some a =>
      have h := advisorVictory_of_some s decision b a hs
      rw [h.2] at hcommit
      rw [h.1] at hfwd ⊢
      rcases ((victoryCondition_iff s a).1 hcommit).2.2 with ht | ht | ht
      · rw [hfwd] at ht; cases ht
      · rw [hfwd] at ht; cases ht
      · exact ht
  refine ⟨hle, ?_⟩
  intro b0 hmem
  rcases (mem_advisorAvoidWalls s b0 _).1 hmem with h | ⟨_, hlt, _⟩
  · exact h
  · exact absurd hle (not_le.mpr hlt)

/-- Witness of C10 on the sample snapshot: Victory commits to `FORWARD 2` under the cap
`FORWARD 3`. -/
theorem C10_victory_respects_wall_cap_witness :
    (advisorVictory sampleSnapshot sampleJunk emptyBeliefs).decisionMade = true
    ∧ (advisorVictory sampleSnapshot sampleJunk emptyBeliefs).decision.type
        = FORRActionType.FORWARD
    ∧ (advisorVictory sampleSnapshot sampleJunk emptyBeliefs).decision.parameter
        ≤ sampleSnapshot.maxForwardAction.parameter :=
  have hcommit : (advisorVictory sampleSnapshot sampleJunk emptyBeliefs).decisionMade = true := by
    simp [advisorVictory, sampleSnapshot, victoryCondition]
    norm_num
  have hfwd : (advisorVictory sampleSnapshot sampleJunk emptyBeliefs).decision.type
      = FORRActionType.FORWARD := by
    simp [advisorVictory, sampleSnapshot, victoryCondition]
    norm_num
  ⟨hcommit, hfwd,
    (C10_victory_respects_wall_cap sampleSnapshot sampleJunk emptyBeliefs hcommit hfwd).1⟩

/-! ## advisorGetOut: which branch is taken -/

theorem vectorAt_append_four (pre : List FORRAction) (d4 d3 d2 d1 junk : FORRAction) :
    vectorAt (pre ++ [d4, d3, d2, d1]) (((pre ++ [d4, d3, d2, d1]).length : Int) - 1) junk = d1
    ∧ vectorAt (pre ++ [d4, d3, d2, d1]) (((pre ++ [d4, d3, d2, d1]).length : Int) - 2) junk = d2
    ∧ vectorAt (pre ++ [d4, d3, d2, d1]) (((pre ++ [d4, d3, d2, d1]).length : Int) - 3) junk = d3
    ∧ vectorAt (pre ++ [d4, d3, d2, d1]) (((pre ++ [d4, d3, d2, d1]).length : Int) - 4) junk
        = d4 := by
  have hlen : (pre ++ [d4, d3, d2, d1]).length = pre.length + 4 := by simp
  have key : ∀ k : Nat, k < 4 →
      vectorAt (pre ++ [d4, d3, d2, d1]) (((pre ++ [d4, d3, d2, d1]).length : Int) - 4 + k) junk
        = [d4, d3, d2, d1].getD k junk := by
    intro k hk
    unfold vectorAt
    have hcond : 0 ≤ (((pre ++ [d4, d3, d2, d1]).length : Int) - 4 + k)
        ∧ (((pre ++ [d4, d3, d2, d1]).length : Int) - 4 + k)
            < ((pre ++ [d4, d3, d2, d1]).length : Int) := by
      rw [hlen]; constructor <;> omega
    have hidx : (((pre ++ [d4, d3, d2, d1]).length : Int) - 4 + k).toNat = pre.length + k := by
      rw [hlen]; omega
    rw [if_pos hcond, hidx, List.getD_append_right _ _ _ _ (by omega)]
    congr 1
    omega
  have h1 := key 3 (by omega)
  have h2 := key 2 (by omega)
  have h3 := key 1 (by omega)
  have h4 := key 0 (by omega)
  refine ⟨?_, ?_, ?_, ?_⟩
  · rw [← show ((pre ++ [d4, d3, d2, d1]).length : Int) - 4 + ((3 : Nat) : Int)
        = ((pre ++ [d4, d3, d2, d1]).length : Int) - 1 by omega]
    exact h1
  · rw [← show ((pre ++ [d4, d3, d2, d1]).length : Int) - 4 + ((2 : Nat) : Int)
        = ((pre ++ [d4, d3, d2, d1]).length : Int) - 2 by omega]
    exact h2
  · rw [← show ((pre ++ [d4, d3, d2, d1]).length : Int) - 4 + ((1 : Nat) : Int)
        = ((pre ++ [d4, d3, d2, d1]).length : Int) - 3 by omega]
    exact h3
  · rw [← show ((pre ++ [d4, d3, d2, d1]).length : Int) - 4 + ((0 : Nat) : Int)
        = ((pre ++ [d4, d3, d2, d1]).length : Int) - 4 by omega]
    exact h4

theorem exists_last_four (l : List FORRAction) (h : 4 ≤ l.length) :
    ∃ pre d4 d3 d2 d1, l = pre ++ [d4, d3, d2, d1] := by
  have hr : 4 ≤ l.reverse.length := by simpa using h
  match hl : l.reverse, hr with
  | d1 :: d2 :: d3 :: d4 :: rest, _ =>
    refine ⟨rest.reverse, d4, d3, d2, d1, ?_⟩
    have := congrArg List.reverse hl
    simpa using this

theorem patternMatched_append_four (s : Snapshot) (pre : List FORRAction)
    (d4 d3 d2 d1 : FORRAction) (h : s.getPreviousDecisions = pre ++ [d4, d3, d2, d1]) :
    patternMatched s = (isMaxRightTurn s d2 && isMaxRightTurn s d1 && isMaxRightTurn s d3
      && isMaxRightTurn s d4) := by
  unfold patternMatched lastFourDecisions
  rw [h]
  simp only [List.reverse_append, List.reverse_cons, List.reverse_nil, List.nil_append,
    List.cons_append, List.take_succ_cons, List.take_zero, List.all_cons, List.all_nil,
    List.length_append, List.length_cons, List.length_nil]
  have : 4 ≤ pre.length + (0 + 1 + 1 + 1 + 1) := by omega
  simp only [this, decide_True, Bool.true_and, Bool.and_true]
  cases isMaxRightTurn s d1 <;> cases isMaxRightTurn s d2 <;> cases isMaxRightTurn s d3 <;>
    cases isMaxRightTurn s d4 <;> rfl

/-- The three branches of `advisorGetOut`: inert, planning, fallback turn. -/
theorem advisorGetOut_eq (s : Snapshot) (fuel : Nat) (junk decision : FORRAction)
    (b : Beliefs) :
    advisorGetOut s fuel junk decision b =
      if s.getRobotConfined = true ∧ 5 ≤ s.getPreviousDecisions.length then
        if patternMatched s = true then getOutPlan s fuel decision b
        else
          GetOutOutcome.returned
            { decisionMade := true,
              decision := FORRAction.mk FORRActionType.RIGHT_TURN
                ((s.rotationSetSize / 2 : Nat) : Int),
              beliefs := b }
      else GetOutOutcome.returned { decisionMade := false, decision := decision, beliefs := b } := by
  unfold advisorGetOut
  simp only []
  by_cases hc : s.getRobotConfined = true
  · by_cases hlen : 5 ≤ s.getPreviousDecisions.length
    · have hlenInt : ((s.getPreviousDecisions.length : Nat) : Int) ≥ 5 := by omega
      obtain ⟨pre, d4, d3, d2, d1, hpre⟩ := exists_last_four s.getPreviousDecisions (by omega)
      have hv := vectorAt_append_four pre d4 d3 d2 d1 junk
      rw [← hpre] at hv
      rw [hv.1, hv.2.1, hv.2.2.1, hv.2.2.2, patternMatched_append_four s pre d4 d3 d2 d1 hpre]
      simp only [hc, hlen, hlenInt, if_true, and_self]
      cases isMaxRightTurn s d1 <;> cases isMaxRightTurn s d2 <;> cases isMaxRightTurn s d3 <;>
        cases isMaxRightTurn s d4 <;> simp
    · have hlenInt : ¬ ((s.getPreviousDecisions.length : Nat) : Int) ≥ 5 := by omega
      rw [if_pos hc, if_neg hlenInt, if_neg (fun h => hlen h.2)]
  · rw [if_neg hc, if_neg (fun h => hc h.1)]

theorem getOutPlan_returned (s : Snapshot) (fuel : Nat) (decision : FORRAction) (b : Beliefs)
    (r : AdvisorReturn) (h : getOutPlan s fuel decision b = GetOutOutcome.returned r) :
    r.decisionMade = false ∧ r.decision = decision
      ∧ r.beliefs.vetoedActions = b.vetoedActions
      ∧ r.beliefs.planPositionUpdates = b.planPositionUpdates
      ∧ ∃ path : List CartesianPoint, path ≠ []
          ∧ r.beliefs.waypointsCreated = b.waypointsCreated ++ path := by
  unfold getOutPlan at h
  simp only [] at h
  split at h
  · split at h
    · cases h
    · split at h
      · cases h
      · split at h
        · cases h
        · cases h
        · cases h
          refine ⟨rfl, rfl, rfl, rfl, _, ?_, rfl⟩
          simp
  · cases h

theorem advisorGetOut_of_gate_closed (s : Snapshot) (fuel : Nat) (junk decision : FORRAction)
    (b : Beliefs)
    (h : ¬ (s.getRobotConfined = true ∧ 5 ≤ s.getPreviousDecisions.length
          ∧ patternMatched s = true)) :
    ∃ r, advisorGetOut s fuel junk decision b = GetOutOutcome.returned r ∧ r.beliefs = b := by
  rw [advisorGetOut_eq]
  by_cases h1 : s.getRobotConfined = true ∧ 5 ≤ s.getPreviousDecisions.length
  · have hp : ¬ patternMatched s = true := fun hp => h ⟨h1.1, h1.2, hp⟩
    rw [if_pos h1, if_neg hp]
    exact ⟨_, rfl, rfl⟩
  · rw [if_neg h1]
    exact ⟨_, rfl, rfl⟩

theorem gate_of_not_returned_unchanged (s : Snapshot) (fuel : Nat) (junk decision : FORRAction)
    (b : Beliefs)
    (h : ¬ ∃ r, advisorGetOut s fuel junk decision b = GetOutOutcome.returned r ∧ r.beliefs = b) :
    s.getRobotConfined = true ∧ 5 ≤ s.getPreviousDecisions.length
      ∧ patternMatched s = true := by
  by_contra hg
  exact h (advisorGetOut_of_gate_closed s fuel junk decision b hg)

/-- C11, confinement gate: `advisorGetOut` runs the escape planner only behind its gate.  If the
robot is not confined the advisor returns `false` and writes nothing; if one of the last four
decisions fails the pattern test of line 331 (or there are fewer than four) the advisor returns
with the beliefs, and so the waypoint queue, as they were; and whenever a run queues a waypoint,
or ends inside the planner without returning, the robot is confined and the last four decisions
all pass the pattern test. -/
theorem C11_confinement_gate (s : Snapshot) (fuel : Nat) (junk decision : FORRAction)
    (b : Beliefs) :
    (s.getRobotConfined = false →
      advisorGetOut s fuel junk decision b
        = GetOutOutcome.returned { decisionMade := false, decision := decision, beliefs := b })
    ∧ (patternMatched s = false →
        ∃ r, advisorGetOut s fuel junk decision b = GetOutOutcome.returned r
          ∧ r.beliefs.waypointsCreated = b.waypointsCreated ∧ r.beliefs = b)
    ∧ (∀ r, advisorGetOut s fuel junk decision b = GetOutOutcome.returned r →
        r.beliefs.waypointsCreated ≠ b.waypointsCreated →
        s.getRobotConfined = true ∧ patternMatched s = true)
    ∧ (advisorGetOut s fuel junk decision b = GetOutOutcome.outOfRange
        ∨ advisorGetOut s fuel junk decision b = GetOutOutcome.outOfFuel →
        s.getRobotConfined = true ∧ patternMatched s = true) := by
  refine ⟨?_, ?_, ?_, ?_⟩
  · intro hc
    rw [advisorGetOut_eq, if_neg (fun h => by rw [hc] at h; exact Bool.false_ne_true h.1)]
  · intro hp
    obtain ⟨r, hr, hb⟩ := advisorGetOut_of_gate_closed s fuel junk decision b
      (fun h => by rw [hp] at h; exact Bool.false_ne_true h.2.2)
    exact ⟨r, hr, by rw [hb], hb⟩
  · intro r hr hw
    have hg := gate_of_not_returned_unchanged s fuel junk decision b (by
      rintro ⟨r0, hr0, hb0⟩
      rw [hr] at hr0
      cases hr0
      exact hw (by rw [hb0]))
    exact ⟨hg.1, hg.2.2⟩
  · intro ho
    have hg := gate_of_not_returned_unchanged s fuel junk decision b (by
      rintro ⟨r0, hr0, _⟩
      rcases ho with ho | ho <;> rw [hr0] at ho <;> cases ho)
    exact ⟨hg.1, hg.2.2⟩

/-- Witness of C11 on the confined sample after four left turns: the pattern test fails and no
waypoint is queued. -/
theorem C11_confinement_gate_witness :
    patternMatched sampleFourLeft = false
    ∧ ∃ r, advisorGetOut sampleFourLeft 100 sampleJunk sampleJunk emptyBeliefs
          = GetOutOutcome.returned r
        ∧ r.beliefs.waypointsCreated = emptyBeliefs.waypointsCreated
        ∧ r.beliefs = emptyBeliefs :=
  ⟨by decide,
    (C11_confinement_gate sampleFourLeft 100 sampleJunk sampleJunk emptyBeliefs).2.1
      (by decide)⟩

open FORRActionType in
theorem patternMatched_iff (s : Snapshot) :
    patternMatched s = true ↔
      4 ≤ s.getPreviousDecisions.length
        ∧ ∀ a ∈ lastFourDecisions s,
            a.type = RIGHT_TURN ∧ a.parameter = ((s.rotationSetSize / 2 : Nat) : Int) := by
  unfold patternMatched isMaxRightTurn
  simp only [Bool.and_eq_true, decide_eq_true_eq, List.all_eq_true]

open FORRActionType in
/-- C12 as stated fails.  On the first sample the robot is confined and the last four of five
decisions are left turns of maximum intensity (5, half of the ten rotation actions), yet
`advisorGetOut` commits to its fallback `RIGHT_TURN 5` and queues no waypoint.  On the second
sample the robot is confined and the history consists of exactly four right turns of maximum
intensity, yet `advisorGetOut` neither plans nor commits. -/
theorem C12_left_turns_do_not_open_the_gate :
    (sampleFourLeft.getRobotConfined = true
      ∧ lastFourDecisions sampleFourLeft
          = [FORRAction.mk LEFT_TURN 5, FORRAction.mk LEFT_TURN 5, FORRAction.mk LEFT_TURN 5,
              FORRAction.mk LEFT_TURN 5]
      ∧ ((sampleFourLeft.rotationSetSize / 2 : Nat) : Int) = 5
      ∧ advisorGetOut sampleFourLeft 100 sampleJunk sampleJunk emptyBeliefs
          = GetOutOutcome.returned
              { decisionMade := true, decision := FORRAction.mk RIGHT_TURN 5,
                beliefs := emptyBeliefs })
    ∧ (sampleOnlyFourRight.getRobotConfined = true
      ∧ lastFourDecisions sampleOnlyFourRight
          = [FORRAction.mk RIGHT_TURN 5, FORRAction.mk RIGHT_TURN 5, FORRAction.mk RIGHT_TURN 5,
              FORRAction.mk RIGHT_TURN 5]
      ∧ advisorGetOut sampleOnlyFourRight 100 sampleJunk sampleJunk emptyBeliefs
          = GetOutOutcome.returned
              { decisionMade := false, decision := sampleJunk, beliefs := emptyBeliefs }) :=
  ⟨⟨rfl, rfl, rfl, rfl⟩, ⟨rfl, rfl, rfl⟩⟩

open FORRActionType in
/-- C13, commit characterisation of `advisorGetOut`: a run returns `decisionMade = true` if and
only if the robot is confined, there are at least five previous decisions and the last four are
not all right turns of intensity `rotationCount/2`; a committed decision is exactly
`RIGHT_TURN (rotationCount/2)`; a run of the planning branch that returns, returns `false` with
the decision slot as it was; and in the inert cases (not confined, or fewer than five decisions)
the advisor returns `false` and changes nothing. -/
theorem C13_getOut_commit (s : Snapshot) (fuel : Nat) (junk decision : FORRAction)
    (b : Beliefs) :
    ((∃ r, advisorGetOut s fuel junk decision b = GetOutOutcome.returned r
          ∧ r.decisionMade = true) ↔
      (s.getRobotConfined = true ∧ 5 ≤ s.getPreviousDecisions.length
        ∧ ¬ (∀ a ∈ lastFourDecisions s,
              a.type = RIGHT_TURN ∧ a.parameter = ((s.rotationSetSize / 2 : Nat) : Int))))
    ∧ (∀ r, advisorGetOut s fuel junk decision b = GetOutOutcome.returned r →
        r.decisionMade = true →
        r.decision = FORRAction.mk RIGHT_TURN ((s.rotationSetSize / 2 : Nat) : Int))
    ∧ (∀ r, advisorGetOut s fuel junk decision b = GetOutOutcome.returned r →
        r.decisionMade = false → r.decision = decision)
    ∧ (s.getRobotConfined = false ∨ s.getPreviousDecisions.length < 5 →
        advisorGetOut s fuel junk decision b
          = GetOutOutcome.returned
              { decisionMade := false, decision := decision, beliefs := b }) := by
  have hform := advisorGetOut_eq s fuel junk decision b
  by_cases h1 : s.getRobotConfined = true ∧ 5 ≤ s.getPreviousDecisions.length
  · by_cases hp : patternMatched s = true
    · rw [if_pos h1, if_pos hp] at hform
      have hall := ((patternMatched_iff s).1 hp).2
      refine ⟨⟨?_, ?_⟩, ?_, ?_, ?_⟩
      · rintro ⟨r, hr, hd⟩
        rw [hform] at hr
        rw [(getOutPlan_returned s fuel decision b r hr).1] at hd
        cases hd
      · rintro ⟨_, _, hn⟩
        exact absurd hall hn
      · intro r hr hd
        rw [hform] at hr
        rw [(getOutPlan_returned s fuel decision b r hr).1] at hd
        cases hd
      · intro r hr _
        rw [hform] at hr
        exact (getOutPlan_returned s fuel decision b r hr).2.1
      · rintro (hc | hl)
        · rw [hc] at h1; exact absurd h1.1 Bool.false_ne_true
        · omega
    · rw [if_pos h1, if_neg hp] at hform
      have hnall : ¬ (∀ a ∈ lastFourDecisions s,
          a.type = RIGHT_TURN ∧ a.parameter = ((s.rotationSetSize / 2 : Nat) : Int)) :=
        fun hall => hp ((patternMatched_iff s).2 ⟨by omega, hall⟩)
      refine ⟨⟨fun _ => ⟨h1.1, h1.2, hnall⟩, fun _ => ⟨_, hform, rfl⟩⟩, ?_, ?_, ?_⟩
      · intro r hr _
        rw [hform] at hr
        cases hr
        rfl
      · intro r hr hd
        rw [hform] at hr
        cases hr
        cases hd
      · rintro (hc | hl)
        · rw [hc] at h1; exact absurd h1.1 Bool.false_ne_true
        · omega
  · rw [if_neg h1] at hform
    refine ⟨⟨?_, ?_⟩, ?_, ?_, ?_⟩
    · rintro ⟨r, hr, hd⟩
      rw [hform] at hr
      cases hr
      cases hd
    · rintro ⟨hc, hl, _⟩
      exact absurd ⟨hc, hl⟩ h1
    · intro r hr hd
      rw [hform] at hr
      cases hr
      cases hd
    · intro r hr _
      rw [hform] at hr
      cases hr
      rfl
    · intro _
      exact hform

/-- Witness of C13 on the confined sample (five decisions, the last one a left turn): the advisor
commits, and the decision is `RIGHT_TURN 5`. -/
theorem C13_getOut_commit_witness :
    advisorGetOut sampleConfined 100 sampleJunk sampleJunk emptyBeliefs
        = GetOutOutcome.returned
            { decisionMade := true, decision := FORRAction.mk FORRActionType.RIGHT_TURN 5,
              beliefs := emptyBeliefs }
    ∧ (AdvisorReturn.mk true (FORRAction.mk FORRActionType.RIGHT_TURN 5) emptyBeliefs).decision
        = FORRAction.mk FORRActionType.RIGHT_TURN
            ((sampleConfined.rotationSetSize / 2 : Nat) : Int) :=
  ⟨rfl,
    (C13_getOut_commit sampleConfined 100 sampleJunk sampleJunk emptyBeliefs).2.1 _ rfl rfl⟩

/-- C17, insufficient history is a no-op: with fewer than two previous decisions
`advisorNotOpposite` leaves the beliefs, and so the vetoed set, unchanged; with fewer than five
previous decisions `advisorGetOut` returns `decisionMade = false`, leaves the decision slot as it
was and queues no waypoint, whether the robot is confined or not and whatever the fuel. -/
theorem C17_insufficient_history (s : Snapshot) (fuel : Nat) (junk decision : FORRAction)
    (b : Beliefs) :
    (s.getPreviousDecisions.length < 2 → advisorNotOpposite s junk b = b)
    ∧ (s.getPreviousDecisions.length < 5 →
        advisorGetOut s fuel junk decision b
          = GetOutOutcome.returned
              { decisionMade := false, decision := decision, beliefs := b }) := by
  constructor
  · intro h
    unfold advisorNotOpposite
    simp only [h, if_true]
  · intro h
    rw [advisorGetOut_eq, if_neg (fun hg => by omega)]

/-- Witness of C17 on the confined sample with a history of four decisions: GetOut is inert. -/
theorem C17_insufficient_history_witness :
    sampleShortHistory.getRobotConfined = true
    ∧ sampleShortHistory.getPreviousDecisions.length < 5
    ∧ advisorGetOut sampleShortHistory 100 sampleJunk sampleJunk emptyBeliefs
        = GetOutOutcome.returned
            { decisionMade := false, decision := sampleJunk, beliefs := emptyBeliefs } :=
  ⟨rfl, by decide,
    (C17_insufficient_history sampleShortHistory 100 sampleJunk sampleJunk emptyBeliefs).2
      (by decide)⟩

/-- C14, Victory marks the visited grid only on a waypoint commit: `advisorVictory` calls
`updatePlanPositions`, once and with the `x` and `y` of the current position, if and only if the
goal is not in sight, the waypoint is in sight and Victory commits; when the goal is in sight, or
when Victory does not commit, the calls recorded are the ones before (no call); the advisor
never queues a waypoint. -/
theorem C14_victory_marks_visited (s : Snapshot) (decision : FORRAction) (b : Beliefs) :
    ((advisorVictory s decision b).beliefs.planPositionUpdates
        = if s.canSeePoint s.task 20 = false ∧ s.canSeePoint s.waypoint 20 = true
              ∧ (advisorVictory s decision b).decisionMade = true
          then b.planPositionUpdates ++ [(s.getCurrentPosition.x, s.getCurrentPosition.y)]
          else b.planPositionUpdates)
    ∧ ((advisorVictory s decision b).beliefs.planPositionUpdates ≠ b.planPositionUpdates ↔
        (s.canSeePoint s.task 20 = false ∧ s.canSeePoint s.waypoint 20 = true
          ∧ (advisorVictory s decision b).decisionMade = true))
    ∧ (s.canSeePoint s.task 20 = true →
        (advisorVictory s decision b).beliefs.planPositionUpdates = b.planPositionUpdates)
    ∧ ((advisorVictory s decision b).decisionMade = false →
        (advisorVictory s decision b).beliefs.planPositionUpdates = b.planPositionUpdates)
    ∧ (advisorVictory s decision b).beliefs.waypointsCreated = b.waypointsCreated := by
  have key : (advisorVictory s decision b).beliefs.planPositionUpdates
        = if s.canSeePoint s.task 20 = false ∧ s.canSeePoint s.waypoint 20 = true
              ∧ (advisorVictory s decision b).decisionMade = true
          then b.planPositionUpdates ++ [(s.getCurrentPosition.x, s.getCurrentPosition.y)]
          else b.planPositionUpdates := by
    unfold advisorVictory
    simp only []
    cases hg : s.canSeePoint s.task 20 <;> cases hw : s.canSeePoint s.waypoint 20 <;>
      cases hv : victoryCondition s (s.moveTowards s.waypoint) <;>
      cases hv2 : victoryCondition s (s.moveTowards s.task) <;> simp
  refine ⟨key, ?_, ?_, ?_, ?_⟩
  · rw [key]
    split_ifs with h
    · simp [h]
    · simp [h]
  · intro hg
    rw [key, if_neg (fun h => by rw [hg] at h; exact Bool.noConfusion h.1)]
  · intro hd
    rw [key, if_neg (fun h => by rw [hd] at h; exact Bool.noConfusion h.2.2)]
  · unfold advisorVictory
    simp only []
    split_ifs <;> rfl

/-- Witness of C14 on the sample with only the waypoint in sight: Victory commits and records
one call of `updatePlanPositions` at the current position `(0, 0)`. -/
theorem C14_victory_marks_visited_witness :
    sampleWaypointInSight.canSeePoint sampleWaypointInSight.task 20 = false
    ∧ sampleWaypointInSight.canSeePoint sampleWaypointInSight.waypoint 20 = true
    ∧ (advisorVictory sampleWaypointInSight sampleJunk emptyBeliefs).decisionMade = true
    ∧ (advisorVictory sampleWaypointInSight sampleJunk emptyBeliefs).beliefs.planPositionUpdates
        ≠ emptyBeliefs.planPositionUpdates :=
  have hd : (advisorVictory sampleWaypointInSight sampleJunk emptyBeliefs).decisionMade
      = true := by
    simp [advisorVictory, sampleWaypointInSight, sampleSnapshot, victoryCondition]
    norm_num
  ⟨by decide, by decide, hd,
    (C14_victory_marks_visited sampleWaypointInSight sampleJunk emptyBeliefs).2.1.2
      ⟨by decide, by decide, hd⟩⟩

/-! ## The vetoed set stays inside the catalog -/

open FORRActionType in
/-- C15, the vetoed set stays inside the catalog: for a well-formed catalog (`m` forward actions
`FORWARD 0 .. FORWARD (m-1)`, `2k` rotation actions, the left and right turns of intensity
`1 .. k`, and one pause action) whose members are the actions of the action set, and a vetoed set
inside the catalog, the vetoed set after each of NotOpposite, AvoidWalls, DontGoBack and
Situation, and after any sequence of them, is inside the catalog. -/
theorem C15_vetoed_inside_catalog (s : Snapshot) (junk : FORRAction) (b : Beliefs)
    (m k : Nat) (pause : FORRAction)
    (hF : s.forwardSetSize = m) (hR : s.rotationSetSize = 2 * k)
    (hA : ∀ a ∈ s.getActionSet, InCatalog m k pause a)
    (hV : ∀ a ∈ b.vetoedActions, InCatalog m k pause a) :
    (∀ a ∈ (advisorNotOpposite s junk b).vetoedActions, InCatalog m k pause a)
    ∧ (∀ a ∈ (advisorAvoidWalls s b).vetoedActions, InCatalog m k pause a)
    ∧ (∀ a ∈ (advisorDontGoBack s b).vetoedActions, InCatalog m k pause a)
    ∧ (∀ a ∈ (advisorSituation s b).vetoedActions, InCatalog m k pause a)
    ∧ (∀ l : List VetoAdvisor, ∀ a ∈ (runVetoSequence s junk l b).vetoedActions,
        InCatalog m k pause a) := by
  have hhalf : s.rotationSetSize / 2 = k := by rw [hR]; omega
  have hNO : ∀ b0 : Beliefs, (∀ a ∈ b0.vetoedActions, InCatalog m k pause a) →
      ∀ a ∈ (advisorNotOpposite s junk b0).vetoedActions, InCatalog m k pause a := by
    intro b0 h0 a ha
    rw [mem_advisorNotOpposite, hhalf] at ha
    rcases ha with ha | ⟨_, ht, h1, h2⟩ | ⟨_, ht, h1, h2⟩
    · exact h0 a ha
    · exact Or.inr (Or.inl ⟨Or.inl ht, h1, h2⟩)
    · exact Or.inr (Or.inl ⟨Or.inr ht, h1, h2⟩)
  have hAW : ∀ b0 : Beliefs, (∀ a ∈ b0.vetoedActions, InCatalog m k pause a) →
      ∀ a ∈ (advisorAvoidWalls s b0).vetoedActions, InCatalog m k pause a := by
    intro b0 h0 a ha
    rw [mem_advisorAvoidWalls, hF] at ha
    rcases ha with ha | ⟨ht, _, h1, h2⟩
    · exact h0 a ha
    · exact Or.inl ⟨ht, by omega, by omega⟩
  have hDG : ∀ b0 : Beliefs, (∀ a ∈ b0.vetoedActions, InCatalog m k pause a) →
      ∀ a ∈ (advisorDontGoBack s b0).vetoedActions, InCatalog m k pause a := by
    intro b0 h0 a ha
    rw [advisorDontGoBack_eq] at ha
    simp only [Finset.mem_union, List.mem_toFinset, List.mem_filter] at ha
    rcases ha with ha | ⟨ha, _⟩
    · exact h0 a ha
    · exact hA a ha
  have hSI : ∀ b0 : Beliefs, (∀ a ∈ b0.vetoedActions, InCatalog m k pause a) →
      ∀ a ∈ (advisorSituation s b0).vetoedActions, InCatalog m k pause a := by
    intro b0 h0 a ha
    rw [advisorSituation_eq] at ha
    split_ifs at ha
    · simp only [Finset.mem_union, List.mem_toFinset, List.mem_filter] at ha
      rcases ha with ha | ⟨ha, _⟩
      · exact h0 a ha
      · exact hA a ha
    · exact h0 a ha
  refine ⟨hNO b hV, hAW b hV, hDG b hV, hSI b hV, ?_⟩
  intro l
  induction l generalizing b with
  | nil => exact hV
  | cons adv rest ih =>
    apply ih
    cases adv
    · exact hNO b hV
    · exact hAW b hV
    · exact hDG b hV
    · exact hSI b hV

theorem sampleCatalog_inCatalog (m k : Nat) :
    ∀ a ∈ sampleCatalog m k,
      InCatalog m k (FORRAction.mk FORRActionType.PAUSE 0) a := by
  intro a ha
  unfold sampleCatalog at ha
  simp only [List.mem_append, List.mem_map, List.mem_range, List.mem_range'_1,
    List.mem_singleton] at ha
  rcases ha with ((⟨i, hi, rfl⟩ | ⟨i, hi, rfl⟩) | ⟨i, hi, rfl⟩) | rfl
  · exact Or.inl ⟨rfl, by simp, by simpa using hi⟩
  · exact Or.inr (Or.inl ⟨Or.inr rfl, by simp only []; omega, by simp only []; omega⟩)
  · exact Or.inr (Or.inl ⟨Or.inl rfl, by simp only []; omega, by simp only []; omega⟩)
  · exact Or.inr (Or.inr rfl)

/-- Witness of C15 on the sample snapshot (six forward actions, five turns each way) from the
empty vetoed set: after the four veto advisors in the order of the cycle the vetoed set is
inside the catalog. -/
theorem C15_vetoed_inside_catalog_witness :
    sampleSnapshot.forwardSetSize = 6 ∧ sampleSnapshot.rotationSetSize = 2 * 5
    ∧ (∀ a ∈ sampleSnapshot.getActionSet,
        InCatalog 6 5 (FORRAction.mk FORRActionType.PAUSE 0) a)
    ∧ (∀ a ∈ emptyBeliefs.vetoedActions,
        InCatalog 6 5 (FORRAction.mk FORRActionType.PAUSE 0) a)
    ∧ (∀ a ∈ (runVetoSequence sampleSnapshot sampleJunk
          [VetoAdvisor.notOpposite, VetoAdvisor.avoidWalls, VetoAdvisor.dontGoBack,
            VetoAdvisor.situation] emptyBeliefs).vetoedActions,
        InCatalog 6 5 (FORRAction.mk FORRActionType.PAUSE 0) a) :=
  ⟨rfl, rfl, sampleCatalog_inCatalog 6 5, by simp [emptyBeliefs],
    (C15_vetoed_inside_catalog sampleSnapshot sampleJunk emptyBeliefs 6 5
      (FORRAction.mk FORRActionType.PAUSE 0) rfl rfl (sampleCatalog_inCatalog 6 5)
      (by simp [emptyBeliefs])).2.2.2.2 _⟩

/-! ## advisorNotOpposite after a turn -/

open FORRActionType in
/-- C16 as stated fails.  After two left turns in a row `advisorNotOpposite` adds the left turn
of intensity 1, a rotation action in the direction of the last turn, to the empty vetoed set
(and the right turn of intensity 1 as well). -/
theorem C16_same_direction_vetoed :
    sampleTwoLefts.getPreviousDecisions
        = [FORRAction.mk LEFT_TURN 2, FORRAction.mk LEFT_TURN 2]
    ∧ FORRAction.mk LEFT_TURN 1 ∉ emptyBeliefs.vetoedActions
    ∧ FORRAction.mk LEFT_TURN 1
        ∈ (advisorNotOpposite sampleTwoLefts sampleJunk emptyBeliefs).vetoedActions
    ∧ FORRAction.mk RIGHT_TURN 1
        ∈ (advisorNotOpposite sampleTwoLefts sampleJunk emptyBeliefs).vetoedActions :=
  ⟨rfl, by decide, by decide, by decide⟩

open FORRActionType in
/-- C16 as amended: on a history of at least two decisions whose last decision is a turn in
direction `D`, the vetoed set after `advisorNotOpposite` is the initial one together with exactly
the rotation actions of the direction opposite to `D` at the intensities `1 .. rotationCount/2`
and, when the decision before the last is a turn in direction `D` too, the rotation actions of
direction `D` at the same intensities.  When the decision before the last is not a turn in
direction `D`, no rotation action of direction `D` is added. -/
theorem C16_not_opposite_after_turn (s : Snapshot) (junk : FORRAction) (b : Beliefs)
    (pre : List FORRAction) (x : FORRAction) (D : FORRActionType) (k : Int)
    (hhist : s.getPreviousDecisions = pre ++ [x, FORRAction.mk D k]) :
    (D = RIGHT_TURN → ∀ a, a ∈ (advisorNotOpposite s junk b).vetoedActions ↔
        a ∈ b.vetoedActions
        ∨ (a.type = LEFT_TURN ∧ 1 ≤ a.parameter
            ∧ a.parameter ≤ ((s.rotationSetSize / 2 : Nat) : Int))
        ∨ (x.type = RIGHT_TURN ∧ a.type = RIGHT_TURN ∧ 1 ≤ a.parameter
            ∧ a.parameter ≤ ((s.rotationSetSize / 2 : Nat) : Int)))
    ∧ (D = LEFT_TURN → ∀ a, a ∈ (advisorNotOpposite s junk b).vetoedActions ↔
        a ∈ b.vetoedActions
        ∨ (a.type = RIGHT_TURN ∧ 1 ≤ a.parameter
            ∧ a.parameter ≤ ((s.rotationSetSize / 2 : Nat) : Int))
        ∨ (x.type = LEFT_TURN ∧ a.type = LEFT_TURN ∧ 1 ≤ a.parameter
            ∧ a.parameter ≤ ((s.rotationSetSize / 2 : Nat) : Int)))
    ∧ ((D = RIGHT_TURN ∨ D = LEFT_TURN) → x.type ≠ D →
        ∀ a, a.type = D → a ∈ (advisorNotOpposite s junk b).vetoedActions →
          a ∈ b.vetoedActions) := by
  have hl := lastAction_eq s junk pre _ _ hhist
  have hll := lastlastAction_eq s junk pre _ _ hhist
  have hlen := length_ge_two s pre _ _ hhist
  have hR : D = RIGHT_TURN → ∀ a, a ∈ (advisorNotOpposite s junk b).vetoedActions ↔
        a ∈ b.vetoedActions
        ∨ (a.type = LEFT_TURN ∧ 1 ≤ a.parameter
            ∧ a.parameter ≤ ((s.rotationSetSize / 2 : Nat) : Int))
        ∨ (x.type = RIGHT_TURN ∧ a.type = RIGHT_TURN ∧ 1 ≤ a.parameter
            ∧ a.parameter ≤ ((s.rotationSetSize / 2 : Nat) : Int)) := by
    intro hD a
    subst hD
    rw [mem_advisorNotOpposite]
    unfold vetoesLeft vetoesRight
    rw [hl, hll]
    simp only [hlen, true_and, reduceCtorEq, and_false, false_and, or_false, false_or, and_true,
      true_or, or_true]
  have hL : D = LEFT_TURN → ∀ a, a ∈ (advisorNotOpposite s junk b).vetoedActions ↔
        a ∈ b.vetoedActions
        ∨ (a.type = RIGHT_TURN ∧ 1 ≤ a.parameter
            ∧ a.parameter ≤ ((s.rotationSetSize / 2 : Nat) : Int))
        ∨ (x.type = LEFT_TURN ∧ a.type = LEFT_TURN ∧ 1 ≤ a.parameter
            ∧ a.parameter ≤ ((s.rotationSetSize / 2 : Nat) : Int)) := by
    intro hD a
    subst hD
    rw [mem_advisorNotOpposite]
    unfold vetoesLeft vetoesRight
    rw [hl, hll]
    simp only [hlen, true_and, reduceCtorEq, and_false, false_and, or_false, false_or, and_true,
      true_or, or_true]
    tauto
  refine ⟨hR, hL, ?_⟩
  rintro (hD | hD) hx a ha hmem
  · rcases (hR hD a).1 hmem with h | ⟨ht, _⟩ | ⟨hxt, _⟩
    · exact h
    · rw [ha, hD] at ht; cases ht
    · rw [hD] at hx; exact absurd hxt hx
  · rcases (hL hD a).1 hmem with h | ⟨ht, _⟩ | ⟨hxt, _⟩
    · exact h
    · rw [ha, hD] at ht; cases ht
    · rw [hD] at hx; exact absurd hxt hx

/-- Witness of C16 on the sample snapshot, whose history ends with a forward move and a left
turn: the right turn of intensity 3 is vetoed. -/
theorem C16_not_opposite_after_turn_witness :
    sampleSnapshot.getPreviousDecisions
        = [FORRAction.mk FORRActionType.FORWARD 1, FORRAction.mk FORRActionType.FORWARD 1,
            FORRAction.mk FORRActionType.FORWARD 1]
          ++ [FORRAction.mk FORRActionType.FORWARD 1, FORRAction.mk FORRActionType.LEFT_TURN 2]
    ∧ FORRAction.mk FORRActionType.RIGHT_TURN 3
        ∈ (advisorNotOpposite sampleSnapshot sampleJunk emptyBeliefs).vetoedActions :=
  ⟨rfl,
    ((C16_not_opposite_after_turn sampleSnapshot sampleJunk emptyBeliefs
      [FORRAction.mk FORRActionType.FORWARD 1, FORRAction.mk FORRActionType.FORWARD 1,
        FORRAction.mk FORRActionType.FORWARD 1]
      (FORRAction.mk FORRActionType.FORWARD 1) FORRActionType.LEFT_TURN 2 rfl).2.1 rfl
      _).2 (Or.inr (Or.inl ⟨rfl, by decide, by decide⟩))⟩

/-! ## The reads of the history in advisorNotOpposite -/

theorem notOppositeReads_inBounds_iff (size : Nat) :
    (∀ i ∈ notOppositeReads size, InBounds size i) ↔ 3 ≤ size := by
  unfold notOppositeReads InBounds
  simp only [List.mem_cons, List.mem_singleton, List.not_mem_nil, or_false, forall_eq_or_imp,
    forall_eq]
  constructor
  · rintro ⟨_, _, h3, _⟩
    omega
  · intro h3
    refine ⟨⟨?_, ?_⟩, ⟨?_, ?_⟩, ⟨?_, ?_⟩⟩ <;> omega

/-- C18, evaluated at the failing input: a history of exactly two decisions passes the size guard
of `advisorNotOpposite`, the indices read are `1`, `0` and `-1`, and `-1` lies outside of the
bounds of the history, so that the read of `actions[size - 3]` yields whatever lies before the
vector (the unspecified value of the embedding). -/
theorem C18_read_outside_of_history :
    sampleAfterPause.getPreviousDecisions.length = 2
    ∧ ¬ (sampleAfterPause.getPreviousDecisions.length < 2)
    ∧ notOppositeReads sampleAfterPause.getPreviousDecisions.length = [1, 0, -1]
    ∧ ¬ InBounds sampleAfterPause.getPreviousDecisions.length (-1)
    ∧ ¬ (∀ i ∈ notOppositeReads sampleAfterPause.getPreviousDecisions.length,
          InBounds sampleAfterPause.getPreviousDecisions.length i)
    ∧ (∀ junk : FORRAction,
        vectorAt sampleAfterPause.getPreviousDecisions
          ((sampleAfterPause.getPreviousDecisions.length : Int) - 3) junk = junk) := by
  refine ⟨rfl, by decide, rfl, ?_, ?_, ?_⟩
  · unfold InBounds
    decide
  · intro h
    have := h (-1) (by decide)
    unfold InBounds at this
    exact absurd this.1 (by decide)
  · intro junk
    rfl

/-! ## The candidate search -/

theorem foldlM_option_eq_some {α β : Type} (F : β → α → Option β) (G : β → α → β)
    (l : List α) (init : β) (h : ∀ acc, ∀ x ∈ l, F acc x = some (G acc x)) :
    l.foldlM F init = some (l.foldl G init) := by
  induction l generalizing init with
  | nil => rfl
  | cons x xs ih =>
    rw [List.foldlM_cons, h init x (List.mem_cons_self x xs)]
    simp only [Option.bind_eq_bind, Option.some_bind, List.foldl_cons]
    exact ih _ (fun acc y hy => h acc y (List.mem_cons_of_mem x hy))

theorem foldl_cond_append_eq {α β : Type} (c : α → Bool) (f : α → β) (l : List α)
    (init : List β) :
    l.foldl (fun acc x => if c x = true then acc ++ [f x] else acc) init
      = init ++ (l.filter c).map f := by
  induction l generalizing init with
  | nil => simp
  | cons x xs ih =>
    rw [List.foldl_cons, ih]
    cases hx : c x <;> simp [List.filter_cons, hx]

theorem foldl_append_eq {α β : Type} (r : α → List β) (l : List α) (init : List β) :
    l.foldl (fun acc x => acc ++ r x) init = init ++ l.flatMap r := by
  induction l generalizing init with
  | nil => simp
  | cons x xs ih =>
    rw [List.foldl_cons, ih, List.flatMap_cons, List.append_assoc]

theorem gridAt_of_rectangular (grid : List (List Int)) (rows cols : Nat)
    (hrect : Rectangular grid rows cols) (a c : Int)
    (ha0 : 0 ≤ a) (ha : a < rows) (hc0 : 0 ≤ c) (hc : c < cols) :
    gridAt grid a c = some (cellAt grid a.toNat c.toNat) := by
  unfold gridAt cellAt
  have hi : a.toNat < grid.length := by rw [hrect.1]; omega
  have hrow : (grid[a.toNat]).length = cols := hrect.2 _ (List.getElem_mem hi)
  have hj : c.toNat < (grid[a.toNat]).length := by rw [hrow]; omega
  rw [if_pos ⟨ha0, hc0⟩, List.getElem?_eq_getElem hi]
  simp only []
  rw [List.getElem?_eq_getElem hj, List.getD_eq_getElem grid [] hi,
    List.getD_eq_getElem _ 0 hj]

theorem isPotentialDestination_of_rectangular (grid : List (List Int)) (rows cols : Nat)
    (hrect : Rectangular grid rows cols) (i j : Nat)
    (hi1 : 1 ≤ i) (hi2 : i + 1 < rows) (hj1 : 1 ≤ j) (hj2 : j + 1 < cols) :
    isPotentialDestination grid i j = some (isCandidateExit grid i j) := by
  unfold isPotentialDestination
  rw [gridAt_of_rectangular grid rows cols hrect ((i : Int) - 1) j (by omega) (by omega)
      (by omega) (by omega),
    gridAt_of_rectangular grid rows cols hrect i ((j : Int) - 1) (by omega) (by omega)
      (by omega) (by omega),
    gridAt_of_rectangular grid rows cols hrect ((i : Int) + 1) j (by omega) (by omega)
      (by omega) (by omega),
    gridAt_of_rectangular grid rows cols hrect i ((j : Int) + 1) (by omega) (by omega)
      (by omega) (by omega),
    gridAt_of_rectangular grid rows cols hrect i j (by omega) (by omega) (by omega) (by omega)]
  have e1 : ((i : Int) - 1).toNat = i - 1 := by omega
  have e2 : ((j : Int) - 1).toNat = j - 1 := by omega
  have e3 : ((i : Int) + 1).toNat = i + 1 := by omega
  have e4 : ((j : Int) + 1).toNat = j + 1 := by omega
  simp only [Option.bind_eq_bind, Option.some_bind, Option.pure_def, e1, e2, e3, e4,
    Int.toNat_natCast]
  unfold isCandidateExit occupiedNeighbours
  congr 1
  by_cases h1 : cellAt grid (i - 1) j = -1 <;> by_cases h2 : cellAt grid i (j - 1) = -1 <;>
    by_cases h3 : cellAt grid (i + 1) j = -1 <;> by_cases h4 : cellAt grid i (j + 1) = -1 <;>
    simp [List.filter_cons, h1, h2, h3, h4]

theorem potentialDestinationsInRow_of_rectangular (grid : List (List Int)) (rows cols : Nat)
    (hrect : Rectangular grid rows cols) (hcols : 0 < cols) (i : Nat)
    (hi1 : 1 ≤ i) (hi2 : i + 1 < rows) :
    potentialDestinationsInRow grid i
      = some (((List.range' 1 (cols - 2)).filter (fun (j : Nat) => isCandidateExit grid i j)).map
          (fun (j : Nat) => CartesianPoint.mk (i : ℚ) (j : ℚ))) := by
  unfold potentialDestinationsInRow
  have hi : i < grid.length := by rw [hrect.1]; omega
  have hrow : (grid[i]).length = cols := hrect.2 _ (List.getElem_mem hi)
  rw [List.getElem?_eq_getElem hi]
  simp only [Option.bind_eq_bind, Option.some_bind]
  rw [if_neg (by rw [hrow]; omega), hrow]
  rw [foldlM_option_eq_some _
    (fun acc (j : Nat) =>
      if isCandidateExit grid i j = true then acc ++ [CartesianPoint.mk (i : ℚ) (j : ℚ)]
      else acc)]
  · rw [foldl_cond_append_eq (fun (j : Nat) => isCandidateExit grid i j)
      (fun (j : Nat) => CartesianPoint.mk (i : ℚ) (j : ℚ))]
    simp
  · intro acc j hj
    rw [List.mem_range'_1] at hj
    rw [isPotentialDestination_of_rectangular grid rows cols hrect i j hi1 hi2 hj.1 (by omega)]
    simp

theorem potentialDestinations_of_rectangular (grid : List (List Int)) (rows cols : Nat)
    (hrect : Rectangular grid rows cols) (hrows : 0 < rows) (hcols : 0 < cols) :
    potentialDestinations grid = some (specCandidates grid rows cols) := by
  unfold potentialDestinations
  rw [if_neg (by rw [hrect.1]; omega), hrect.1]
  rw [foldlM_option_eq_some _
    (fun acc (i : Nat) => acc ++
      ((List.range' 1 (cols - 2)).filter (fun (j : Nat) => isCandidateExit grid i j)).map
        (fun (j : Nat) => CartesianPoint.mk (i : ℚ) (j : ℚ)))]
  · rw [foldl_append_eq]
    unfold specCandidates candidateCells
    rw [List.map_flatMap]
    simp [List.map_map, Function.comp_def]
  · intro acc i hi
    rw [List.mem_range'_1] at hi
    rw [potentialDestinationsInRow_of_rectangular grid rows cols hrect hcols i hi.1 (by omega)]
    simp

theorem mem_candidateCells (grid : List (List Int)) (rows cols : Nat) (c : Nat × Nat) :
    c ∈ candidateCells grid rows cols ↔
      1 ≤ c.1 ∧ c.1 + 2 ≤ rows ∧ 1 ≤ c.2 ∧ c.2 + 2 ≤ cols
        ∧ cellAt grid c.1 c.2 = 1 ∧ occupiedNeighbours grid c.1 c.2 ≤ 2 := by
  unfold candidateCells isCandidateExit
  simp only [List.mem_flatMap, List.mem_map, List.mem_filter, List.mem_range'_1,
    decide_eq_true_eq]
  constructor
  · rintro ⟨i, hi, j, ⟨hj, hc⟩, rfl⟩
    exact ⟨hi.1, by omega, hj.1, by omega, hc⟩
  · rintro ⟨h1, h2, h3, h4, hc⟩
    exact ⟨c.1, ⟨h1, by omega⟩, c.2, ⟨⟨h3, by omega⟩, hc⟩, rfl⟩

theorem candidateCells_rowMajor (grid : List (List Int)) (rows cols : Nat) :
    (candidateCells grid rows cols).Pairwise
      (fun a b => a.1 < b.1 ∨ (a.1 = b.1 ∧ a.2 < b.2)) := by
  unfold candidateCells
  rw [List.pairwise_flatMap]
  constructor
  · intro i _
    rw [List.pairwise_map]
    refine List.Pairwise.imp ?_ ((List.pairwise_lt_range' 1 (cols - 2)).filter _)
    intro a b hab
    exact Or.inr ⟨rfl, hab⟩
  · refine List.Pairwise.imp ?_ (List.pairwise_lt_range' 1 (rows - 2))
    intro i1 i2 hlt x hx y hy
    simp only [List.mem_map] at hx hy
    obtain ⟨_, _, rfl⟩ := hx
    obtain ⟨_, _, rfl⟩ := hy
    exact Or.inl hlt

/-- C20, candidate exits: on a rectangular occupancy grid (`rows` rows of `cols` cells each, at
least one row and one column) the candidate search of the planning branch reads no cell outside
of the grid and builds exactly the list of the cells `(i, j)` with `1 ≤ i ≤ rows-2`,
`1 ≤ j ≤ cols-2`, value `1` and at most two 4-neighbours of value `-1`, in row-major order
(strictly increasing in `(i, j)`); a border cell is never a candidate. -/
theorem C20_candidate_exits (grid : List (List Int)) (rows cols : Nat)
    (hrect : Rectangular grid rows cols) (hrows : 0 < rows) (hcols : 0 < cols) :
    potentialDestinations grid = some (specCandidates grid rows cols)
    ∧ specCandidates grid rows cols
        = (candidateCells grid rows cols).map
            (fun (c : Nat × Nat) => CartesianPoint.mk (c.1 : ℚ) (c.2 : ℚ))
    ∧ (∀ c : Nat × Nat, c ∈ candidateCells grid rows cols ↔
        1 ≤ c.1 ∧ c.1 + 2 ≤ rows ∧ 1 ≤ c.2 ∧ c.2 + 2 ≤ cols
          ∧ cellAt grid c.1 c.2 = 1 ∧ occupiedNeighbours grid c.1 c.2 ≤ 2)
    ∧ (candidateCells grid rows cols).Pairwise
        (fun a b => a.1 < b.1 ∨ (a.1 = b.1 ∧ a.2 < b.2))
    ∧ (∀ c ∈ candidateCells grid rows cols,
        c.1 ≠ 0 ∧ c.1 ≠ rows - 1 ∧ c.2 ≠ 0 ∧ c.2 ≠ cols - 1) := by
  refine ⟨potentialDestinations_of_rectangular grid rows cols hrect hrows hcols, rfl,
    mem_candidateCells grid rows cols, candidateCells_rowMajor grid rows cols, ?_⟩
  intro c hc
  have h := (mem_candidateCells grid rows cols c).1 hc
  refine ⟨?_, ?_, ?_, ?_⟩ <;> omega

/-- Witness of C20 on a grid of three rows and three columns: the search returns the one
candidate list of the specification. -/
theorem C20_candidate_exits_witness :
    Rectangular sampleSmallGrid 3 3 ∧ 0 < 3 ∧ 0 < 3
    ∧ potentialDestinations sampleSmallGrid = some (specCandidates sampleSmallGrid 3 3)
    ∧ candidateCells sampleSmallGrid 3 3 = [(1, 1)] :=
  ⟨by unfold Rectangular; decide, by decide, by decide,
    (C20_candidate_exits sampleSmallGrid 3 3 (by unfold Rectangular; decide) (by decide)
      (by decide)).1,
    by decide⟩

/-! ## The greedy walk need not end -/

theorem closestNeighbor_singleton (dflt far p : CartesianPoint)
    (h : distSq p far < 100000 * 100000) : closestNeighbor dflt far [p] = p := by
  unfold closestNeighbor
  rw [List.foldl_cons, List.foldl_nil, if_pos h]

theorem farthestGridPosition_singleton (dflt p : CartesianPoint)
    (h : distSq p gridCentre > 0) : farthestGridPosition dflt [p] = p := by
  unfold farthestGridPosition
  rw [List.foldl_cons, List.foldl_nil, if_pos h]

theorem walkStep_of_single (dflt : CartesianPoint) (grid : List (List Int))
    (far cur p : CartesianPoint) (x y : Int)
    (hx : truncToInt cur.x = x) (hy : truncToInt cur.y = y)
    (hh : gridAt grid x y = some 1) (hf : freeNeighbors grid x y = some [p])
    (hd : distSq p far < 100000 * 100000) :
    walkStep dflt grid far cur = some ([cur], p) := by
  unfold walkStep
  simp only [hx, hy, hh, hf, Option.bind_eq_bind, Option.some_bind, Option.pure_def, if_true,
    closestNeighbor_singleton dflt far p hd]

theorem freeNeighbors_only_up (grid : List (List Int)) (x y a c d : Int)
    (ha : gridAt grid (x + 1) y = some a) (hb : gridAt grid x (y + 1) = some 1)
    (hc : gridAt grid (x - 1) y = some c) (hd : gridAt grid x (y - 1) = some d)
    (ha1 : a ≠ 1) (hc1 : c ≠ 1) (hd1 : d ≠ 1) :
    freeNeighbors grid x y
      = some [CartesianPoint.mk ((x : Int) : ℚ) ((y + 1 : Int) : ℚ)] := by
  unfold freeNeighbors
  simp [ha, hb, hc, hd, ha1, hc1, hd1]

theorem freeNeighbors_only_down (grid : List (List Int)) (x y a b c : Int)
    (ha : gridAt grid (x + 1) y = some a) (hb : gridAt grid x (y + 1) = some b)
    (hc : gridAt grid (x - 1) y = some c) (hd : gridAt grid x (y - 1) = some 1)
    (ha1 : a ≠ 1) (hb1 : b ≠ 1) (hc1 : c ≠ 1) :
    freeNeighbors grid x y
      = some [CartesianPoint.mk ((x : Int) : ℚ) ((y - 1 : Int) : ℚ)] := by
  unfold freeNeighbors
  simp [ha, hb, hc, hd, ha1, hb1, hc1]

theorem walk_between_two (dflt : CartesianPoint) (grid : List (List Int))
    (far p q : CartesianPoint) (hp : p ≠ far) (hq : q ≠ far)
    (sp : walkStep dflt grid far p = some ([p], q))
    (sq : walkStep dflt grid far q = some ([q], p)) :
    ∀ (fuel : Nat) (sequence : List CartesianPoint),
      walk dflt grid far fuel p sequence = WalkOutcome.outOfFuel
        ∧ walk dflt grid far fuel q sequence = WalkOutcome.outOfFuel := by
  intro fuel
  induction fuel with
  | zero =>
    intro sequence
    constructor
    · simp only [walk, if_neg hp]
    · simp only [walk, if_neg hq]
  | succ n ih =>
    intro sequence
    constructor
    · simp only [walk, if_neg hp, sp]
      exact (ih _).2
    · simp only [walk, if_neg hq, sq]
      exact (ih _).1

theorem getOutPlan_outOfFuel (s : Snapshot) (fuel : Nat) (decision : FORRAction) (b : Beliefs)
    (ps : List Position) (ls : List LaserScan) (last : Position)
    (dests : List CartesianPoint)
    (hps : (List.range' 1 4).mapM (fun i => fromEnd s.getPositionHistory i) = some ps)
    (hls : (List.range' 1 4).mapM (fun i => fromEnd s.getAllLaserScanHistory i) = some ls)
    (hlast : fromEnd s.getPositionHistory 1 = some last)
    (hd : potentialDestinations (s.overlaySituations ls ps) = some dests)
    (hw : walk s.defaultPoint (s.overlaySituations ls ps)
        (farthestGridPosition s.defaultPoint dests) fuel gridCentre [] = WalkOutcome.outOfFuel) :
    getOutPlan s fuel decision b = GetOutOutcome.outOfFuel := by
  unfold getOutPlan
  simp only [hps, hls, hlast, hd, hw]

theorem pocketGrid_rectangular : Rectangular pocketGrid 51 51 := by
  unfold Rectangular pocketGrid
  simp

set_option maxRecDepth 100000 in
theorem pocketGrid_candidateCells : candidateCells pocketGrid 51 51 = [(25, 40)] := by
  decide

theorem pocketGrid_potentialDestinations :
    potentialDestinations pocketGrid = some [CartesianPoint.mk 25 40] := by
  rw [potentialDestinations_of_rectangular pocketGrid 51 51 pocketGrid_rectangular
    (by decide) (by decide)]
  unfold specCandidates
  rw [pocketGrid_candidateCells]
  simp

theorem pocketGrid_farthest (dflt : CartesianPoint) :
    farthestGridPosition dflt [CartesianPoint.mk 25 40] = CartesianPoint.mk 25 40 := by
  apply farthestGridPosition_singleton
  unfold distSq gridCentre
  norm_num

theorem pocketGrid_step_one (dflt : CartesianPoint) :
    walkStep dflt pocketGrid (CartesianPoint.mk 25 40) (CartesianPoint.mk 25 25)
      = some ([CartesianPoint.mk 25 25], CartesianPoint.mk 25 26) := by
  have hf := freeNeighbors_only_up pocketGrid 25 25 (-1) (-1) (-1) (by decide) (by decide)
    (by decide) (by decide) (by decide) (by decide) (by decide)
  have hp : CartesianPoint.mk (((25 : Int) : Int) : ℚ) ((25 + 1 : Int) : ℚ)
      = CartesianPoint.mk 25 26 := by norm_num
  rw [hp] at hf
  refine walkStep_of_single dflt pocketGrid _ _ _ 25 25 ?_ ?_ (by decide) hf ?_
  · simp [truncToInt]
  · simp [truncToInt]
  · unfold distSq
    norm_num

theorem pocketGrid_step_two (dflt : CartesianPoint) :
    walkStep dflt pocketGrid (CartesianPoint.mk 25 40) (CartesianPoint.mk 25 26)
      = some ([CartesianPoint.mk 25 26], CartesianPoint.mk 25 25) := by
  have hf := freeNeighbors_only_down pocketGrid 25 26 (-1) (-1) (-1) (by decide) (by decide)
    (by decide) (by decide) (by decide) (by decide) (by decide)
  have hp : CartesianPoint.mk (((25 : Int) : Int) : ℚ) ((26 - 1 : Int) : ℚ)
      = CartesianPoint.mk 25 25 := by norm_num
  rw [hp] at hf
  refine walkStep_of_single dflt pocketGrid _ _ _ 25 26 ?_ ?_ (by decide) hf ?_
  · simp [truncToInt]
  · simp [truncToInt]
  · unfold distSq
    norm_num

theorem pocketGrid_walk (dflt : CartesianPoint) (fuel : Nat) :
    walk dflt pocketGrid (CartesianPoint.mk 25 40) fuel gridCentre [] = WalkOutcome.outOfFuel :=
  ((walk_between_two dflt pocketGrid (CartesianPoint.mk 25 40) (CartesianPoint.mk 25 25)
    (CartesianPoint.mk 25 26) (by decide) (by decide) (pocketGrid_step_one dflt)
    (pocketGrid_step_two dflt)) fuel []).1

/-- C19, evaluated at the failing input.  On the pocket grid (the robot in a sealed pocket of two
free cells, the only candidate exit a free cell fifteen cells away) the candidate search reads no
cell outside of the grid and selects `(25, 40)`, and the walk then steps from `(25, 25)` to
`(25, 26)` and back without end: whatever the number of passes allowed, the loop is still running
after them, and `advisorGetOut` has not returned. -/
theorem C19_walk_runs_forever (fuel : Nat) :
    samplePocket.getRobotConfined = true
    ∧ patternMatched samplePocket = true
    ∧ potentialDestinations pocketGrid = some [CartesianPoint.mk 25 40]
    ∧ walk samplePocket.defaultPoint pocketGrid (CartesianPoint.mk 25 40) fuel gridCentre []
        = WalkOutcome.outOfFuel
    ∧ advisorGetOut samplePocket fuel sampleJunk sampleJunk emptyBeliefs
        = GetOutOutcome.outOfFuel := by
  have hpm : patternMatched samplePocket = true := by decide
  refine ⟨rfl, hpm, pocketGrid_potentialDestinations, pocketGrid_walk _ fuel, ?_⟩
  rw [advisorGetOut_eq, if_pos ⟨rfl, by decide⟩, if_pos hpm]
  refine getOutPlan_outOfFuel samplePocket fuel sampleJunk emptyBeliefs
    [Position.mk 0 0 0, Position.mk 0 0 0, Position.mk 0 0 0, Position.mk 0 0 0]
    [LaserScan.mk [], LaserScan.mk [], LaserScan.mk [], LaserScan.mk []]
    (Position.mk 0 0 0) [CartesianPoint.mk 25 40] rfl rfl rfl
    pocketGrid_potentialDestinations ?_
  rw [pocketGrid_farthest]
  exact pocketGrid_walk _ fuel

/-! ## The veto advisors commute -/

theorem beliefs_eq_of_fields (b c : Beliefs) (h1 : b.vetoedActions = c.vetoedActions)
    (h2 : b.planPositionUpdates = c.planPositionUpdates)
    (h3 : b.waypointsCreated = c.waypointsCreated) : b = c := by
  cases b
  cases c
  simp only [Beliefs.mk.injEq]
  exact ⟨h1, h2, h3⟩

theorem runVetoAdvisor_frame (s : Snapshot) (junk : FORRAction) (adv : VetoAdvisor)
    (b : Beliefs) :
    (runVetoAdvisor s junk adv b).planPositionUpdates = b.planPositionUpdates
      ∧ (runVetoAdvisor s junk adv b).waypointsCreated = b.waypointsCreated := by
  cases adv
  · unfold runVetoAdvisor advisorNotOpposite
    simp only []
    split_ifs <;> exact ⟨rfl, rfl⟩
  · exact ⟨rfl, rfl⟩
  · exact ⟨rfl, rfl⟩
  · unfold runVetoAdvisor advisorSituation
    simp only []
    split_ifs <;> exact ⟨rfl, rfl⟩

theorem runVetoAdvisor_vetoed (s : Snapshot) (junk : FORRAction) (adv : VetoAdvisor)
    (b : Beliefs) :
    (runVetoAdvisor s junk adv b).vetoedActions
      = b.vetoedActions ∪ vetoAdditions s junk adv := by
  unfold vetoAdditions
  cases adv
  · ext a
    simp only [runVetoAdvisor, Finset.mem_union, mem_advisorNotOpposite, noBeliefs,
      Finset.not_mem_empty, false_or]
  · ext a
    simp only [runVetoAdvisor, Finset.mem_union, mem_advisorAvoidWalls, noBeliefs,
      Finset.not_mem_empty, false_or]
  · simp only [runVetoAdvisor, advisorDontGoBack_eq, noBeliefs, Finset.empty_union]
  · simp only [runVetoAdvisor, advisorSituation_eq, noBeliefs, Finset.empty_union]
    split_ifs
    · rfl
    · simp

theorem runVetoSequence_vetoed (s : Snapshot) (junk : FORRAction) (l : List VetoAdvisor)
    (b : Beliefs) :
    (runVetoSequence s junk l b).vetoedActions
      = b.vetoedActions ∪ l.toFinset.biUnion (vetoAdditions s junk) := by
  induction l generalizing b with
  | nil => simp [runVetoSequence]
  | cons adv rest ih =>
    have h : runVetoSequence s junk (adv :: rest) b
        = runVetoSequence s junk rest (runVetoAdvisor s junk adv b) := rfl
    rw [h, ih, runVetoAdvisor_vetoed, List.toFinset_cons, Finset.biUnion_insert,
      Finset.union_assoc]

theorem runVetoSequence_frame (s : Snapshot) (junk : FORRAction) (l : List VetoAdvisor)
    (b : Beliefs) :
    (runVetoSequence s junk l b).planPositionUpdates = b.planPositionUpdates
      ∧ (runVetoSequence s junk l b).waypointsCreated = b.waypointsCreated := by
  induction l generalizing b with
  | nil => exact ⟨rfl, rfl⟩
  | cons adv rest ih =>
    have h : runVetoSequence s junk (adv :: rest) b
        = runVetoSequence s junk rest (runVetoAdvisor s junk adv b) := rfl
    rw [h]
    have h1 := ih (runVetoAdvisor s junk adv b)
    have h2 := runVetoAdvisor_frame s junk adv b
    exact ⟨h1.1.trans h2.1, h1.2.trans h2.2⟩

/-- C27, the veto advisors are order-independent: for a fixed snapshot and initial vetoed set,
running NotOpposite, AvoidWalls, DontGoBack and Situation in any order `l` (a permutation of the
four) ends with the same beliefs as the order of the cycle, and the final vetoed set is the
initial one united with the additions each advisor makes on its own, which is also the union of
the four vetoed sets obtained by running each advisor alone on the initial set. -/
theorem C27_order_independent (s : Snapshot) (junk : FORRAction) (b : Beliefs)
    (l : List VetoAdvisor)
    (hl : l.Perm [VetoAdvisor.notOpposite, VetoAdvisor.avoidWalls, VetoAdvisor.dontGoBack,
      VetoAdvisor.situation]) :
    runVetoSequence s junk l b = runVetoAdvisors s junk b
    ∧ (runVetoSequence s junk l b).vetoedActions
        = b.vetoedActions ∪ vetoAdditions s junk VetoAdvisor.notOpposite
            ∪ vetoAdditions s junk VetoAdvisor.avoidWalls
            ∪ vetoAdditions s junk VetoAdvisor.dontGoBack
            ∪ vetoAdditions s junk VetoAdvisor.situation
    ∧ (runVetoSequence s junk l b).vetoedActions
        = (advisorNotOpposite s junk b).vetoedActions ∪ (advisorAvoidWalls s b).vetoedActions
            ∪ (advisorDontGoBack s b).vetoedActions ∪ (advisorSituation s b).vetoedActions := by
  have hset : l.toFinset
      = [VetoAdvisor.notOpposite, VetoAdvisor.avoidWalls, VetoAdvisor.dontGoBack,
          VetoAdvisor.situation].toFinset := List.toFinset_eq_of_perm _ _ hl
  have hv : (runVetoSequence s junk l b).vetoedActions
        = b.vetoedActions ∪ vetoAdditions s junk VetoAdvisor.notOpposite
            ∪ vetoAdditions s junk VetoAdvisor.avoidWalls
            ∪ vetoAdditions s junk VetoAdvisor.dontGoBack
            ∪ vetoAdditions s junk VetoAdvisor.situation := by
    rw [runVetoSequence_vetoed, hset]
    ext a
    simp only [List.toFinset_cons, List.toFinset_nil, Finset.mem_union, Finset.mem_biUnion,
      Finset.mem_insert, Finset.mem_singleton, insert_emptyc_eq]
    constructor
    · rintro (h | ⟨adv, (rfl | rfl | rfl | rfl), h⟩)
      · exact Or.inl (Or.inl (Or.inl (Or.inl h)))
      · exact Or.inl (Or.inl (Or.inl (Or.inr h)))
      · exact Or.inl (Or.inl (Or.inr h))
      · exact Or.inl (Or.inr h)
      · exact Or.inr h
    · rintro ((((h | h) | h) | h) | h)
      · exact Or.inl h
      · exact Or.inr ⟨_, Or.inl rfl, h⟩
      · exact Or.inr ⟨_, Or.inr (Or.inl rfl), h⟩
      · exact Or.inr ⟨_, Or.inr (Or.inr (Or.inl rfl)), h⟩
      · exact Or.inr ⟨_, Or.inr (Or.inr (Or.inr rfl)), h⟩
  refine ⟨?_, hv, ?_⟩
  · rw [runVetoAdvisors_eq_sequence]
    apply beliefs_eq_of_fields
    · rw [runVetoSequence_vetoed, runVetoSequence_vetoed, hset]
    · rw [(runVetoSequence_frame s junk l b).1, (runVetoSequence_frame s junk _ b).1]
    · rw [(runVetoSequence_frame s junk l b).2, (runVetoSequence_frame s junk _ b).2]
  · rw [hv]
    have h1 := runVetoAdvisor_vetoed s junk VetoAdvisor.notOpposite b
    have h2 := runVetoAdvisor_vetoed s junk VetoAdvisor.avoidWalls b
    have h3 := runVetoAdvisor_vetoed s junk VetoAdvisor.dontGoBack b
    have h4 := runVetoAdvisor_vetoed s junk VetoAdvisor.situation b
    simp only [runVetoAdvisor] at h1 h2 h3 h4
    rw [h1, h2, h3, h4]
    ext a
    simp only [Finset.mem_union]
    tauto

/-- Witness of C27 on the sample snapshot: the four advisors run in the reverse order. -/
theorem C27_order_independent_witness :
    [VetoAdvisor.situation, VetoAdvisor.dontGoBack, VetoAdvisor.avoidWalls,
        VetoAdvisor.notOpposite].Perm
      [VetoAdvisor.notOpposite, VetoAdvisor.avoidWalls, VetoAdvisor.dontGoBack,
        VetoAdvisor.situation]
    ∧ runVetoSequence sampleSnapshot sampleJunk
          [VetoAdvisor.situation, VetoAdvisor.dontGoBack, VetoAdvisor.avoidWalls,
            VetoAdvisor.notOpposite] emptyBeliefs
        = runVetoAdvisors sampleSnapshot sampleJunk emptyBeliefs :=
  ⟨by decide,
    (C27_order_independent sampleSnapshot sampleJunk emptyBeliefs _ (by decide)).1⟩

/-! ## The barrier update -/

theorem foldl_push_back {α : Type} (l init : List α) :
    l.foldl (fun acc x => acc ++ [x]) init = init ++ l := by
  induction l generalizing init with
  | nil => simp
  | cons x xs ih => rw [List.foldl_cons, ih]; simp

theorem updateBarriers_eq (f : BarrierFunctions) (self : FORRBarriers)
    (H : List (List CartesianPoint)) (p : CartesianPoint) :
    FORRBarriers.updateBarriers f self H p
      = { barriers :=
            f.MergeNearbyBarriers []
              (f.CreateInitialSegments []
                (f.FindMostSimilarSegments []
                  (f.ListSimilarities [] (specCandidatePool f self.barriers H p)))
                (specCandidatePool f self.barriers H p)),
          laser_history := H, current_position := p } := by
  unfold FORRBarriers.updateBarriers specCandidatePool
  simp only [foldl_push_back, List.nil_append]

/-- C23, the barrier update uses a two-pool candidate set: for every barrier list `B` held, scan
history `H` and position `p`, `updateBarriers` replaces the barrier set by
`MergeNearbyBarriers (CreateInitialSegments (FindMostSimilarSegments (ListSimilarities C)) C)`
where the candidate list `C` is the segments `CreateSegments` extracts from `(p, H)` followed by
every element of `B` in order; it stores `H` and `p`; and the object after the update is the same
for any two objects that hold the same barriers, whatever laser history and position an earlier
update has stored in them. -/
theorem C23_barrier_update (f : BarrierFunctions) (self : FORRBarriers)
    (H : List (List CartesianPoint)) (p : CartesianPoint) :
    (FORRBarriers.updateBarriers f self H p).getBarriers
        = f.MergeNearbyBarriers []
            (f.CreateInitialSegments []
              (f.FindMostSimilarSegments []
                (f.ListSimilarities [] (f.CreateSegments [] p H ++ self.barriers)))
              (f.CreateSegments [] p H ++ self.barriers))
    ∧ (FORRBarriers.updateBarriers f self H p).laser_history = H
    ∧ (FORRBarriers.updateBarriers f self H p).current_position = p
    ∧ (∀ other : FORRBarriers, other.barriers = self.barriers →
        FORRBarriers.updateBarriers f other H p = FORRBarriers.updateBarriers f self H p) := by
  refine ⟨?_, ?_, ?_, ?_⟩
  · rw [updateBarriers_eq]
    rfl
  · rw [updateBarriers_eq]
  · rw [updateBarriers_eq]
  · intro other h
    rw [updateBarriers_eq, updateBarriers_eq, h]

/-- Witness of C23 with the sample barrier functions: an object that has already been updated once
and a fresh object that holds the same barriers give the same object after the next update. -/
theorem C23_barrier_update_witness :
    (FORRBarriers.mk
        (FORRBarriers.updateBarriers sampleBarrierFunctions
          (FORRBarriers.new (CartesianPoint.mk 0 0))
          [[CartesianPoint.mk 1 1]] (CartesianPoint.mk 3 4)).barriers
        [] (CartesianPoint.mk 0 0)).barriers
      = (FORRBarriers.updateBarriers sampleBarrierFunctions
          (FORRBarriers.new (CartesianPoint.mk 0 0))
          [[CartesianPoint.mk 1 1]] (CartesianPoint.mk 3 4)).barriers
    ∧ FORRBarriers.updateBarriers sampleBarrierFunctions
        (FORRBarriers.mk
          (FORRBarriers.updateBarriers sampleBarrierFunctions
            (FORRBarriers.new (CartesianPoint.mk 0 0))
            [[CartesianPoint.mk 1 1]] (CartesianPoint.mk 3 4)).barriers
          [] (CartesianPoint.mk 0 0))
        [[CartesianPoint.mk 2 2]] (CartesianPoint.mk 5 6)
      = FORRBarriers.updateBarriers sampleBarrierFunctions
          (FORRBarriers.updateBarriers sampleBarrierFunctions
            (FORRBarriers.new (CartesianPoint.mk 0 0))
            [[CartesianPoint.mk 1 1]] (CartesianPoint.mk 3 4))
          [[CartesianPoint.mk 2 2]] (CartesianPoint.mk 5 6) :=
  ⟨rfl,
    (C23_barrier_update sampleBarrierFunctions
      (FORRBarriers.updateBarriers sampleBarrierFunctions
        (FORRBarriers.new (CartesianPoint.mk 0 0))
        [[CartesianPoint.mk 1 1]] (CartesianPoint.mk 3 4))
      [[CartesianPoint.mk 2 2]] (CartesianPoint.mk 5 6)).2.2.2 _ rfl⟩

/-! ## The farthest candidate -/

theorem farthest_fold (l : List CartesianPoint) (m : ℚ) (a : CartesianPoint) :
    ((l.foldl (fun (acc : ℚ × CartesianPoint) p =>
          if distSq p gridCentre > acc.1 then (distSq p gridCentre, p) else acc) (m, a)) = (m, a)
        ∧ ∀ q ∈ l, distSq q gridCentre ≤ m)
    ∨ ∃ pre post r,
        (l.foldl (fun (acc : ℚ × CartesianPoint) p =>
          if distSq p gridCentre > acc.1 then (distSq p gridCentre, p) else acc) (m, a))
          = (distSq r gridCentre, r)
        ∧ l = pre ++ r :: post ∧ m < distSq r gridCentre
        ∧ (∀ q ∈ pre, distSq q gridCentre < distSq r gridCentre)
        ∧ ∀ q ∈ post, distSq q gridCentre ≤ distSq r gridCentre := by
  induction l generalizing m a with
  | nil => exact Or.inl ⟨rfl, fun q hq => absurd hq (List.not_mem_nil q)⟩
  | cons x xs ih =>
    rw [List.foldl_cons]
    by_cases hx : distSq x gridCentre > m
    · rw [if_pos hx]
      rcases ih (distSq x gridCentre) x with ⟨he, hall⟩ | ⟨pre, post, r, he, hl, hm, hpre, hpost⟩
      · exact Or.inr ⟨[], xs, x, he, rfl, hx, fun q hq => absurd hq (List.not_mem_nil q), hall⟩
      · refine Or.inr ⟨x :: pre, post, r, he, by rw [hl]; rfl, lt_trans hx hm, ?_, hpost⟩
        intro q hq
        rcases List.mem_cons.1 hq with rfl | hq
        · exact hm
        · exact hpre q hq
    · rw [if_neg hx]
      rcases ih m a with ⟨he, hall⟩ | ⟨pre, post, r, he, hl, hm, hpre, hpost⟩
      · refine Or.inl ⟨he, ?_⟩
        intro q hq
        rcases List.mem_cons.1 hq with rfl | hq
        · exact not_lt.1 hx
        · exact hall q hq
      · refine Or.inr ⟨x :: pre, post, r, he, by rw [hl]; rfl, hm, ?_, hpost⟩
        intro q hq
        rcases List.mem_cons.1 hq with rfl | hq
        · exact lt_of_le_of_lt (not_lt.1 hx) hm
        · exact hpre q hq

theorem distSq_pos_of_ne (p q : CartesianPoint) (h : p ≠ q) : distSq p q > 0 := by
  have h0 : 0 ≤ distSq p q := by
    unfold distSq
    exact add_nonneg (mul_self_nonneg _) (mul_self_nonneg _)
  rcases lt_or_eq_of_le h0 with hlt | heq
  · exact hlt
  · exfalso
    apply h
    have hz := (mul_self_add_mul_self_eq_zero (a := p.x - q.x) (b := p.y - q.y)).1 heq.symm
    cases p
    cases q
    simp only [CartesianPoint.mk.injEq]
    exact ⟨by linarith [hz.1], by linarith [hz.2]⟩

theorem farthestGridPosition_spec (dflt : CartesianPoint) (dests : List CartesianPoint)
    (h : ∃ p ∈ dests, p ≠ gridCentre) :
    ∃ pre post, dests = pre ++ farthestGridPosition dflt dests :: post
      ∧ 0 < distSq (farthestGridPosition dflt dests) gridCentre
      ∧ (∀ q ∈ pre, distSq q gridCentre < distSq (farthestGridPosition dflt dests) gridCentre)
      ∧ ∀ q ∈ post, distSq q gridCentre ≤ distSq (farthestGridPosition dflt dests) gridCentre := by
  obtain ⟨p, hp, hne⟩ := h
  unfold farthestGridPosition
  rcases farthest_fold dests 0 dflt with ⟨_, hall⟩ | ⟨pre, post, r, he, hl, hm, hpre, hpost⟩
  · exact absurd (hall p hp) (not_le.2 (distSq_pos_of_ne p gridCentre hne))
  · rw [he]
    exact ⟨pre, post, hl, hm, hpre, hpost⟩

/-- C21, farthest candidate: for a candidate list with at least one cell other than the grid
centre `(25, 25)`, the cell selected as `farthest_grid_position` is a member of the list, its
distance to the centre (squared, and so also the Euclidean distance itself) is at least that of
every candidate, and it is the first such cell of the list: every candidate before it is strictly
nearer to the centre. -/
theorem C21_farthest_candidate (dflt : CartesianPoint) (dests : List CartesianPoint)
    (h : ∃ p ∈ dests, p ≠ gridCentre) :
    farthestGridPosition dflt dests ∈ dests
    ∧ (∀ q ∈ dests,
        distSq q gridCentre ≤ distSq (farthestGridPosition dflt dests) gridCentre)
    ∧ (∀ q ∈ dests,
        Real.sqrt ((distSq q gridCentre : ℚ) : ℝ)
          ≤ Real.sqrt ((distSq (farthestGridPosition dflt dests) gridCentre : ℚ) : ℝ))
    ∧ (∃ pre post, dests = pre ++ farthestGridPosition dflt dests :: post
        ∧ ∀ q ∈ pre,
            distSq q gridCentre < distSq (farthestGridPosition dflt dests) gridCentre) := by
  obtain ⟨pre, post, hl, _, hpre, hpost⟩ := farthestGridPosition_spec dflt dests h
  have hmem : farthestGridPosition dflt dests ∈ dests := by
    have : farthestGridPosition dflt dests ∈ pre ++ farthestGridPosition dflt dests :: post :=
      List.mem_append_right _ (List.mem_cons_self _ _)
    rw [← hl] at this
    exact this
  have hmax : ∀ q ∈ dests,
      distSq q gridCentre ≤ distSq (farthestGridPosition dflt dests) gridCentre := by
    intro q hq
    rw [hl] at hq
    rcases List.mem_append.1 hq with hq | hq
    · exact le_of_lt (hpre q hq)
    · rcases List.mem_cons.1 hq with hq | hq
      · rw [hq]
      · exact hpost q hq
  refine ⟨hmem, hmax, ?_, pre, post, hl, hpre⟩
  intro q hq
  exact Real.sqrt_le_sqrt (by exact_mod_cast hmax q hq)

/-- Witness of C21 on a list of three candidates, two of them at the largest distance: the first
of the two is selected. -/
theorem C21_farthest_candidate_witness :
    (∃ p ∈ [CartesianPoint.mk 25 26, CartesianPoint.mk 25 40, CartesianPoint.mk 40 25],
        p ≠ gridCentre)
    ∧ farthestGridPosition (CartesianPoint.mk 0 0)
          [CartesianPoint.mk 25 26, CartesianPoint.mk 25 40, CartesianPoint.mk 40 25]
        ∈ [CartesianPoint.mk 25 26, CartesianPoint.mk 25 40, CartesianPoint.mk 40 25] :=
  ⟨⟨CartesianPoint.mk 25 26, by simp, by decide⟩,
    (C21_farthest_candidate (CartesianPoint.mk 0 0)
      [CartesianPoint.mk 25 26, CartesianPoint.mk 25 40, CartesianPoint.mk 40 25]
      ⟨CartesianPoint.mk 25 26, by simp, by decide⟩).1⟩

/-! ## The planning branch, step by step -/

theorem getOutPlan_of_finished (s : Snapshot) (fuel : Nat) (decision : FORRAction)
    (b : Beliefs) (ps : List Position) (ls : List LaserScan) (last : Position)
    (dests sequence : List CartesianPoint)
    (hps : (List.range' 1 4).mapM (fun i => fromEnd s.getPositionHistory i) = some ps)
    (hls : (List.range' 1 4).mapM (fun i => fromEnd s.getAllLaserScanHistory i) = some ls)
    (hlast : fromEnd s.getPositionHistory 1 = some last)
    (hd : potentialDestinations (s.overlaySituations ls ps) = some dests)
    (hw : walk s.defaultPoint (s.overlaySituations ls ps)
        (farthestGridPosition s.defaultPoint dests) fuel gridCentre []
          = WalkOutcome.finished sequence) :
    getOutPlan s fuel decision b
      = GetOutOutcome.returned
          { decisionMade := false, decision := decision,
            beliefs := { b with waypointsCreated :=
              b.waypointsCreated
                ++ ((sequence ++ [farthestGridPosition s.defaultPoint dests]).map
                    (toWorldRounded s.roundDouble (s.cos last.theta) (s.sin last.theta)
                      last.x last.y)).reverse } } := by
  unfold getOutPlan
  simp only [hps, hls, hlast, hd, hw]

theorem getOutPlan_inv (s : Snapshot) (fuel : Nat) (decision : FORRAction) (b : Beliefs)
    (r : AdvisorReturn) (h : getOutPlan s fuel decision b = GetOutOutcome.returned r) :
    ∃ (ps : List Position) (ls : List LaserScan) (last : Position)
      (dests sequence : List CartesianPoint),
      (List.range' 1 4).mapM (fun i => fromEnd s.getPositionHistory i) = some ps
      ∧ (List.range' 1 4).mapM (fun i => fromEnd s.getAllLaserScanHistory i) = some ls
      ∧ fromEnd s.getPositionHistory 1 = some last
      ∧ potentialDestinations (s.overlaySituations ls ps) = some dests
      ∧ walk s.defaultPoint (s.overlaySituations ls ps)
          (farthestGridPosition s.defaultPoint dests) fuel gridCentre []
            = WalkOutcome.finished sequence
      ∧ r = { decisionMade := false, decision := decision,
              beliefs := { b with waypointsCreated :=
                b.waypointsCreated
                  ++ ((sequence ++ [farthestGridPosition s.defaultPoint dests]).map
                      (toWorldRounded s.roundDouble (s.cos last.theta) (s.sin last.theta)
                        last.x last.y)).reverse } } := by
  cases hps : (List.range' 1 4).mapM (fun i => fromEnd s.getPositionHistory i) with
  | none =>
    unfold getOutPlan at h
    simp only [hps] at h
    cases h
  | some ps =>
    cases hls : (List.range' 1 4).mapM (fun i => fromEnd s.getAllLaserScanHistory i) with
    | none =>
      unfold getOutPlan at h
      simp only [hps, hls] at h
      cases h
    | some ls =>
      cases hlast : fromEnd s.getPositionHistory 1 with
      | none =>
        unfold getOutPlan at h
        simp only [hps, hls, hlast] at h
        cases h
      | some last =>
        cases hd : potentialDestinations (s.overlaySituations ls ps) with
        | none =>
          unfold getOutPlan at h
          simp only [hps, hls, hlast, hd] at h
          cases h
        | some dests =>
          cases hw : walk s.defaultPoint (s.overlaySituations ls ps)
              (farthestGridPosition s.defaultPoint dests) fuel gridCentre [] with
          | outOfRange =>
            unfold getOutPlan at h
            simp only [hps, hls, hlast, hd, hw] at h
            cases h
          | outOfFuel =>
            unfold getOutPlan at h
            simp only [hps, hls, hlast, hd, hw] at h
            cases h
          | finished sequence =>
            rw [getOutPlan_of_finished s fuel decision b ps ls last dests sequence hps hls
              hlast hd hw] at h
            cases h
            exact ⟨ps, ls, last, dests, sequence, rfl, rfl, rfl, hd, hw, rfl⟩

theorem reversed_calls {α β : Type} (W : α → β) (sequence : List α) (far : α) :
    ((sequence ++ [far]).map W).reverse.length = (sequence ++ [far]).length
    ∧ (∀ k, k < (sequence ++ [far]).length →
        ((sequence ++ [far]).map W).reverse[k]?
          = ((sequence ++ [far])[(sequence ++ [far]).length - 1 - k]?).map W)
    ∧ ((sequence ++ [far]).map W).reverse.head? = some (W far)
    ∧ ((sequence ++ [far]).map W).reverse.getLast? = ((sequence ++ [far]).head?).map W := by
  refine ⟨by simp, ?_, by simp, by rw [List.getLast?_reverse, List.head?_map]⟩
  intro k hk
  rw [List.getElem?_reverse (by simpa using hk), List.getElem?_map, List.length_map]

/-- C22, waypoints are queued in reverse path order: when the planning branch of `advisorGetOut`
returns, with the grid path `p_0, ..., p_n` (the cells pushed by the walk, then the farthest
candidate), the calls of `createNewWaypoint` it has added are `n+1` in number, and the `k`-th call
(`k = 0..n`) has the world-coordinate image of `p_(n-k)` as its argument: the point
`((x-25)*cos - (y-25)*sin + x_curr, (y-25)*cos + (x-25)*sin + y_curr)` computed in doubles from
the cell `(x, y)`, with the cosine and sine of the heading and the coordinates of the last pose of
the position history.  The first call has the image of the farthest candidate and the last call
that of `p_0`, the cell nearest the robot. -/
theorem C22_waypoints_reversed (s : Snapshot) (fuel : Nat) (junk decision : FORRAction)
    (b : Beliefs) (r : AdvisorReturn)
    (hgate : s.getRobotConfined = true ∧ 5 ≤ s.getPreviousDecisions.length
      ∧ patternMatched s = true)
    (h : advisorGetOut s fuel junk decision b = GetOutOutcome.returned r) :
    ∃ (path : List CartesianPoint) (far : CartesianPoint) (last : Position),
      (∃ (ps : List Position) (ls : List LaserScan) (dests sequence : List CartesianPoint),
        (List.range' 1 4).mapM (fun i => fromEnd s.getPositionHistory i) = some ps
        ∧ (List.range' 1 4).mapM (fun i => fromEnd s.getAllLaserScanHistory i) = some ls
        ∧ potentialDestinations (s.overlaySituations ls ps) = some dests
        ∧ far = farthestGridPosition s.defaultPoint dests
        ∧ walk s.defaultPoint (s.overlaySituations ls ps) far fuel gridCentre []
            = WalkOutcome.finished sequence
        ∧ path = sequence ++ [far])
      ∧ fromEnd s.getPositionHistory 1 = some last
      ∧ ∃ (image : CartesianPoint → CartesianPoint) (calls : List CartesianPoint),
          (∀ p : CartesianPoint, image p = CartesianPoint.mk
            (s.roundDouble (s.roundDouble
              (s.roundDouble (s.roundDouble (p.x - 25) * s.cos last.theta)
                - s.roundDouble (s.roundDouble (p.y - 25) * s.sin last.theta)) + last.x))
            (s.roundDouble (s.roundDouble
              (s.roundDouble (s.roundDouble (p.y - 25) * s.cos last.theta)
                + s.roundDouble (s.roundDouble (p.x - 25) * s.sin last.theta)) + last.y)))
          ∧ r.beliefs.waypointsCreated = b.waypointsCreated ++ calls
          ∧ r.beliefs.vetoedActions = b.vetoedActions
          ∧ r.beliefs.planPositionUpdates = b.planPositionUpdates
          ∧ calls.length = path.length
          ∧ (∀ k, k < path.length → calls[k]? = (path[path.length - 1 - k]?).map image)
          ∧ calls.head? = some (image far)
          ∧ calls.getLast? = (path.head?).map image := by
  rw [advisorGetOut_eq, if_pos ⟨hgate.1, hgate.2.1⟩, if_pos hgate.2.2] at h
  obtain ⟨ps, ls, last, dests, sequence, hps, hls, hlast, hd, hw, hr⟩ :=
    getOutPlan_inv s fuel decision b r h
  have hc := reversed_calls
    (toWorldRounded s.roundDouble (s.cos last.theta) (s.sin last.theta) last.x last.y)
    sequence (farthestGridPosition s.defaultPoint dests)
  refine ⟨sequence ++ [farthestGridPosition s.defaultPoint dests],
    farthestGridPosition s.defaultPoint dests, last,
    ⟨ps, ls, dests, sequence, hps, hls, hd, rfl, hw, rfl⟩, hlast,
    toWorldRounded s.roundDouble (s.cos last.theta) (s.sin last.theta) last.x last.y, _,
    fun p => rfl, ?_, ?_, ?_, hc.1, hc.2.1, hc.2.2.1, hc.2.2.2⟩
  · rw [hr]
  · rw [hr]
  · rw [hr]

/-! ## The exit grid: a run of the planning branch that returns -/

theorem walk_at_farthest (dflt : CartesianPoint) (grid : List (List Int))
    (far : CartesianPoint) (fuel : Nat) (sequence : List CartesianPoint) :
    walk dflt grid far fuel far sequence = WalkOutcome.finished sequence := by
  cases fuel <;> simp [walk]

theorem exitGrid_rectangular : Rectangular exitGrid 51 51 := by
  unfold Rectangular exitGrid
  simp

set_option maxRecDepth 100000 in
theorem exitGrid_candidateCells : candidateCells exitGrid 51 51 = [(25, 26)] := by
  decide

theorem exitGrid_potentialDestinations :
    potentialDestinations exitGrid = some [CartesianPoint.mk 25 26] := by
  rw [potentialDestinations_of_rectangular exitGrid 51 51 exitGrid_rectangular
    (by decide) (by decide)]
  unfold specCandidates
  rw [exitGrid_candidateCells]
  simp

theorem exitGrid_farthest (dflt : CartesianPoint) :
    farthestGridPosition dflt [CartesianPoint.mk 25 26] = CartesianPoint.mk 25 26 := by
  apply farthestGridPosition_singleton
  unfold distSq gridCentre
  norm_num

theorem exitGrid_step (dflt : CartesianPoint) :
    walkStep dflt exitGrid (CartesianPoint.mk 25 26) (CartesianPoint.mk 25 25)
      = some ([CartesianPoint.mk 25 25], CartesianPoint.mk 25 26) := by
  have hf := freeNeighbors_only_up exitGrid 25 25 (-1) (-1) (-1) (by decide) (by decide)
    (by decide) (by decide) (by decide) (by decide) (by decide)
  have hp : CartesianPoint.mk (((25 : Int) : Int) : ℚ) ((25 + 1 : Int) : ℚ)
      = CartesianPoint.mk 25 26 := by norm_num
  rw [hp] at hf
  refine walkStep_of_single dflt exitGrid _ _ _ 25 25 ?_ ?_ (by decide) hf ?_
  · simp [truncToInt]
  · simp [truncToInt]
  · unfold distSq
    norm_num

theorem exitGrid_walk (dflt : CartesianPoint) (fuel : Nat) :
    walk dflt exitGrid (CartesianPoint.mk 25 26) (fuel + 1) gridCentre []
      = WalkOutcome.finished [CartesianPoint.mk 25 25] := by
  have hne : gridCentre ≠ CartesianPoint.mk 25 26 := by decide
  have hstep : walkStep dflt exitGrid (CartesianPoint.mk 25 26) gridCentre
      = some ([CartesianPoint.mk 25 25], CartesianPoint.mk 25 26) := exitGrid_step dflt
  simp only [walk, if_neg hne, hstep, List.nil_append]
  exact walk_at_farthest _ _ _ _ _

theorem exitGrid_image_far :
    toWorldRounded (fun q => q) 1 0 0 0 (CartesianPoint.mk 25 26) = CartesianPoint.mk 0 1 := by
  unfold toWorldRounded
  norm_num

theorem exitGrid_image_centre :
    toWorldRounded (fun q => q) 1 0 0 0 (CartesianPoint.mk 25 25) = CartesianPoint.mk 0 0 := by
  unfold toWorldRounded
  norm_num

theorem sampleExit_returns (fuel : Nat) (decision : FORRAction) (b : Beliefs) :
    advisorGetOut sampleExit (fuel + 1) sampleJunk decision b
      = GetOutOutcome.returned
          { decisionMade := false, decision := decision,
            beliefs := { b with waypointsCreated :=
              b.waypointsCreated ++ [CartesianPoint.mk 0 1, CartesianPoint.mk 0 0] } } := by
  have hpm : patternMatched sampleExit = true := by decide
  have e1 := exitGrid_image_far
  have e2 := exitGrid_image_centre
  rw [advisorGetOut_eq, if_pos ⟨rfl, by decide⟩, if_pos hpm]
  rw [getOutPlan_of_finished sampleExit (fuel + 1) decision b
    [Position.mk 0 0 0, Position.mk 0 0 0, Position.mk 0 0 0, Position.mk 0 0 0]
    [LaserScan.mk [], LaserScan.mk [], LaserScan.mk [], LaserScan.mk []]
    (Position.mk 0 0 0) [CartesianPoint.mk 25 26] [CartesianPoint.mk 25 25] rfl rfl rfl
    exitGrid_potentialDestinations
    (by rw [exitGrid_farthest]; exact exitGrid_walk _ fuel)]
  rw [exitGrid_farthest]
  show GetOutOutcome.returned
      { decisionMade := false, decision := decision,
        beliefs := { b with waypointsCreated :=
          b.waypointsCreated
            ++ [toWorldRounded (fun q => q) 1 0 0 0 (CartesianPoint.mk 25 26),
                toWorldRounded (fun q => q) 1 0 0 0 (CartesianPoint.mk 25 25)] } } = _
  rw [e1, e2]

/-- Witness of C22 on the exit grid, with the robot at the origin and heading along the first
axis: the path is `(25, 25), (25, 26)`, and the run that returns has queued the two waypoints
`(0, 1)`, the image of the farthest candidate `(25, 26)`, and then `(0, 0)`, the image of the
centre. -/
theorem C22_waypoints_reversed_witness :
    (sampleExit.getRobotConfined = true ∧ 5 ≤ sampleExit.getPreviousDecisions.length
      ∧ patternMatched sampleExit = true)
    ∧ advisorGetOut sampleExit 1 sampleJunk sampleJunk emptyBeliefs
        = GetOutOutcome.returned
            { decisionMade := false, decision := sampleJunk,
              beliefs := { emptyBeliefs with waypointsCreated :=
                emptyBeliefs.waypointsCreated
                  ++ [CartesianPoint.mk 0 1, CartesianPoint.mk 0 0] } }
    ∧ ∃ (path : List CartesianPoint) (far : CartesianPoint)
        (image : CartesianPoint → CartesianPoint) (calls : List CartesianPoint),
        [CartesianPoint.mk 0 1, CartesianPoint.mk 0 0] = emptyBeliefs.waypointsCreated ++ calls
        ∧ calls.length = path.length
        ∧ calls.head? = some (image far) := by
  have hgate : sampleExit.getRobotConfined = true ∧ 5 ≤ sampleExit.getPreviousDecisions.length
      ∧ patternMatched sampleExit = true := ⟨rfl, by decide, by decide⟩
  have hret := sampleExit_returns 0 sampleJunk emptyBeliefs
  obtain ⟨path, far, _, _, _, image, calls, _, hcalls, _, _, hlen, _, hhead, _⟩ :=
    C22_waypoints_reversed sampleExit 1 sampleJunk sampleJunk emptyBeliefs _ hgate hret
  exact ⟨hgate, hret, path, far, image, calls, hcalls, hlen, hhead⟩

/-! ## The blocked grid: no candidate, and a waypoint all the same -/

theorem freeNeighbors_no_free (grid : List (List Int)) (x y a b c d e f g h : Int)
    (ha : gridAt grid (x + 1) y = some a) (hb : gridAt grid x (y + 1) = some b)
    (hc : gridAt grid (x - 1) y = some c) (hd : gridAt grid x (y - 1) = some d)
    (he : gridAt grid (x + 1) (y + 1) = some e) (hf : gridAt grid (x - 1) (y + 1) = some f)
    (hg : gridAt grid (x + 1) (y - 1) = some g) (hh : gridAt grid (x - 1) (y - 1) = some h)
    (ha1 : a ≠ 1) (hb1 : b ≠ 1) (hc1 : c ≠ 1) (hd1 : d ≠ 1)
    (he1 : e ≠ 1) (hf1 : f ≠ 1) (hg1 : g ≠ 1) (hh1 : h ≠ 1) :
    freeNeighbors grid x y = some [] := by
  unfold freeNeighbors
  simp [ha, hb, hc, hd, he, hf, hg, hh, ha1, hb1, hc1, hd1, he1, hf1, hg1, hh1]

theorem blockedGrid_rectangular : Rectangular blockedGrid 51 51 := by
  unfold Rectangular blockedGrid
  simp

set_option maxRecDepth 100000 in
theorem blockedGrid_candidateCells : candidateCells blockedGrid 51 51 = [] := by
  decide

theorem blockedGrid_potentialDestinations : potentialDestinations blockedGrid = some [] := by
  rw [potentialDestinations_of_rectangular blockedGrid 51 51 blockedGrid_rectangular
    (by decide) (by decide)]
  unfold specCandidates
  rw [blockedGrid_candidateCells]
  rfl

theorem blockedGrid_step (dflt far : CartesianPoint) :
    walkStep dflt blockedGrid far (CartesianPoint.mk 25 25) = some ([], dflt) := by
  have hf := freeNeighbors_no_free blockedGrid 25 25 (-1) (-1) (-1) (-1) (-1) (-1) (-1) (-1)
    (by decide) (by decide) (by decide) (by decide) (by decide) (by decide) (by decide)
    (by decide) (by decide) (by decide) (by decide) (by decide) (by decide) (by decide)
    (by decide) (by decide)
  have hx : truncToInt (25 : ℚ) = 25 := by simp [truncToInt]
  have hh : gridAt blockedGrid 25 25 = some (-1) := by decide
  unfold walkStep
  simp only [hx, hh, hf, Option.bind_eq_bind, Option.some_bind, Option.pure_def]
  rfl

theorem blockedGrid_walk (dflt : CartesianPoint) (hne : gridCentre ≠ dflt) (fuel : Nat) :
    walk dflt blockedGrid dflt (fuel + 1) gridCentre [] = WalkOutcome.finished [] := by
  have hstep : walkStep dflt blockedGrid dflt gridCentre = some ([], dflt) :=
    blockedGrid_step dflt dflt
  simp only [walk, if_neg hne, hstep, List.append_nil]
  exact walk_at_farthest _ _ _ _ _

theorem sampleBlockedWith_walk (d : CartesianPoint) (fuel : Nat) :
    walk d blockedGrid d (fuel + 1) gridCentre [] = WalkOutcome.finished [] := by
  by_cases hne : gridCentre = d
  · rw [← hne]
    exact walk_at_farthest _ _ _ _ _
  · exact blockedGrid_walk d hne fuel

theorem sampleBlockedWith_returns (d : CartesianPoint) (fuel : Nat) (decision : FORRAction)
    (b : Beliefs) :
    advisorGetOut (sampleBlockedWith d) (fuel + 1) sampleJunk decision b
      = GetOutOutcome.returned
          { decisionMade := false, decision := decision,
            beliefs := { b with waypointsCreated :=
              b.waypointsCreated ++ [toWorld 1 0 0 0 d] } } := by
  have hpm : patternMatched (sampleBlockedWith d) = true :=
    (by decide : patternMatched sampleBlocked = true)
  have hlen : 5 ≤ (sampleBlockedWith d).getPreviousDecisions.length :=
    (by decide : 5 ≤ sampleBlocked.getPreviousDecisions.length)
  rw [advisorGetOut_eq, if_pos ⟨rfl, hlen⟩, if_pos hpm]
  rw [getOutPlan_of_finished (sampleBlockedWith d) (fuel + 1) decision b
    [Position.mk 0 0 0, Position.mk 0 0 0, Position.mk 0 0 0, Position.mk 0 0 0]
    [LaserScan.mk [], LaserScan.mk [], LaserScan.mk [], LaserScan.mk []]
    (Position.mk 0 0 0) [] [] rfl rfl rfl blockedGrid_potentialDestinations
    (sampleBlockedWith_walk d fuel)]
  rfl

theorem toWorld_origin :
    toWorld 1 0 0 0 (CartesianPoint.mk 0 0) = CartesianPoint.mk (-25) (-25) := by
  unfold toWorld
  norm_num

/-- C26, evaluated at the failing input.  On the grid whose cells are all occupied the candidate
search finds no candidate exit and `farthest_grid_position` stays default-constructed.  Whatever
point `d` a default-constructed `CartesianPoint` is, the walk ends at once (no neighbour of the
centre is free, so `closest_neighbor` is default-constructed as well) and the planning branch
queues one waypoint on the Task, the world image of `d`; for `d = (0, 0)` that is the point
`(-25, -25)`. -/
theorem C26_waypoint_without_candidate :
    potentialDestinations blockedGrid = some []
    ∧ (∀ (d : CartesianPoint) (fuel : Nat),
        advisorGetOut (sampleBlockedWith d) (fuel + 1) sampleJunk sampleJunk emptyBeliefs
          = GetOutOutcome.returned
              { decisionMade := false, decision := sampleJunk,
                beliefs := { emptyBeliefs with waypointsCreated := [toWorld 1 0 0 0 d] } })
    ∧ toWorld 1 0 0 0 (CartesianPoint.mk 0 0) = CartesianPoint.mk (-25) (-25) := by
  refine ⟨blockedGrid_potentialDestinations, ?_, toWorld_origin⟩
  intro d fuel
  rw [sampleBlockedWith_returns d fuel sampleJunk emptyBeliefs]
  rfl

/-! ## The corridor grid: the walk reads beyond the last row -/

theorem truncToInt_intCast (x : Int) : truncToInt ((x : Int) : ℚ) = x := by
  unfold truncToInt
  split_ifs
  · exact Int.floor_intCast x
  · exact Int.ceil_intCast x

theorem closestNeighbor_head (dflt far p : CartesianPoint) (rest : List CartesianPoint)
    (h : distSq p far < 100000 * 100000) (hrest : ∀ q ∈ rest, distSq p far ≤ distSq q far) :
    closestNeighbor dflt far (p :: rest) = p := by
  have hfold : ∀ (l : List CartesianPoint), (∀ q ∈ l, distSq p far ≤ distSq q far) →
      l.foldl (fun (acc : ℚ × CartesianPoint) q =>
        if distSq q far < acc.1 then (distSq q far, q) else acc) (distSq p far, p)
        = (distSq p far, p) := by
    intro l
    induction l with
    | nil => intro _; rfl
    | cons q qs ih =>
      intro hq
      rw [List.foldl_cons, if_neg (not_lt.2 (hq q (List.mem_cons_self _ _)))]
      exact ih (fun r hr => hq r (List.mem_cons_of_mem _ hr))
  unfold closestNeighbor
  rw [List.foldl_cons, if_pos h, hfold rest hrest]

theorem freeNeighbors_first_up (grid : List (List Int)) (x y b c d : Int)
    (ha : gridAt grid (x + 1) y = some 1) (hb : gridAt grid x (y + 1) = some b)
    (hc : gridAt grid (x - 1) y = some c) (hd : gridAt grid x (y - 1) = some d)
    (hb1 : b ≠ 1) (hd1 : d ≠ 1) :
    freeNeighbors grid x y
      = some (CartesianPoint.mk ((x + 1 : Int) : ℚ) ((y : Int) : ℚ)
          :: (if c = 1 then [CartesianPoint.mk ((x - 1 : Int) : ℚ) ((y : Int) : ℚ)] else [])) := by
  unfold freeNeighbors
  by_cases hc1 : c = 1
  · simp [ha, hb, hc, hd, hb1, hd1, hc1]
  · simp [ha, hb, hc, hd, hb1, hd1, hc1]

theorem freeNeighbors_beyond (grid : List (List Int)) (x y : Int)
    (ha : gridAt grid (x + 1) y = none) : freeNeighbors grid x y = none := by
  unfold freeNeighbors
  simp [ha]

theorem farthestGridPosition_last (dflt r : CartesianPoint) (pre : List CartesianPoint)
    (hr : r ≠ gridCentre) (hpre : ∀ q ∈ pre, distSq q gridCentre < distSq r gridCentre) :
    farthestGridPosition dflt (pre ++ [r]) = r := by
  obtain ⟨pre2, post2, hl, _, hpre2, hpost2⟩ :=
    farthestGridPosition_spec dflt (pre ++ [r]) ⟨r, by simp, hr⟩
  generalize farthestGridPosition dflt (pre ++ [r]) = f at hl hpre2 hpost2
  have hf : f ∈ pre ++ [r] := by rw [hl]; simp
  have hrm : r ∈ pre2 ++ f :: post2 := by rw [← hl]; simp
  have hle : distSq r gridCentre ≤ distSq f gridCentre := by
    rcases List.mem_append.1 hrm with h | h
    · exact le_of_lt (hpre2 r h)
    · rcases List.mem_cons.1 h with h | h
      · rw [h]
      · exact hpost2 r h
  rcases List.mem_append.1 hf with h | h
  · exact absurd (hpre f h) (not_lt.2 hle)
  · simpa using h

theorem corridorGrid_rectangular : Rectangular corridorGrid 51 51 := by
  unfold Rectangular corridorGrid
  simp

set_option maxRecDepth 100000 in
theorem corridorGrid_candidateCells :
    candidateCells corridorGrid 51 51
      = (List.range' 26 24).map (fun (i : Nat) => (i, 25)) ++ [(49, 27)] := by
  decide

theorem corridorGrid_potentialDestinations :
    potentialDestinations corridorGrid
      = some ((List.range' 26 24).map (fun (i : Nat) => CartesianPoint.mk (i : ℚ) 25)
          ++ [CartesianPoint.mk 49 27]) := by
  rw [potentialDestinations_of_rectangular corridorGrid 51 51 corridorGrid_rectangular
    (by decide) (by decide)]
  unfold specCandidates
  rw [corridorGrid_candidateCells]
  simp [Function.comp_def]

theorem corridorGrid_farthest (dflt : CartesianPoint) :
    farthestGridPosition dflt
      ((List.range' 26 24).map (fun (i : Nat) => CartesianPoint.mk (i : ℚ) 25)
        ++ [CartesianPoint.mk 49 27]) = CartesianPoint.mk 49 27 := by
  apply farthestGridPosition_last
  · decide
  · intro q hq
    obtain ⟨i, hi, rfl⟩ := List.mem_map.1 hq
    rw [List.mem_range'_1] at hi
    have h1 : (26 : ℚ) ≤ (i : ℚ) := by exact_mod_cast hi.1
    have h2 : (i : ℚ) ≤ 49 := by
      have : i ≤ 49 := by omega
      exact_mod_cast this
    unfold distSq gridCentre
    simp only []
    nlinarith

set_option maxRecDepth 100000 in
theorem corridorGrid_cells : ∀ k : Nat, k < 25 →
    gridAt corridorGrid ((k : Int) + 25) 25 = some 1
    ∧ gridAt corridorGrid ((k : Int) + 25 + 1) 25 = some 1
    ∧ gridAt corridorGrid ((k : Int) + 25) (25 + 1) = some (-1)
    ∧ gridAt corridorGrid ((k : Int) + 25) (25 - 1) = some (-1)
    ∧ (gridAt corridorGrid ((k : Int) + 25 - 1) 25 = some 1
        ∨ gridAt corridorGrid ((k : Int) + 25 - 1) 25 = some (-1)) := by
  decide

theorem corridorGrid_step (dflt : CartesianPoint) (x : Int) (h1 : 25 ≤ x) (h2 : x ≤ 49) :
    walkStep dflt corridorGrid (CartesianPoint.mk 49 27)
        (CartesianPoint.mk ((x : Int) : ℚ) ((25 : Int) : ℚ))
      = some ([CartesianPoint.mk ((x : Int) : ℚ) ((25 : Int) : ℚ)],
          CartesianPoint.mk ((x + 1 : Int) : ℚ) ((25 : Int) : ℚ)) := by
  have hcells := corridorGrid_cells (x - 25).toNat (by omega)
  have hx : (((x - 25).toNat : Nat) : Int) + 25 = x := by omega
  rw [hx] at hcells
  obtain ⟨hh, ha, hb, hd, hc⟩ := hcells
  have hx1 : (25 : ℚ) ≤ ((x : Int) : ℚ) := by exact_mod_cast h1
  have hx2 : ((x : Int) : ℚ) ≤ 49 := by exact_mod_cast h2
  have hclose : ∀ c : Int,
      closestNeighbor dflt (CartesianPoint.mk 49 27)
        (CartesianPoint.mk ((x + 1 : Int) : ℚ) ((25 : Int) : ℚ)
          :: (if c = 1 then [CartesianPoint.mk ((x - 1 : Int) : ℚ) ((25 : Int) : ℚ)] else []))
        = CartesianPoint.mk ((x + 1 : Int) : ℚ) ((25 : Int) : ℚ) := by
    intro c
    apply closestNeighbor_head
    · unfold distSq
      simp only []
      push_cast
      nlinarith
    · intro q hq
      split_ifs at hq
      · rw [List.mem_singleton] at hq
        rw [hq]
        unfold distSq
        simp only []
        push_cast
        nlinarith
      · exact absurd hq (List.not_mem_nil q)
  unfold walkStep
  simp only [truncToInt_intCast]
  have hclose2 := hclose 1
  rw [if_pos rfl] at hclose2
  have hclose1 := hclose (-1)
  rw [if_neg (by decide)] at hclose1
  rcases hc with hc | hc
  · rw [hh, freeNeighbors_first_up corridorGrid x 25 (-1) 1 (-1) ha hb hc hd (by decide)
      (by decide)]
    simp only [Option.bind_eq_bind, Option.some_bind, Option.pure_def, if_true, hclose2]
  · rw [hh, freeNeighbors_first_up corridorGrid x 25 (-1) (-1) (-1) ha hb hc hd (by decide)
      (by decide)]
    simp only [Option.bind_eq_bind, Option.some_bind, Option.pure_def, if_true, hclose1]
    simp only [show ((-1 : Int) = 1) = False from eq_false (by decide), if_false, hclose1]

theorem corridorGrid_border_step (dflt far : CartesianPoint) :
    walkStep dflt corridorGrid far (CartesianPoint.mk ((50 : Int) : ℚ) ((25 : Int) : ℚ))
      = none := by
  unfold walkStep
  simp only [truncToInt_intCast]
  rw [freeNeighbors_beyond corridorGrid 50 25 (by decide)]
  have hh : gridAt corridorGrid 50 25 = some 1 := by decide
  rw [hh]
  rfl

theorem corridor_ne_far (x : Int) :
    CartesianPoint.mk ((x : Int) : ℚ) ((25 : Int) : ℚ) ≠ CartesianPoint.mk 49 27 := by
  intro h
  have hy := congrArg CartesianPoint.y h
  simp only [] at hy
  norm_num at hy

theorem walk_succ_of_step (dflt : CartesianPoint) (grid : List (List Int))
    (far cur next : CartesianPoint) (pushed sequence : List CartesianPoint) (fuel : Nat)
    (hne : cur ≠ far) (hs : walkStep dflt grid far cur = some (pushed, next)) :
    walk dflt grid far (fuel + 1) cur sequence
      = walk dflt grid far fuel next (sequence ++ pushed) := by
  rw [walk, if_neg hne, hs]

theorem walk_succ_of_none (dflt : CartesianPoint) (grid : List (List Int))
    (far cur : CartesianPoint) (sequence : List CartesianPoint) (fuel : Nat)
    (hne : cur ≠ far) (hs : walkStep dflt grid far cur = none) :
    walk dflt grid far (fuel + 1) cur sequence = WalkOutcome.outOfRange := by
  rw [walk, if_neg hne, hs]

theorem corridorGrid_walk_from (dflt : CartesianPoint) (n : Nat) (hn : n ≤ 25) :
    ∀ (fuel : Nat) (sequence : List CartesianPoint),
      walk dflt corridorGrid (CartesianPoint.mk 49 27) (fuel + n + 1)
        (CartesianPoint.mk (((50 - (n : Int) : Int)) : ℚ) ((25 : Int) : ℚ)) sequence
        = WalkOutcome.outOfRange := by
  induction n with
  | zero =>
    intro fuel sequence
    have h50 : (50 - ((0 : Nat) : Int) : Int) = 50 := by norm_num
    rw [h50]
    exact walk_succ_of_none _ _ _ _ _ _ (corridor_ne_far 50) (corridorGrid_border_step _ _)
  | succ n ih =>
    intro fuel sequence
    have hstep := corridorGrid_step dflt (50 - ((n + 1 : Nat) : Int)) (by omega) (by omega)
    have hnext : (50 - ((n + 1 : Nat) : Int) + 1 : Int) = 50 - (n : Int) := by omega
    rw [hnext] at hstep
    have hfuel : fuel + (n + 1) + 1 = (fuel + n + 1) + 1 := by omega
    rw [hfuel, walk_succ_of_step _ _ _ _ _ _ _ _ (corridor_ne_far _) hstep]
    exact ih (by omega) fuel _

theorem corridorGrid_walk (dflt : CartesianPoint) (fuel : Nat) :
    walk dflt corridorGrid (CartesianPoint.mk 49 27) (fuel + 26) gridCentre []
      = WalkOutcome.outOfRange := by
  have h := corridorGrid_walk_from dflt 25 (le_refl 25) fuel []
  have hc : CartesianPoint.mk (((50 - ((25 : Nat) : Int) : Int)) : ℚ) ((25 : Int) : ℚ)
      = gridCentre := by
    unfold gridCentre
    norm_num
  rw [hc] at h
  exact h

theorem getOutPlan_outOfRange (s : Snapshot) (fuel : Nat) (decision : FORRAction) (b : Beliefs)
    (ps : List Position) (ls : List LaserScan) (last : Position)
    (dests : List CartesianPoint)
    (hps : (List.range' 1 4).mapM (fun i => fromEnd s.getPositionHistory i) = some ps)
    (hls : (List.range' 1 4).mapM (fun i => fromEnd s.getAllLaserScanHistory i) = some ls)
    (hlast : fromEnd s.getPositionHistory 1 = some last)
    (hd : potentialDestinations (s.overlaySituations ls ps) = some dests)
    (hw : walk s.defaultPoint (s.overlaySituations ls ps)
        (farthestGridPosition s.defaultPoint dests) fuel gridCentre []
          = WalkOutcome.outOfRange) :
    getOutPlan s fuel decision b = GetOutOutcome.outOfRange := by
  unfold getOutPlan
  simp only [hps, hls, hlast, hd, hw]

/-- C25, evaluated at the failing input.  The corridor grid has 51 rows of 51 cells, and its
candidate search reads inside the grid and selects `(49, 27)` as the farthest candidate.  The walk
then follows the free corridor from the centre to the border cell `(50, 25)`, where the pass reads
`grid[51][25]`, a row that the grid does not have: with 26 passes or more the run of
`advisorGetOut` ends in a read outside of the grid, whatever a default-constructed point is. -/
theorem C25_walk_reads_beyond_grid :
    Rectangular corridorGrid 51 51
    ∧ (∀ d : CartesianPoint, ∃ dests : List CartesianPoint,
        potentialDestinations corridorGrid = some dests
        ∧ farthestGridPosition d dests = CartesianPoint.mk 49 27)
    ∧ gridAt corridorGrid (50 + 1) 25 = none
    ∧ ∀ (d : CartesianPoint) (fuel : Nat),
        advisorGetOut (sampleCorridorWith d) (fuel + 26) sampleJunk sampleJunk emptyBeliefs
          = GetOutOutcome.outOfRange := by
  refine ⟨corridorGrid_rectangular,
    fun d => ⟨_, corridorGrid_potentialDestinations, corridorGrid_farthest d⟩, by decide, ?_⟩
  intro d fuel
  have hpm : patternMatched (sampleCorridorWith d) = true :=
    (by decide : patternMatched samplePocket = true)
  have hlen : 5 ≤ (sampleCorridorWith d).getPreviousDecisions.length :=
    (by decide : 5 ≤ samplePocket.getPreviousDecisions.length)
  rw [advisorGetOut_eq, if_pos ⟨rfl, hlen⟩, if_pos hpm]
  exact getOutPlan_outOfRange (sampleCorridorWith d) (fuel + 26) sampleJunk emptyBeliefs
    [Position.mk 0 0 0, Position.mk 0 0 0, Position.mk 0 0 0, Position.mk 0 0 0]
    [LaserScan.mk [], LaserScan.mk [], LaserScan.mk [], LaserScan.mk []]
    (Position.mk 0 0 0) _ rfl rfl rfl corridorGrid_potentialDestinations
    (by rw [corridorGrid_farthest]; exact corridorGrid_walk d fuel)

/-! ## The escape path is a chain of free cells -/

theorem foldlM_option_inv {α β : Type} (F : β → α → Option β) (P : β → Prop) (l : List α) :
    ∀ (init out : β), P init → (∀ acc x r, x ∈ l → P acc → F acc x = some r → P r) →
      l.foldlM F init = some out → P out := by
  induction l with
  | nil =>
    intro init out h0 _ h
    cases h
    exact h0
  | cons x xs ih =>
    intro init out h0 hstep h
    rw [List.foldlM_cons] at h
    cases hF : F init x with
    | none =>
      rw [hF] at h
      cases h
    | some r =>
      rw [hF] at h
      exact ih r out (hstep init x r (List.mem_cons_self _ _) h0 hF)
        (fun acc y r2 hy => hstep acc y r2 (List.mem_cons_of_mem _ hy)) h

theorem truncToInt_natCast (i : Nat) : truncToInt ((i : Nat) : ℚ) = (i : Int) := by
  have h := truncToInt_intCast (i : Int)
  rwa [Int.cast_natCast] at h

theorem isPotentialDestination_free (grid : List (List Int)) (i j : Nat)
    (h : isPotentialDestination grid i j = some true) : gridAt grid i j = some 1 := by
  unfold isPotentialDestination at h
  simp only [Option.bind_eq_bind, Option.bind_eq_some, Option.pure_def, Option.some.injEq] at h
  obtain ⟨up, _, left, _, down, _, right, _, here, hhere, hdec⟩ := h
  simp only [decide_eq_true_eq] at hdec
  rw [hhere, hdec.1]

theorem potentialDestinationsInRow_mem (grid : List (List Int)) (i : Nat)
    (r : List CartesianPoint) (h : potentialDestinationsInRow grid i = some r) :
    ∀ p ∈ r, ∃ j : Nat, 1 ≤ j ∧ p = CartesianPoint.mk (i : ℚ) (j : ℚ)
      ∧ gridAt grid i j = some 1 := by
  unfold potentialDestinationsInRow at h
  simp only [Option.bind_eq_bind, Option.bind_eq_some] at h
  obtain ⟨row, _, h⟩ := h
  split_ifs at h
  refine foldlM_option_inv _
    (fun acc => ∀ p ∈ acc, ∃ j : Nat, 1 ≤ j ∧ p = CartesianPoint.mk (i : ℚ) (j : ℚ)
      ∧ gridAt grid i j = some 1) _ [] r ?_ ?_ h
  · intro p hp
    exact absurd hp (List.not_mem_nil p)
  · intro acc j out hj hacc hF
    simp only [Option.bind_eq_bind, Option.bind_eq_some, Option.pure_def,
      Option.some.injEq] at hF
    obtain ⟨c, hc, hout⟩ := hF
    rw [List.mem_range'_1] at hj
    cases c with
    | false =>
      simp only [Bool.false_eq_true, if_false] at hout
      rw [← hout]
      exact hacc
    | true =>
      simp only [if_true] at hout
      rw [← hout]
      intro p hp
      rcases List.mem_append.1 hp with hp | hp
      · exact hacc p hp
      · rw [List.mem_singleton] at hp
        exact ⟨j, hj.1, hp, isPotentialDestination_free grid i j hc⟩

theorem potentialDestinations_mem (grid : List (List Int)) (dests : List CartesianPoint)
    (h : potentialDestinations grid = some dests) :
    ∀ p ∈ dests, ∃ i j : Nat, 1 ≤ i ∧ 1 ≤ j ∧ p = CartesianPoint.mk (i : ℚ) (j : ℚ)
      ∧ gridAt grid i j = some 1 := by
  unfold potentialDestinations at h
  split_ifs at h
  refine foldlM_option_inv _
    (fun acc => ∀ p ∈ acc, ∃ i j : Nat, 1 ≤ i ∧ 1 ≤ j ∧ p = CartesianPoint.mk (i : ℚ) (j : ℚ)
      ∧ gridAt grid i j = some 1) _ [] dests ?_ ?_ h
  · intro p hp
    exact absurd hp (List.not_mem_nil p)
  · intro acc i out hi hacc hF
    simp only [Option.bind_eq_bind, Option.bind_eq_some, Option.pure_def,
      Option.some.injEq] at hF
    obtain ⟨r, hr, hout⟩ := hF
    rw [List.mem_range'_1] at hi
    rw [← hout]
    intro p hp
    rcases List.mem_append.1 hp with hp | hp
    · exact hacc p hp
    · obtain ⟨j, hj, hpj, hfree⟩ := potentialDestinationsInRow_mem grid i r hr p hp
      exact ⟨i, j, hi.1, hj, hpj, hfree⟩

theorem gridAt_negative (grid : List (List Int)) (i j : Int) (h : i < 0 ∨ j < 0) :
    gridAt grid i j = none := by
  unfold gridAt
  rw [if_neg (by omega)]

theorem freeNeighbors_none_of_low (grid : List (List Int)) (x y : Int) (h : x ≤ 0 ∨ y ≤ 0) :
    freeNeighbors grid x y = none := by
  unfold freeNeighbors
  rcases h with h | h
  · have hc : gridAt grid (x - 1) y = none := gridAt_negative grid _ _ (Or.inl (by omega))
    cases ha : gridAt grid (x + 1) y <;> cases hb : gridAt grid x (y + 1) <;> simp [hc]
  · have hd : gridAt grid x (y - 1) = none := gridAt_negative grid _ _ (Or.inr (by omega))
    cases ha : gridAt grid (x + 1) y <;> cases hb : gridAt grid x (y + 1)
      <;> cases hc : gridAt grid (x - 1) y <;> simp [hd]

theorem walkStep_none_of_low (dflt : CartesianPoint) (grid : List (List Int))
    (far cur : CartesianPoint) (h : truncToInt cur.x ≤ 0 ∨ truncToInt cur.y ≤ 0) :
    walkStep dflt grid far cur = none := by
  unfold walkStep
  simp only [freeNeighbors_none_of_low grid _ _ h]
  cases gridAt grid (truncToInt cur.x) (truncToInt cur.y) <;> rfl

theorem walk_from_low (dflt : CartesianPoint) (grid : List (List Int))
    (far cur : CartesianPoint) (h : truncToInt cur.x ≤ 0 ∨ truncToInt cur.y ≤ 0)
    (hne : cur ≠ far) (fuel : Nat) (sequence out : List CartesianPoint) :
    walk dflt grid far fuel cur sequence ≠ WalkOutcome.finished out := by
  cases fuel with
  | zero =>
    rw [walk, if_neg hne]
    intro hc
    cases hc
  | succ n =>
    rw [walk_succ_of_none _ _ _ _ _ _ hne (walkStep_none_of_low dflt grid far cur h)]
    intro hc
    cases hc

theorem mem_ite_singleton {α : Type} (c : Prop) [Decidable c] (p q : α)
    (h : p ∈ (if c then [q] else [])) : c ∧ p = q := by
  split_ifs at h with hc
  · exact ⟨hc, List.mem_singleton.1 h⟩
  · exact absurd h (List.not_mem_nil p)

theorem mem_freeNeighbors (grid : List (List Int)) (x y : Int) (fn : List CartesianPoint)
    (h : freeNeighbors grid x y = some fn) (p : CartesianPoint) (hp : p ∈ fn) :
    ∃ a b : Int, p = CartesianPoint.mk ((a : Int) : ℚ) ((b : Int) : ℚ)
      ∧ gridAt grid a b = some 1
      ∧ -1 ≤ a - x ∧ a - x ≤ 1 ∧ -1 ≤ b - y ∧ b - y ≤ 1 ∧ (a ≠ x ∨ b ≠ y) := by
  unfold freeNeighbors at h
  cases ha : gridAt grid (x + 1) y with
  | none => rw [ha] at h; cases h
  | some a =>
  cases hb : gridAt grid x (y + 1) with
  | none => rw [ha, hb] at h; cases h
  | some b =>
  cases hc : gridAt grid (x - 1) y with
  | none => rw [ha, hb, hc] at h; cases h
  | some c =>
  cases hd : gridAt grid x (y - 1) with
  | none => rw [ha, hb, hc, hd] at h; cases h
  | some d =>
  rw [ha, hb, hc, hd] at h
  simp only [Option.bind_eq_bind, Option.some_bind] at h
  generalize hfour :
    ((((if a = 1 then [CartesianPoint.mk ((x + 1 : Int) : ℚ) ((y : Int) : ℚ)] else [])
    ++ (if b = 1 then [CartesianPoint.mk ((x : Int) : ℚ) ((y + 1 : Int) : ℚ)] else []))
    ++ (if c = 1 then [CartesianPoint.mk ((x - 1 : Int) : ℚ) ((y : Int) : ℚ)] else []))
    ++ (if d = 1 then [CartesianPoint.mk ((x : Int) : ℚ) ((y - 1 : Int) : ℚ)] else [])) = four
    at h
  by_cases hlen : four.length = 0
  · rw [if_pos hlen] at h
    cases he : gridAt grid (x + 1) (y + 1) with
    | none => rw [he] at h; cases h
    | some e =>
    cases hf : gridAt grid (x - 1) (y + 1) with
    | none => rw [he, hf] at h; cases h
    | some f =>
    cases hg : gridAt grid (x + 1) (y - 1) with
    | none => rw [he, hf, hg] at h; cases h
    | some g =>
    cases hk : gridAt grid (x - 1) (y - 1) with
    | none => rw [he, hf, hg, hk] at h; cases h
    | some k =>
    rw [he, hf, hg, hk] at h
    simp only [Option.some_bind, Option.pure_def, Option.some.injEq] at h
    rw [← h] at hp
    simp only [List.mem_append] at hp
    rcases hp with ((hp | hp) | hp) | hp
    · obtain ⟨h1, hpq⟩ := mem_ite_singleton _ _ _ hp
      rw [h1] at he
      exact ⟨x + 1, y + 1, hpq, he, by omega, by omega, by omega, by omega, Or.inl (by omega)⟩
    · obtain ⟨h1, hpq⟩ := mem_ite_singleton _ _ _ hp
      rw [h1] at hf
      exact ⟨x - 1, y + 1, hpq, hf, by omega, by omega, by omega, by omega, Or.inl (by omega)⟩
    · obtain ⟨h1, hpq⟩ := mem_ite_singleton _ _ _ hp
      rw [h1] at hg
      exact ⟨x + 1, y - 1, hpq, hg, by omega, by omega, by omega, by omega, Or.inl (by omega)⟩
    · obtain ⟨h1, hpq⟩ := mem_ite_singleton _ _ _ hp
      rw [h1] at hk
      exact ⟨x - 1, y - 1, hpq, hk, by omega, by omega, by omega, by omega, Or.inl (by omega)⟩
  · rw [if_neg hlen] at h
    simp only [Option.pure_def, Option.some.injEq] at h
    rw [← h, ← hfour] at hp
    simp only [List.mem_append] at hp
    rcases hp with ((hp | hp) | hp) | hp
    · obtain ⟨h1, hpq⟩ := mem_ite_singleton _ _ _ hp
      rw [h1] at ha
      exact ⟨x + 1, y, hpq, ha, by omega, by omega, by omega, by omega, Or.inl (by omega)⟩
    · obtain ⟨h1, hpq⟩ := mem_ite_singleton _ _ _ hp
      rw [h1] at hb
      exact ⟨x, y + 1, hpq, hb, by omega, by omega, by omega, by omega, Or.inr (by omega)⟩
    · obtain ⟨h1, hpq⟩ := mem_ite_singleton _ _ _ hp
      rw [h1] at hc
      exact ⟨x - 1, y, hpq, hc, by omega, by omega, by omega, by omega, Or.inl (by omega)⟩
    · obtain ⟨h1, hpq⟩ := mem_ite_singleton _ _ _ hp
      rw [h1] at hd
      exact ⟨x, y - 1, hpq, hd, by omega, by omega, by omega, by omega, Or.inr (by omega)⟩

theorem closestNeighbor_mem (dflt far : CartesianPoint) (l : List CartesianPoint) :
    closestNeighbor dflt far l = dflt ∨ closestNeighbor dflt far l ∈ l := by
  have hfold : ∀ (l : List CartesianPoint) (acc : ℚ × CartesianPoint),
      (l.foldl (fun (acc : ℚ × CartesianPoint) p =>
        if distSq p far < acc.1 then (distSq p far, p) else acc) acc).2 = acc.2
      ∨ (l.foldl (fun (acc : ℚ × CartesianPoint) p =>
        if distSq p far < acc.1 then (distSq p far, p) else acc) acc).2 ∈ l := by
    intro l
    induction l with
    | nil =>
      intro acc
      exact Or.inl rfl
    | cons x xs ih =>
      intro acc
      rw [List.foldl_cons]
      by_cases hx : distSq x far < acc.1
      · rw [if_pos hx]
        rcases ih (distSq x far, x) with h | h
        · right
          rw [h]
          exact List.mem_cons_self _ _
        · right
          exact List.mem_cons_of_mem _ h
      · rw [if_neg hx]
        rcases ih acc with h | h
        · left
          exact h
        · right
          exact List.mem_cons_of_mem _ h
  unfold closestNeighbor
  exact hfold l _

theorem adjacent_of_int (x y a b : Int) (h1 : -1 ≤ a - x) (h2 : a - x ≤ 1) (h3 : -1 ≤ b - y)
    (h4 : b - y ≤ 1) (hne : a ≠ x ∨ b ≠ y) :
    Adjacent (CartesianPoint.mk ((x : Int) : ℚ) ((y : Int) : ℚ))
      (CartesianPoint.mk ((a : Int) : ℚ) ((b : Int) : ℚ)) := by
  have q1 : (-1 : ℚ) ≤ ((a : Int) : ℚ) - ((x : Int) : ℚ) := by exact_mod_cast h1
  have q2 : ((a : Int) : ℚ) - ((x : Int) : ℚ) ≤ 1 := by exact_mod_cast h2
  have q3 : (-1 : ℚ) ≤ ((b : Int) : ℚ) - ((y : Int) : ℚ) := by exact_mod_cast h3
  have q4 : ((b : Int) : ℚ) - ((y : Int) : ℚ) ≤ 1 := by exact_mod_cast h4
  refine ⟨?_, ?_, ?_⟩
  · simp only []
    rw [abs_le]
    constructor <;> linarith
  · simp only []
    rw [abs_le]
    constructor <;> linarith
  · intro heq
    have hx := congrArg CartesianPoint.x heq
    have hy := congrArg CartesianPoint.y heq
    simp only [Int.cast_inj] at hx hy
    omega

theorem walkStep_inv (dflt : CartesianPoint) (grid : List (List Int)) (far : CartesianPoint)
    (x y : Int) (pushed : List CartesianPoint) (next : CartesianPoint)
    (h : walkStep dflt grid far (CartesianPoint.mk ((x : Int) : ℚ) ((y : Int) : ℚ))
      = some (pushed, next)) :
    ((pushed = [CartesianPoint.mk ((x : Int) : ℚ) ((y : Int) : ℚ)]
        ∧ FreeCell grid (CartesianPoint.mk ((x : Int) : ℚ) ((y : Int) : ℚ)))
      ∨ (pushed = [] ∧ ¬ FreeCell grid (CartesianPoint.mk ((x : Int) : ℚ) ((y : Int) : ℚ))))
    ∧ (next = dflt
      ∨ ∃ a b : Int, next = CartesianPoint.mk ((a : Int) : ℚ) ((b : Int) : ℚ)
          ∧ FreeCell grid next
          ∧ Adjacent (CartesianPoint.mk ((x : Int) : ℚ) ((y : Int) : ℚ)) next) := by
  unfold walkStep at h
  simp only [truncToInt_intCast, Option.bind_eq_bind, Option.bind_eq_some, Option.pure_def,
    Option.some.injEq, Prod.mk.injEq] at h
  obtain ⟨here, hh, fn, hf, hp, hn⟩ := h
  constructor
  · unfold FreeCell
    simp only [truncToInt_intCast, hh, Option.some.injEq]
    by_cases h1 : here = 1
    · rw [if_pos h1] at hp
      exact Or.inl ⟨hp.symm, h1⟩
    · rw [if_neg h1] at hp
      exact Or.inr ⟨hp.symm, h1⟩
  · rcases closestNeighbor_mem dflt far fn with hc | hc
    · left
      rw [← hn]
      exact hc
    · right
      rw [hn] at hc
      obtain ⟨a, b, hab, hfree, h1, h2, h3, h4, hne⟩ := mem_freeNeighbors grid x y fn hf next hc
      refine ⟨a, b, hab, ?_, ?_⟩
      · unfold FreeCell
        rw [hab]
        simp only [truncToInt_intCast]
        exact hfree
      · rw [hab]
        exact adjacent_of_int x y a b h1 h2 h3 h4 hne

theorem walk_chain (dflt : CartesianPoint) (grid : List (List Int)) (far : CartesianPoint)
    (hdflt : truncToInt dflt.x ≤ 0 ∨ truncToInt dflt.y ≤ 0) (hne : dflt ≠ far) :
    ∀ (fuel : Nat) (cur : CartesianPoint) (sequence out : List CartesianPoint),
      (∃ x y : Int, cur = CartesianPoint.mk ((x : Int) : ℚ) ((y : Int) : ℚ)) →
      (∀ p ∈ sequence, FreeCell grid p) →
      List.Chain' Adjacent (sequence ++ [cur]) →
      (FreeCell grid cur ∨ sequence = []) →
      walk dflt grid far fuel cur sequence = WalkOutcome.finished out →
      (∀ p ∈ out, FreeCell grid p) ∧ List.Chain' Adjacent (out ++ [far]) := by
  intro fuel
  induction fuel with
  | zero =>
    intro cur sequence out _ hfree hchain _ hw
    rw [walk] at hw
    split_ifs at hw with hc
    cases hw
    rw [← hc]
    exact ⟨hfree, hchain⟩
  | succ n ih =>
    intro cur sequence out hint hfree hchain hcur hw
    by_cases hc : cur = far
    · rw [walk, if_pos hc] at hw
      cases hw
      rw [← hc]
      exact ⟨hfree, hchain⟩
    · cases hs : walkStep dflt grid far cur with
      | none =>
        rw [walk_succ_of_none _ _ _ _ _ _ hc hs] at hw
        cases hw
      | some res =>
        obtain ⟨pushed, next⟩ := res
        rw [walk_succ_of_step _ _ _ _ _ _ _ _ hc hs] at hw
        obtain ⟨x, y, hxy⟩ := hint
        rw [hxy] at hs
        obtain ⟨hpushed, hnext⟩ := walkStep_inv dflt grid far x y pushed next hs
        rw [← hxy] at hpushed hnext
        rcases hnext with hnext | ⟨a, b, hab, hnfree, hadj⟩
        · rw [hnext] at hw
          exact absurd hw (walk_from_low dflt grid far dflt hdflt hne n _ out)
        · refine ih next (sequence ++ pushed) out ⟨a, b, hab⟩ ?_ ?_ (Or.inl hnfree) hw
          · intro p hp
            rcases List.mem_append.1 hp with hp | hp
            · exact hfree p hp
            · rcases hpushed with ⟨hpu, hcf⟩ | ⟨hpu, _⟩
              · rw [hpu, List.mem_singleton] at hp
                rw [hp]
                exact hcf
              · rw [hpu] at hp
                exact absurd hp (List.not_mem_nil p)
          · rcases hpushed with ⟨hpu, _⟩ | ⟨hpu, hnf⟩
            · rw [hpu]
              refine List.Chain'.append hchain (List.chain'_singleton next) ?_
              intro u hu v hv
              have hlast : (sequence ++ [cur]).getLast? = some cur := by simp
              rw [hlast] at hu
              simp only [Option.mem_def, Option.some.injEq, List.head?_cons] at hu hv
              rw [← hu, ← hv]
              exact hadj
            · rcases hcur with hcur | hcur
              · exact absurd hcur hnf
              · rw [hpu, hcur]
                exact List.chain'_singleton next

/-- C24, escape path: take a default-constructed point that lies on or before the first row or
the first column of the grid, as the origin does.  For every grid whose candidate list holds a
cell other than the centre and on which the walk finishes, every cell of the grid path (the cells
pushed by the walk, then the farthest candidate) is inside the grid and has the value 1, every two
consecutive cells of the path are neighbours in the 8-neighbourhood, and the last cell of the path
is the farthest candidate. -/
theorem C24_escape_path_chain (dflt : CartesianPoint) (grid : List (List Int))
    (dests sequence : List CartesianPoint) (fuel : Nat)
    (hdflt : truncToInt dflt.x ≤ 0 ∨ truncToInt dflt.y ≤ 0)
    (hd : potentialDestinations grid = some dests)
    (hreal : ∃ p ∈ dests, p ≠ gridCentre)
    (hw : walk dflt grid (farthestGridPosition dflt dests) fuel gridCentre []
      = WalkOutcome.finished sequence) :
    (∀ p ∈ sequence ++ [farthestGridPosition dflt dests], FreeCell grid p)
    ∧ List.Chain' Adjacent (sequence ++ [farthestGridPosition dflt dests])
    ∧ (sequence ++ [farthestGridPosition dflt dests]).getLast?
        = some (farthestGridPosition dflt dests) := by
  obtain ⟨pre, post, hl, _, _, _⟩ := farthestGridPosition_spec dflt dests hreal
  have hmem : farthestGridPosition dflt dests ∈ dests := by
    have h : farthestGridPosition dflt dests
        ∈ pre ++ farthestGridPosition dflt dests :: post := by simp
    rw [← hl] at h
    exact h
  generalize farthestGridPosition dflt dests = far at hw hmem
  obtain ⟨i, j, hi, hj, hfar, hfree⟩ := potentialDestinations_mem grid dests hd far hmem
  have hfarFree : FreeCell grid far := by
    unfold FreeCell
    rw [hfar]
    simp only [truncToInt_natCast]
    exact hfree
  have hne : dflt ≠ far := by
    intro h
    rw [h, hfar] at hdflt
    simp only [truncToInt_natCast] at hdflt
    omega
  have hcentre : gridCentre = CartesianPoint.mk ((25 : Int) : ℚ) ((25 : Int) : ℚ) := by
    unfold gridCentre
    norm_num
  obtain ⟨hall, hchain⟩ := walk_chain dflt grid far hdflt hne fuel gridCentre [] sequence
    ⟨25, 25, hcentre⟩ (fun p hp => absurd hp (List.not_mem_nil p))
    (List.chain'_singleton gridCentre) (Or.inr rfl) hw
  refine ⟨?_, hchain, by simp⟩
  intro p hp
  rcases List.mem_append.1 hp with hp | hp
  · exact hall p hp
  · rw [List.mem_singleton] at hp
    rw [hp]
    exact hfarFree

/-- Witness of C24 on the exit grid, with the origin as the default-constructed point: the walk
finishes after one pass and the path is `(25, 25), (25, 26)`. -/
theorem C24_escape_path_chain_witness :
    (∀ p ∈ [CartesianPoint.mk 25 25]
        ++ [farthestGridPosition (CartesianPoint.mk 0 0) [CartesianPoint.mk 25 26]],
      FreeCell exitGrid p)
    ∧ List.Chain' Adjacent ([CartesianPoint.mk 25 25]
        ++ [farthestGridPosition (CartesianPoint.mk 0 0) [CartesianPoint.mk 25 26]])
    ∧ ([CartesianPoint.mk 25 25]
        ++ [farthestGridPosition (CartesianPoint.mk 0 0) [CartesianPoint.mk 25 26]]).getLast?
        = some (farthestGridPosition (CartesianPoint.mk 0 0) [CartesianPoint.mk 25 26]) :=
  C24_escape_path_chain (CartesianPoint.mk 0 0) exitGrid [CartesianPoint.mk 25 26]
    [CartesianPoint.mk 25 25] 1 (Or.inl (by simp [truncToInt]))
    exitGrid_potentialDestinations ⟨CartesianPoint.mk 25 26, by simp, by decide⟩
    (by rw [exitGrid_farthest]; exact exitGrid_walk _ 0)

/-! ## The pattern gate of GetOut -/

open FORRActionType in
/-- C12 as amended: when the robot is confined, there are at least five previous decisions and
the last four are all right turns of maximum intensity (`rotationCount/2`), `advisorGetOut` takes
the planning branch and does not commit to the fallback turn.  Whenever the position and scan
histories hold four entries, the candidate search stays inside the grid and the walk finishes
within the passes allowed, the run returns `decisionMade = false`, leaves the decision slot as it
was and has queued the escape path: the world images of the cells pushed by the walk and of the
farthest candidate, in reverse order.  Every run that returns has queued at least one waypoint
and returns `decisionMade = false`. -/
theorem C12_pattern_gate (s : Snapshot) (fuel : Nat) (junk decision : FORRAction) (b : Beliefs)
    (hc : s.getRobotConfined = true) (hlen : 5 ≤ s.getPreviousDecisions.length)
    (hp : ∀ a ∈ lastFourDecisions s,
      a.type = RIGHT_TURN ∧ a.parameter = ((s.rotationSetSize / 2 : Nat) : Int)) :
    advisorGetOut s fuel junk decision b = getOutPlan s fuel decision b
    ∧ (∀ (ps : List Position) (ls : List LaserScan) (last : Position)
        (dests sequence : List CartesianPoint),
        (List.range' 1 4).mapM (fun i => fromEnd s.getPositionHistory i) = some ps →
        (List.range' 1 4).mapM (fun i => fromEnd s.getAllLaserScanHistory i) = some ls →
        fromEnd s.getPositionHistory 1 = some last →
        potentialDestinations (s.overlaySituations ls ps) = some dests →
        walk s.defaultPoint (s.overlaySituations ls ps)
            (farthestGridPosition s.defaultPoint dests) fuel gridCentre []
          = WalkOutcome.finished sequence →
        advisorGetOut s fuel junk decision b
          = GetOutOutcome.returned
              { decisionMade := false, decision := decision,
                beliefs := { b with waypointsCreated :=
                  b.waypointsCreated
                    ++ ((sequence ++ [farthestGridPosition s.defaultPoint dests]).map
                        (toWorldRounded s.roundDouble (s.cos last.theta) (s.sin last.theta)
                          last.x last.y)).reverse } })
    ∧ (∀ r, advisorGetOut s fuel junk decision b = GetOutOutcome.returned r →
        r.decisionMade = false ∧ r.decision = decision
          ∧ ∃ path : List CartesianPoint, path ≠ []
              ∧ r.beliefs.waypointsCreated = b.waypointsCreated ++ path) := by
  have hpm : patternMatched s = true := (patternMatched_iff s).2 ⟨by omega, hp⟩
  have heq : advisorGetOut s fuel junk decision b = getOutPlan s fuel decision b := by
    rw [advisorGetOut_eq, if_pos ⟨hc, hlen⟩, if_pos hpm]
  refine ⟨heq, ?_, ?_⟩
  · intro ps ls last dests sequence hps hls hlast hd hw
    rw [heq]
    exact getOutPlan_of_finished s fuel decision b ps ls last dests sequence hps hls hlast hd hw
  · intro r hr
    rw [heq] at hr
    have h := getOutPlan_returned s fuel decision b r hr
    exact ⟨h.1, h.2.1, h.2.2.2.2⟩

/-- Witness of C12 on the exit grid: the robot is confined, the history is a forward move and
four right turns of maximum intensity, the walk finishes after one pass, and the run returns
`decisionMade = false` with the two waypoints `(0, 1)` and `(0, 0)` queued. -/
theorem C12_pattern_gate_witness :
    sampleExit.getRobotConfined = true
    ∧ 5 ≤ sampleExit.getPreviousDecisions.length
    ∧ (∀ a ∈ lastFourDecisions sampleExit,
        a.type = FORRActionType.RIGHT_TURN
          ∧ a.parameter = ((sampleExit.rotationSetSize / 2 : Nat) : Int))
    ∧ advisorGetOut sampleExit 1 sampleJunk sampleJunk emptyBeliefs
        = GetOutOutcome.returned
            { decisionMade := false, decision := sampleJunk,
              beliefs := { emptyBeliefs with waypointsCreated :=
                [CartesianPoint.mk 0 1, CartesianPoint.mk 0 0] } } := by
  have h := (C12_pattern_gate sampleExit 1 sampleJunk sampleJunk emptyBeliefs rfl (by decide)
    (by decide)).2.1
    [Position.mk 0 0 0, Position.mk 0 0 0, Position.mk 0 0 0, Position.mk 0 0 0]
    [LaserScan.mk [], LaserScan.mk [], LaserScan.mk [], LaserScan.mk []]
    (Position.mk 0 0 0) [CartesianPoint.mk 25 26] [CartesianPoint.mk 25 25] rfl rfl rfl
    exitGrid_potentialDestinations
    (by rw [exitGrid_farthest]; exact exitGrid_walk _ 0)
  refine ⟨rfl, by decide, by decide, ?_⟩
  rw [h, exitGrid_farthest]
  show GetOutOutcome.returned
      { decisionMade := false, decision := sampleJunk,
        beliefs := { emptyBeliefs with waypointsCreated :=
          [toWorldRounded (fun q => q) 1 0 0 0 (CartesianPoint.mk 25 26),
            toWorldRounded (fun q => q) 1 0 0 0 (CartesianPoint.mk 25 25)] } } = _
  rw [exitGrid_image_far, exitGrid_image_centre]

/-! ## The cycle: what a commit depends on -/

theorem advisorVictory_independent (s : Snapshot) (decision : FORRAction) (b b2 : Beliefs) :
    (advisorVictory s decision b).decisionMade = (advisorVictory s decision b2).decisionMade
    ∧ (advisorVictory s decision b).decision = (advisorVictory s decision b2).decision := by
  cases hs : steeringAction s with
  | none =>
    rw [advisorVictory_of_none s decision b hs, advisorVictory_of_none s decision b2 hs]
    exact ⟨rfl, rfl⟩
  | some a =>
    have h1 := advisorVictory_of_some s decision b a hs
    have h2 := advisorVictory_of_some s decision b2 a hs
    exact ⟨h1.2.trans h2.2.symm, h1.1.trans h2.1.symm⟩

theorem advisorVictory_commit_steering (s : Snapshot) (decision : FORRAction) (b : Beliefs)
    (h : (advisorVictory s decision b).decisionMade = true) :
    steeringAction s = some (advisorVictory s decision b).decision
    ∧ victoryCondition s (advisorVictory s decision b).decision = true := by
  cases hs : steeringAction s with
  | none =>
    rw [advisorVictory_of_none s decision b hs] at h
    cases h
  | some a =>
    have h1 := advisorVictory_of_some s decision b a hs
    rw [h1.1]
    rw [h1.2] at h
    exact ⟨rfl, h⟩

theorem sampleSnapshot_victory :
    (advisorVictory sampleSnapshot sampleJunk
        (runVetoAdvisors sampleSnapshot sampleJunk emptyBeliefs)).decisionMade = true
    ∧ (advisorVictory sampleSnapshot sampleJunk
        (runVetoAdvisors sampleSnapshot sampleJunk emptyBeliefs)).decision
          = FORRAction.mk FORRActionType.FORWARD 2 := by
  constructor
  · simp [advisorVictory, sampleSnapshot, victoryCondition]
    norm_num
  · simp [advisorVictory, sampleSnapshot, victoryCondition]
    norm_num

open FORRActionType in
/-- C3 as amended: the commits do not consult the vetoed set.  In every cycle (the veto advisors,
then Victory, then GetOut unless Victory has committed) that ends with a committed action, the
vetoed set is left as the veto advisors made it; the committed action is either the steering
action of `moveTowards`, which passes the commit test of Victory, or, Victory not committing, the
fallback `RIGHT_TURN (rotationCount/2)` of GetOut with the robot confined, at least five previous
decisions and no pattern of four maximum right turns; and the cycle commits to the same action
whatever vetoed set it starts from. -/
theorem C3_commit_ignores_vetoes (s : Snapshot) (fuel : Nat) (junk decision : FORRAction)
    (b : Beliefs) (r : AdvisorReturn)
    (h : tierOneDecision s fuel junk decision b = GetOutOutcome.returned r)
    (hd : r.decisionMade = true) :
    r.beliefs.vetoedActions = (runVetoAdvisors s junk b).vetoedActions
    ∧ ((steeringAction s = some r.decision ∧ victoryCondition s r.decision = true)
        ∨ ((∀ a, steeringAction s = some a → victoryCondition s a = false)
            ∧ s.getRobotConfined = true ∧ 5 ≤ s.getPreviousDecisions.length
            ∧ patternMatched s = false
            ∧ r.decision = FORRAction.mk RIGHT_TURN ((s.rotationSetSize / 2 : Nat) : Int)))
    ∧ (∀ b2 : Beliefs, ∃ r2,
        tierOneDecision s fuel junk decision b2 = GetOutOutcome.returned r2
          ∧ r2.decisionMade = true ∧ r2.decision = r.decision) := by
  cases hv : (advisorVictory s decision (runVetoAdvisors s junk b)).decisionMade with
  | true =>
    rw [tierOneDecision_of_victory s fuel junk decision b hv] at h
    cases h
    refine ⟨advisorVictory_vetoed s decision _,
      Or.inl (advisorVictory_commit_steering s decision _ hv), ?_⟩
    intro b2
    have hind := advisorVictory_independent s decision (runVetoAdvisors s junk b)
      (runVetoAdvisors s junk b2)
    have hv2 : (advisorVictory s decision (runVetoAdvisors s junk b2)).decisionMade = true := by
      rw [← hind.1]
      exact hv
    exact ⟨_, tierOneDecision_of_victory s fuel junk decision b2 hv2, hv2, hind.2.symm⟩
  | false =>
    rw [tierOneDecision_of_not_victory s fuel junk decision b hv, advisorGetOut_eq] at h
    have hnone : ∀ a, steeringAction s = some a → victoryCondition s a = false := by
      intro a ha
      rw [← (advisorVictory_of_some s decision (runVetoAdvisors s junk b) a ha).2]
      exact hv
    by_cases hgate : s.getRobotConfined = true ∧ 5 ≤ s.getPreviousDecisions.length
    · rw [if_pos hgate] at h
      cases hpm : patternMatched s with
      | true =>
        rw [hpm, if_pos rfl] at h
        have hf := (getOutPlan_returned s fuel _ _ r h).1
        rw [hf] at hd
        cases hd
      | false =>
        rw [hpm, if_neg (by decide)] at h
        cases h
        refine ⟨advisorVictory_vetoed s decision _,
          Or.inr ⟨hnone, hgate.1, hgate.2, rfl, rfl⟩, ?_⟩
        intro b2
        have hind := advisorVictory_independent s decision (runVetoAdvisors s junk b)
          (runVetoAdvisors s junk b2)
        have hv2 : (advisorVictory s decision (runVetoAdvisors s junk b2)).decisionMade
            = false := by
          rw [← hind.1]
          exact hv
        refine ⟨{ decisionMade := true,
                  decision := FORRAction.mk RIGHT_TURN ((s.rotationSetSize / 2 : Nat) : Int),
                  beliefs := (advisorVictory s decision (runVetoAdvisors s junk b2)).beliefs },
          ?_, rfl, rfl⟩
        rw [tierOneDecision_of_not_victory s fuel junk decision b2 hv2, advisorGetOut_eq,
          if_pos hgate, hpm, if_neg (by decide)]
    · rw [if_neg hgate] at h
      cases h
      cases hd

/-- Witness of C3 as amended on the sample snapshot: the cycle returns with the commit of Victory
to `FORWARD 2`, which Situation has vetoed in the same cycle, and it commits to `FORWARD 2` from
every initial vetoed set. -/
theorem C3_commit_ignores_vetoes_witness :
    tierOneDecision sampleSnapshot 0 sampleJunk sampleJunk emptyBeliefs
      = GetOutOutcome.returned (advisorVictory sampleSnapshot sampleJunk
          (runVetoAdvisors sampleSnapshot sampleJunk emptyBeliefs))
    ∧ (advisorVictory sampleSnapshot sampleJunk
        (runVetoAdvisors sampleSnapshot sampleJunk emptyBeliefs)).decisionMade = true
    ∧ (∀ b2 : Beliefs, ∃ r2,
        tierOneDecision sampleSnapshot 0 sampleJunk sampleJunk b2 = GetOutOutcome.returned r2
          ∧ r2.decisionMade = true
          ∧ r2.decision = (advisorVictory sampleSnapshot sampleJunk
              (runVetoAdvisors sampleSnapshot sampleJunk emptyBeliefs)).decision) :=
  ⟨tierOneDecision_of_victory _ _ _ _ _ sampleSnapshot_victory.1, sampleSnapshot_victory.1,
    (C3_commit_ignores_vetoes sampleSnapshot 0 sampleJunk sampleJunk emptyBeliefs _
      (tierOneDecision_of_victory _ _ _ _ _ sampleSnapshot_victory.1)
      sampleSnapshot_victory.1).2.2⟩

end Semaforr
